import Mathlib

/-!
Verification development for the `mojom-language-support` server core
(`src/server/src/protocol.rs` and `src/server/src/server.rs`).

Streams of bytes are modelled as `List Char` (the wire traffic of this
server is UTF-8 text; `content_length` counts the characters of the model
stream).  Machine integers are modelled as `Nat`/`Int` with explicit
bounds where overflow matters (`usize` parsing bounds at `2^64`, `i32`
codes bound at `2^31`).  Fallible operations return `Option`/`Except`.
Loops that consume a stream are written with an explicit fuel argument
(initialised from the stream length by the wrappers), so every definition
is executable by the kernel.
-/

/-! ## Character helpers -/

/-- The set of characters recognised by Rust's `char::is_whitespace`
(the Unicode `White_Space` property), used by `str::trim`. -/
def isRustWs (c : Char) : Bool :=
  let n := c.toNat
  (0x09 ≤ n && n ≤ 0x0D) || n = 0x20 || n = 0x85 || n = 0xA0 || n = 0x1680 ||
  (0x2000 ≤ n && n ≤ 0x200A) || n = 0x2028 || n = 0x2029 || n = 0x202F ||
  n = 0x205F || n = 0x3000

/-- `str::trim`: remove whitespace from both ends. -/
def trim (s : List Char) : List Char :=
  ((s.dropWhile isRustWs).reverse.dropWhile isRustWs).reverse

/-- `u8::to_ascii_lowercase` lifted to `char` as done by
`str::to_ascii_lowercase`: map `A`..`Z` to `a`..`z`, leave the rest. -/
def asciiLower (c : Char) : Char :=
  if 65 ≤ c.toNat && c.toNat ≤ 90 then Char.ofNat (c.toNat + 32) else c

/-- ASCII decimal digit test (`char::is_ascii_digit` / what
`from_str_radix` accepts in base 10). -/
def isDigitC (c : Char) : Bool := 48 ≤ c.toNat && c.toNat ≤ 57

/-- Value of an ASCII decimal digit. -/
def digitVal (c : Char) : Nat := c.toNat - 48

/-- Decimal digit character for `d < 10` (as produced by Rust's integer
`Display` formatting). -/
def digitChar (d : Nat) : Char :=
  match d with
  | 0 => '0' | 1 => '1' | 2 => '2' | 3 => '3' | 4 => '4'
  | 5 => '5' | 6 => '6' | 7 => '7' | 8 => '8' | _ => '9'

/-- `BufRead::read_line`: consume characters up to and including the first
`'\n'` (or up to end of stream), returning the line and the remaining
stream.  The returned line is empty exactly when the stream is empty. -/
def readLine : List Char → List Char × List Char
  | [] => ([], [])
  | c :: rest =>
    if c = '\n' then ([c], rest)
    else
      let p := readLine rest
      (c :: p.1, p.2)

/-- Helper of `splitCS`: prepend a character to the first field. -/
def consField (c : Char) : List (List Char) → List (List Char)
  | [] => [[c]]
  | f :: fs => (c :: f) :: fs

/-- `str::split(": ")`: split on each leftmost, non-overlapping occurrence
of the two-character separator `": "`. -/
def splitCS : List Char → List (List Char)
  | [] => [[]]
  | c :: rest =>
    if c = ':' then
      match rest with
      | d :: rest2 =>
        if d = ' ' then [] :: splitCS rest2
        else consField c (splitCS (d :: rest2))
      | [] => consField c (splitCS [])
    else consField c (splitCS rest)

/-! ## Unsigned decimal parsing (`str::parse::<usize>`) -/

/-- `usize::MAX + 1` on a 64-bit target. -/
def usizeBound : Nat := 18446744073709551616

/-- The three `ParseIntError` causes reachable through
`str::parse::<usize>`. -/
inductive ParseIntError where
  | empty
  | invalidDigit
  | posOverflow
deriving DecidableEq

/-- `ParseIntError`'s `Display` output (used through
`io::Error::new(InvalidInput, e)`). -/
def parseIntErrorMsg : ParseIntError → List Char
  | .empty => "cannot parse integer from empty string".toList
  | .invalidDigit => "invalid digit found in string".toList
  | .posOverflow => "number too large to fit in target type".toList

/-- Digit-accumulation loop of `from_str_radix` for `usize`: checked
multiply/add, overflow reported at the step where it occurs. -/
def parseUsizeLoop : List Char → Nat → Except ParseIntError Nat
  | [], acc => .ok acc
  | c :: rest, acc =>
    if isDigitC c then
      let acc' := acc * 10 + digitVal c
      if acc' < usizeBound then parseUsizeLoop rest acc'
      else .error .posOverflow
    else .error .invalidDigit

/-- `str::parse::<usize>`: empty input is `Empty`; an optional leading
`+` sign; then at least one decimal digit, with overflow checking. -/
def parseUsize (s : List Char) : Except ParseIntError Nat :=
  match s with
  | [] => .error .empty
  | c :: rest =>
    if c = '+' then
      match rest with
      | [] => .error .empty
      | _ => parseUsizeLoop rest 0
    else parseUsizeLoop (c :: rest) 0

/-! ## Decimal rendering (Rust `Display` for unsigned integers) -/

/-- Digit-emission loop (most significant digit first is obtained by
prepending the least significant digit on each step).  `fuel ≥ n`
suffices for the loop to run to completion. -/
def natToDigitsAux : Nat → Nat → List Char → List Char
  | 0, _, acc => acc
  | fuel + 1, n, acc =>
    if n = 0 then acc
    else natToDigitsAux fuel (n / 10) (digitChar (n % 10) :: acc)

/-- Decimal rendering of a natural number, as produced by `write!`'s `{}`
formatting of an unsigned integer. -/
def natToDigits (n : Nat) : List Char :=
  if n = 0 then ['0'] else natToDigitsAux n n []

/-- Accumulated value of a digit string (most significant first). -/
def digitsToNat (s : List Char) : Nat :=
  s.foldl (fun a c => a * 10 + digitVal c) 0

example : natToDigits 208 = ['2', '0', '8'] := by decide
example : parseUsize ['2', '0', '8'] = .ok 208 := rfl
example : parseUsize ['+', '4', '2'] = .ok 42 := rfl
example : parseUsize [] = .error .empty := rfl
example : parseUsize ['4', 'x'] = .error .invalidDigit := rfl
example : trim " a b \r\n".toList = "a b".toList := by decide
example : splitCS "a: b: c".toList = ["a".toList, "b".toList, "c".toList] := by decide
example : readLine "ab\ncd".toList = ("ab\n".toList, "cd".toList) := by decide

/-! ## JSON values (`serde_json::Value`)

`serde_json::Value`'s `Object` is a `BTreeMap<String, Value>`: keys are
kept sorted (byte-lexicographic, which on UTF-8 equals code-point
order) and unique, with a later insertion of an existing key replacing
the earlier value.  Numbers carry `i64`/`u64` integers (floats are
outside this model; the parser rejects them and the repository never
produces one).  The nested lists are unfolded into the mutual types
`JsonArr`/`JsonObj` so that all recursions stay structural. -/

mutual

inductive Json where
  | null
  | bool (b : Bool)
  | num (i : Int)
  | str (s : List Char)
  | arr (items : JsonArr)
  | obj (members : JsonObj)

inductive JsonArr where
  | nil
  | cons (head : Json) (tail : JsonArr)

inductive JsonObj where
  | nil
  | cons (key : List Char) (value : Json) (tail : JsonObj)

end

/-- Byte-lexicographic (= code-point lexicographic) strict order on
strings, the `Ord` used by `BTreeMap<String, _>`. -/
def strLt : List Char → List Char → Bool
  | [], [] => false
  | [], _ :: _ => true
  | _ :: _, [] => false
  | a :: as, b :: bs =>
    if a.toNat < b.toNat then true
    else if b.toNat < a.toNat then false
    else strLt as bs

def containsKey : JsonObj → List Char → Bool
  | .nil, _ => false
  | .cons k _ rest, key => k = key || containsKey rest key

/-- `BTreeMap` lookup. -/
def lookupKey : JsonObj → List Char → Option Json
  | .nil, _ => none
  | .cons k v rest, key => if k = key then some v else lookupKey rest key

/-- Ordered insertion (replacing an equal key), as `BTreeMap::insert`. -/
def insertSorted (key : List Char) (v : Json) : JsonObj → JsonObj
  | .nil => .cons key v .nil
  | .cons k' v' rest =>
    if strLt key k' then .cons key v (.cons k' v' rest)
    else if key = k' then .cons key v rest
    else .cons k' v' (insertSorted key v rest)

/-- Map building step used by the object parser below.  The parser folds
the member list from the right, so an earlier occurrence of a key that is
already present must be discarded: this realises serde_json's
left-to-right `BTreeMap::insert` semantics where the last duplicate
wins. -/
def insertMember (key : List Char) (v : Json) (m : JsonObj) : JsonObj :=
  if containsKey m key then m else insertSorted key v m

/-! ### Compact serialization (`serde_json::to_string`) -/

/-- Lower-case hexadecimal digit (serde_json's `\u00XX` escapes). -/
def hexDigitChar (d : Nat) : Char :=
  match d with
  | 0 => '0' | 1 => '1' | 2 => '2' | 3 => '3' | 4 => '4'
  | 5 => '5' | 6 => '6' | 7 => '7' | 8 => '8' | 9 => '9'
  | 10 => 'a' | 11 => 'b' | 12 => 'c' | 13 => 'd' | 14 => 'e' | _ => 'f'

/-- serde_json's string escaping: `"` and `\` get a backslash, the five
control characters with short forms use them, the remaining control
characters become `\u00XX`, and everything else (including non-ASCII) is
emitted verbatim. -/
def escapeChar (c : Char) : List Char :=
  if c = '"' then ['\\', '"']
  else if c = '\\' then ['\\', '\\']
  else if c.toNat = 0x08 then ['\\', 'b']
  else if c.toNat = 0x09 then ['\\', 't']
  else if c.toNat = 0x0A then ['\\', 'n']
  else if c.toNat = 0x0C then ['\\', 'f']
  else if c.toNat = 0x0D then ['\\', 'r']
  else if c.toNat < 0x20 then
    ['\\', 'u', '0', '0', hexDigitChar (c.toNat / 16), hexDigitChar (c.toNat % 16)]
  else [c]

def escapeString : List Char → List Char
  | [] => []
  | c :: rest => escapeChar c ++ escapeString rest

/-- A JSON string literal: quote, escaped content, quote. -/
def serializeString (s : List Char) : List Char :=
  '"' :: escapeString s ++ ['"']

/-- Decimal rendering of a serde_json integer (`i64`/`u64`). -/
def serializeInt (i : Int) : List Char :=
  if i < 0 then '-' :: natToDigits i.natAbs else natToDigits i.toNat

mutual

def serializeJson : Json → List Char
  | .null => 'n' :: 'u' :: 'l' :: 'l' :: []
  | .bool true => 't' :: 'r' :: 'u' :: 'e' :: []
  | .bool false => 'f' :: 'a' :: 'l' :: 's' :: 'e' :: []
  | .num i => serializeInt i
  | .str s => serializeString s
  | .arr items => '[' :: (serializeArr items ++ [']'])
  | .obj members => '\x7b' :: (serializeObj members ++ ['\x7d'])

def serializeArr : JsonArr → List Char
  | .nil => []
  | .cons v rest => serializeJson v ++ serializeArrTail rest

def serializeArrTail : JsonArr → List Char
  | .nil => []
  | .cons v rest => ',' :: (serializeJson v ++ serializeArrTail rest)

def serializeObj : JsonObj → List Char
  | .nil => []
  | .cons k v rest => serializeString k ++ ':' :: (serializeJson v ++ serializeObjTail rest)

def serializeObjTail : JsonObj → List Char
  | .nil => []
  | .cons k v rest => ',' :: (serializeString k ++ ':' :: (serializeJson v ++ serializeObjTail rest))

end

example : serializeJson (.arr (.cons .null (.cons (.bool true) .nil))) = "[null,true]".toList := by decide
example : serializeJson (.num (-12)) = "-12".toList := by decide
example :
    serializeJson (.obj (.cons "a".toList (.num 1) (.cons "b".toList (.str "x\n".toList) .nil))) =
      "\x7b\"a\":1,\"b\":\"x\\n\"\x7d".toList := by decide

/-! ### Parsing (`serde_json::from_slice`'s grammar, integer fragment)

Recursive-descent parser over the character stream.  A fuel argument
(consumed once per recursion step) keeps all definitions structural; the
entry point below supplies `length + 1` budget per nesting level, which
is always sufficient (shown by the round-trip lemmas).  Floating-point
numbers are outside the model: a number continuing with `.`/`e`/`E`
makes the parser fail instead of producing a float, and `\uXXXX` escapes
for surrogate pairs are rejected rather than combined.  Neither case is
producible by the serializer above. -/

/-- JSON insignificant whitespace. -/
def isWsJson (c : Char) : Bool := c = ' ' || c = '\t' || c = '\n' || c = '\r'

def skipWs (s : List Char) : List Char := s.dropWhile isWsJson

/-- Hexadecimal digit value. -/
def hexVal? (c : Char) : Option Nat :=
  if 48 ≤ c.toNat && c.toNat ≤ 57 then some (c.toNat - 48)
  else if 97 ≤ c.toNat && c.toNat ≤ 102 then some (c.toNat - 87)
  else if 65 ≤ c.toNat && c.toNat ≤ 70 then some (c.toNat - 55)
  else none

/-- Single-character escapes. -/
def unescapeChar (e : Char) : Option Char :=
  if e = '"' then some '"'
  else if e = '\\' then some '\\'
  else if e = '/' then some '/'
  else if e = 'b' then some '\x08'
  else if e = 'f' then some '\x0C'
  else if e = 'n' then some '\n'
  else if e = 'r' then some '\r'
  else if e = 't' then some '\t'
  else none

/-- Read four hexadecimal digits (the `\uXXXX` escape payload),
returning the code and the remaining stream. -/
def parseHex4 (s : List Char) : Option (Nat × List Char) :=
  match s with
  | [] => none
  | h1 :: s1 =>
    match hexVal? h1 with
    | none => none
    | some a =>
      match s1 with
      | [] => none
      | h2 :: s2 =>
        match hexVal? h2 with
        | none => none
        | some b =>
          match s2 with
          | [] => none
          | h3 :: s3 =>
            match hexVal? h3 with
            | none => none
            | some c =>
              match s3 with
              | [] => none
              | h4 :: s4 =>
                match hexVal? h4 with
                | none => none
                | some d => some (a * 4096 + b * 256 + c * 16 + d, s4)

/-- Parse the remainder of a string literal (after the opening quote),
returning the decoded content and the stream after the closing quote.
One unit of fuel is consumed per decoded character; callers pass the
stream length plus one, which always suffices. -/
def parseStringRest : Nat → List Char → Option (List Char × List Char)
  | 0, _ => none
  | fuel + 1, input =>
    match input with
    | [] => none
    | c :: rest =>
      if c = '"' then some ([], rest)
      else if c = '\\' then
        match rest with
        | [] => none
        | e :: rest2 =>
          if e = 'u' then
            match parseHex4 rest2 with
            | some (code, rest3) =>
              if code < 0xD800 then
                match parseStringRest fuel rest3 with
                | some (s, r) => some (Char.ofNat code :: s, r)
                | none => none
              else none
            | none => none
          else
            match unescapeChar e with
            | some d =>
              match parseStringRest fuel rest2 with
              | some (s, r) => some (d :: s, r)
              | none => none
            | none => none
      else if c.toNat < 0x20 then none
      else
        match parseStringRest fuel rest with
        | some (s, r) => some (c :: s, r)
        | none => none

/-- Longest prefix of decimal digits. -/
def takeDigits : List Char → List Char × List Char
  | [] => ([], [])
  | c :: rest =>
    if isDigitC c then
      let p := takeDigits rest
      (c :: p.1, p.2)
    else ([], c :: rest)

/-- Parse the digit block of a number: at least one digit, no leading
zero, and not continued by a fraction or exponent (floats are out of
the model). -/
def parseIntPart (s : List Char) : Option (Nat × List Char) :=
  let p := takeDigits s
  match p.1 with
  | [] => none
  | d :: tail =>
    if d = '0' && !tail.isEmpty then none
    else
      match p.2 with
      | [] => some (digitsToNat p.1, [])
      | c :: _ =>
        if c = '.' || c = 'e' || c = 'E' then none
        else some (digitsToNat p.1, p.2)

/-- Match an expected literal tail (for `null` / `true` / `false`). -/
def dropLit : List Char → List Char → Option (List Char)
  | [], s => some s
  | p :: ps, c :: cs => if c = p then dropLit ps cs else none
  | _ :: _, [] => none

/-- serde only materialises an integer `Value` when it fits `u64` (here:
non-negative side) or `i64` (negative side); otherwise it would fall back
to a float, which the model rejects. -/
def i64Bound : Nat := 9223372036854775808

mutual

def parseVal : Nat → List Char → Option (Json × List Char)
  | 0, _ => none
  | fuel + 1, input =>
    match skipWs input with
    | [] => none
    | c :: rest =>
      if c = 'n' then
        match dropLit ['u', 'l', 'l'] rest with
        | some r => some (.null, r)
        | none => none
      else if c = 't' then
        match dropLit ['r', 'u', 'e'] rest with
        | some r => some (.bool true, r)
        | none => none
      else if c = 'f' then
        match dropLit ['a', 'l', 's', 'e'] rest with
        | some r => some (.bool false, r)
        | none => none
      else if c = '"' then
        match parseStringRest (rest.length + 1) rest with
        | some (s, r) => some (.str s, r)
        | none => none
      else if c = '[' then
        match skipWs rest with
        | [] => none
        | d :: r2 =>
          if d = ']' then some (.arr .nil, r2)
          else
            match parseElems fuel (d :: r2) with
            | some (items, r) => some (.arr items, r)
            | none => none
      else if c = '\x7b' then
        match skipWs rest with
        | [] => none
        | d :: r2 =>
          if d = '\x7d' then some (.obj .nil, r2)
          else
            match parseMembers fuel (d :: r2) with
            | some (m, r) => some (.obj m, r)
            | none => none
      else if c = '-' then
        match parseIntPart rest with
        | some (m, r) => if m ≤ i64Bound then some (.num (-(m : Int)), r) else none
        | none => none
      else if isDigitC c then
        match parseIntPart (c :: rest) with
        | some (m, r) => if m < usizeBound then some (.num (m : Int), r) else none
        | none => none
      else none

def parseElems : Nat → List Char → Option (JsonArr × List Char)
  | 0, _ => none
  | fuel + 1, input =>
    match parseVal fuel input with
    | none => none
    | some (v, r) =>
      match skipWs r with
      | [] => none
      | c :: r2 =>
        if c = ',' then
          match parseElems fuel r2 with
          | some (items, r3) => some (.cons v items, r3)
          | none => none
        else if c = ']' then some (.cons v .nil, r2)
        else none

def parseMembers : Nat → List Char → Option (JsonObj × List Char)
  | 0, _ => none
  | fuel + 1, input =>
    match skipWs input with
    | [] => none
    | c :: r =>
      if c = '"' then
        match parseStringRest (r.length + 1) r with
        | none => none
        | some (k, r2) =>
          match skipWs r2 with
          | [] => none
          | d :: r3 =>
            if d = ':' then
              match parseVal fuel r3 with
              | none => none
              | some (v, r4) =>
                match skipWs r4 with
                | [] => none
                | e :: r5 =>
                  if e = ',' then
                    match parseMembers fuel r5 with
                    | some (m, r6) => some (insertMember k v m, r6)
                    | none => none
                  else if e = '\x7d' then some (insertMember k v .nil, r5)
                  else none
            else none
      else none

end

/-- Parse one complete JSON document (value plus only trailing
whitespace), as `serde_json::from_slice` followed by `end()`. -/
def parseDocument (buf : List Char) : Option Json :=
  match parseVal (buf.length + 1) buf with
  | some (v, rest) => if (skipWs rest).isEmpty then some v else none
  | none => none

example : parseDocument "[null, -3, \"a\\nb\"]".toList =
    some (.arr (.cons .null (.cons (.num (-3)) (.cons (.str "a\nb".toList) .nil)))) := rfl
example : parseDocument "\x7b\"b\":1,\"a\":2\x7d".toList =
    some (.obj (.cons "a".toList (.num 2) (.cons "b".toList (.num 1) .nil))) := rfl
example : parseDocument "\x7b\"a\":1,\"a\":2\x7d".toList =
    some (.obj (.cons "a".toList (.num 2) .nil)) := rfl
example : parseDocument "1.5".toList = none := rfl
example : parseDocument "01".toList = none := rfl

/-! ## Message model (`protocol.rs` data types)

The three wire shapes, with serde's derived serialization (struct fields
in declaration order, `skip_serializing_if = "Option::is_none"` on the
optional fields) and the untagged decoding of `enum Message` (variants
tried in declaration order: `Request`, `Response`, `Notofication`;
unknown object fields are ignored; an `Option<_>` field decodes JSON
`null` to `None`). -/

structure RequestMessage where
  id : Nat
  method : List Char
  params : Json

structure ResponseError where
  code : Int
  message : List Char
  data : Option Json

structure ResponseMessage where
  id : Nat
  result : Option Json
  error : Option ResponseError

structure NotificationMessage where
  method : List Char
  params : Json

inductive Message where
  | Request (req : RequestMessage)
  | Response (res : ResponseMessage)
  | Notofication (notif : NotificationMessage)

/-! ### Serialization (serde derive) -/

def serializeResponseError (e : ResponseError) : List Char :=
  '\x7b' :: ("\"code\":".toList ++ serializeInt e.code ++
    ",\"message\":".toList ++ serializeString e.message ++
    (match e.data with
     | none => []
     | some d => ",\"data\":".toList ++ serializeJson d) ++ ['\x7d'])

def serializeRequest (r : RequestMessage) : List Char :=
  '\x7b' :: ("\"id\":".toList ++ natToDigits r.id ++
    ",\"method\":".toList ++ serializeString r.method ++
    ",\"params\":".toList ++ serializeJson r.params ++ ['\x7d'])

def serializeResponseMsg (r : ResponseMessage) : List Char :=
  '\x7b' :: ("\"id\":".toList ++ natToDigits r.id ++
    (match r.result with
     | none => []
     | some v => ",\"result\":".toList ++ serializeJson v) ++
    (match r.error with
     | none => []
     | some e => ",\"error\":".toList ++ serializeResponseError e) ++ ['\x7d'])

def serializeNotification (n : NotificationMessage) : List Char :=
  '\x7b' :: ("\"method\":".toList ++ serializeString n.method ++
    ",\"params\":".toList ++ serializeJson n.params ++ ['\x7d'])

/-- `serde_json::to_string` of a `Message` (untagged enums serialize as
their payload). -/
def serializeMessage : Message → List Char
  | .Request r => serializeRequest r
  | .Response r => serializeResponseMsg r
  | .Notofication n => serializeNotification n

/-! ### Untagged decoding -/

/-- Decode a JSON value as a `u64`. -/
def asU64 : Json → Option Nat
  | .num i => if 0 ≤ i && i < (usizeBound : Int) then some i.toNat else none
  | _ => none

/-- Decode a JSON value as an `i32`. -/
def asI32 : Json → Option Int
  | .num i => if -(2147483648 : Int) ≤ i && i < 2147483648 then some i else none
  | _ => none

def asString : Json → Option (List Char)
  | .str s => some s
  | _ => none

/-- Field of type `Option<Value>`: a missing field and an explicit
`null` both decode to `None`. -/
def decodeOptValue (m : JsonObj) (key : List Char) : Option Json :=
  match lookupKey m key with
  | none => none
  | some .null => none
  | some v => some v

def decodeResponseError : Json → Option ResponseError
  | .obj m => do
    let cv ← lookupKey m "code".toList
    let code ← asI32 cv
    let mv ← lookupKey m "message".toList
    let msg ← asString mv
    some ⟨code, msg, decodeOptValue m "data".toList⟩
  | _ => none

def decodeRequest : Json → Option RequestMessage
  | .obj m => do
    let idv ← lookupKey m "id".toList
    let id ← asU64 idv
    let mv ← lookupKey m "method".toList
    let method ← asString mv
    let p ← lookupKey m "params".toList
    some ⟨id, method, p⟩
  | _ => none

def decodeResponse : Json → Option ResponseMessage
  | .obj m => do
    let idv ← lookupKey m "id".toList
    let id ← asU64 idv
    let err ←
      match lookupKey m "error".toList with
      | none => some none
      | some .null => some none
      | some ev => (decodeResponseError ev).map some
    some ⟨id, decodeOptValue m "result".toList, err⟩
  | _ => none

def decodeNotification : Json → Option NotificationMessage
  | .obj m => do
    let mv ← lookupKey m "method".toList
    let method ← asString mv
    let p ← lookupKey m "params".toList
    some ⟨method, p⟩
  | _ => none

/-- The untagged `Deserialize` of `enum Message`: try `Request`, then
`Response`, then `Notofication`. -/
def jsonToMessage (v : Json) : Option Message :=
  match decodeRequest v with
  | some r => some (.Request r)
  | none =>
    match decodeResponse v with
    | some r => some (.Response r)
    | none =>
      match decodeNotification v with
      | some n => some (.Notofication n)
      | none => none

/-- `Message::from_slice`. -/
def Message.from_slice (buf : List Char) : Option Message :=
  match parseDocument buf with
  | some v => jsonToMessage v
  | none => none

/-! ### Well-formedness

`Json.wf` characterises exactly the values representable as a
`serde_json::Value` on the Rust side: object keys sorted and unique (the
`BTreeMap` invariant) and integers in the `i64`/`u64` window. -/

/-- The key is strictly below the first key of the map (vacuously true
for the empty map). -/
def keyLtHead (k : List Char) : JsonObj → Bool
  | .nil => true
  | .cons k' _ _ => strLt k k'

mutual

def Json.wf : Json → Bool
  | .null => true
  | .bool _ => true
  | .num i => decide (-(i64Bound : Int) ≤ i) && decide (i < (usizeBound : Int))
  | .str _ => true
  | .arr items => JsonArr.wf items
  | .obj m => JsonObj.wf m

def JsonArr.wf : JsonArr → Bool
  | .nil => true
  | .cons v t => Json.wf v && JsonArr.wf t

def JsonObj.wf : JsonObj → Bool
  | .nil => true
  | .cons k v t => Json.wf v && keyLtHead k t && JsonObj.wf t

end

/-- A present optional `Value` survives the round trip only when it is
not the explicit `null` (serde folds `Some(Null)` to `None`). -/
def wfOptValue : Option Json → Bool
  | none => true
  | some .null => false
  | some v => v.wf

def ResponseError.wfB (e : ResponseError) : Bool :=
  decide (-(2147483648 : Int) ≤ e.code) && decide (e.code < 2147483648) &&
    wfOptValue e.data

/-- Messages representable on the Rust side whose optional `Value`
fields are not explicit `null`s. -/
def Message.wfB : Message → Bool
  | .Request r => decide (r.id < usizeBound) && r.params.wf
  | .Response r =>
    decide (r.id < usizeBound) && wfOptValue r.result &&
      (match r.error with
       | none => true
       | some e => e.wfB)
  | .Notofication n => n.params.wf

example :
    Message.from_slice "\x7b\"id\":1,\"method\":\"a\",\"params\":null\x7d".toList =
      some (.Request ⟨1, "a".toList, .null⟩) := rfl
example :
    Message.from_slice "\x7b\"method\":\"exit\",\"params\":null\x7d".toList =
      some (.Notofication ⟨"exit".toList, .null⟩) := rfl
example :
    Message.from_slice "\x7b\"id\":2,\"result\":5\x7d".toList =
      some (.Response ⟨2, some (.num 5), none⟩) := rfl
example :
    Message.from_slice "\x7b\"id\":2,\"result\":null\x7d".toList =
      some (.Response ⟨2, none, none⟩) := rfl
example : Message.from_slice "\x7b\"id\":1\x7d".toList =
    some (.Response ⟨1, none, none⟩) := rfl

/-! ## Framing codec (`protocol.rs`) -/

/-- The `io::Error` kinds produced by `read_header`. -/
inductive IOErrorKind where
  | unexpectedEof
  | invalidInput
deriving DecidableEq

structure IOError where
  kind : IOErrorKind
  msg : List Char
deriving DecidableEq

structure Header where
  content_length : Nat
deriving DecidableEq

/-- `protocol.rs`'s `enum Error`. -/
inductive Error where
  | ProtocolError (msg : List Char)
deriving DecidableEq

/-- The header loop of `read_header`: read a line; empty read is
`UnexpectedEof`; a bare CRLF terminates; otherwise the trimmed line must
split on `": "` into exactly two fields, and a `content-length` name
(after ASCII lowercasing) must carry a parseable `usize`.  One unit of
fuel is consumed per line; since every line takes at least one character
off the stream, `length + 1` fuel never runs out (`none` marks the
unreachable exhaustion case). -/
def readHeaderLoop : Nat → Option Nat → List Char →
    Option (Except IOError (Option Nat × List Char))
  | 0, _, _ => none
  | fuel + 1, content_length, input =>
    let line := (readLine input).1
    let rest := (readLine input).2
    if line.length = 0 then
      some (.error ⟨.unexpectedEof, "No header".toList⟩)
    else if line = ['\r', '\n'] then
      some (.ok (content_length, rest))
    else
      match splitCS (trim line) with
      | [nm, value] =>
        let name := nm.map asciiLower
        if name = "content-length".toList then
          match parseUsize value with
          | .error e => some (.error ⟨.invalidInput, parseIntErrorMsg e⟩)
          | .ok n => readHeaderLoop fuel (some n) rest
        else readHeaderLoop fuel content_length rest
      | _ => some (.error ⟨.invalidInput, "Invalid header".toList⟩)

/-- `read_header`, returning the parsed header and the remaining
stream. -/
def read_header (input : List Char) : Except IOError (Header × List Char) :=
  match readHeaderLoop (input.length + 1) none input with
  | some (.ok (some n, rest)) => .ok (⟨n⟩, rest)
  | some (.ok (none, _)) => .error ⟨.invalidInput, "No content type".toList⟩
  | some (.error e) => .error e
  | none => .error ⟨.invalidInput, "insufficient fuel".toList⟩

/-- `read_message`: header, then exactly `content_length` characters,
decoded as one `Message`.  The `io::Error` conversions go through
`Error::ProtocolError(err.to_string())`. -/
def read_message (input : List Char) : Except Error (Message × List Char) :=
  match read_header input with
  | .error e => .error (.ProtocolError e.msg)
  | .ok (h, rest) =>
    if rest.length < h.content_length then
      .error (.ProtocolError "failed to fill whole buffer".toList)
    else
      match Message.from_slice (rest.take h.content_length) with
      | some m => .ok (m, rest.drop h.content_length)
      | none => .error (.ProtocolError "Failed to parse message".toList)

/-- The byte output of `write_message` for an already-serialized body:
`Content-Length: <len>\r\n\r\n` followed by the body. -/
def write_message_bytes (body : List Char) : List Char :=
  "Content-Length: ".toList ++ natToDigits body.length ++
    "\r\n\r\n".toList ++ body

/-- `write_message` applied to a `Message` payload. -/
def write_message (msg : Message) : List Char :=
  write_message_bytes (serializeMessage msg)

/-! ### Outbound responses (`JsonRpcResponseMessage`) -/

structure JsonRpcResponseMessage where
  jsonrpc : List Char
  id : Nat
  result : Option Json
  error : Option ResponseError

/-- The value `write_success_response` constructs. -/
def successResponseValue (id : Nat) (result : Json) : JsonRpcResponseMessage :=
  ⟨"2.0".toList, id, some result, none⟩

/-- The value `write_error_response` constructs. -/
def errorResponseValue (id : Nat) (error : ResponseError) : JsonRpcResponseMessage :=
  ⟨"2.0".toList, id, none, some error⟩

/-- Serde serialization of `JsonRpcResponseMessage` (fields in
declaration order, optional fields skipped when `None`). -/
def serializeJsonRpcResponse (r : JsonRpcResponseMessage) : List Char :=
  '\x7b' :: ("\"jsonrpc\":".toList ++ serializeString r.jsonrpc ++
    ",\"id\":".toList ++ natToDigits r.id ++
    (match r.result with
     | none => []
     | some v => ",\"result\":".toList ++ serializeJson v) ++
    (match r.error with
     | none => []
     | some e => ",\"error\":".toList ++ serializeResponseError e) ++ ['\x7d'])

/-- `write_success_response`: bytes appended to the writer. -/
def write_success_response (id : Nat) (result : Json) : List Char :=
  write_message_bytes (serializeJsonRpcResponse (successResponseValue id result))

/-- `write_error_response`: bytes appended to the writer. -/
def write_error_response (id : Nat) (error : ResponseError) : List Char :=
  write_message_bytes (serializeJsonRpcResponse (errorResponseValue id error))

example : read_header "content-length: 208\r\n\r\n".toList = .ok (⟨208⟩, []) := rfl
example : read_header "Content-LENGTH: 7\r\nx-a: b\r\n\r\nrest".toList =
    .ok (⟨7⟩, "rest".toList) := rfl
example : read_header "x\r\n\r\n".toList =
    .error ⟨.invalidInput, "Invalid header".toList⟩ := rfl
example : read_header "a: b\r\n\r\n".toList =
    .error ⟨.invalidInput, "No content type".toList⟩ := rfl
example : read_header "a: b\r\n".toList =
    .error ⟨.unexpectedEof, "No header".toList⟩ := rfl
example :
    read_message (write_message (.Notofication ⟨"exit".toList, .null⟩)) =
      .ok (.Notofication ⟨"exit".toList, .null⟩, []) := rfl

/-! ## Typed extraction (`into_request_id_params` / `into_notification_params`)

The lsp_types method descriptor `R` is modelled by its two components:
the expected method string (`R::METHOD`) and the `Params` decoder
(`serde_json::from_value::<R::Params>`), passed explicitly.  The error
message of a failed params decode carries serde's debug output in the
source; the model keeps the fixed prefix. -/

def into_request_id_params {P : Type} (expectedMethod : List Char)
    (decodeParams : Json → Option P) (req : RequestMessage) :
    Except Error (Nat × P) :=
  if req.method ≠ expectedMethod then
    .error (.ProtocolError ("Expected ".toList ++ expectedMethod ++
      " but got ".toList ++ req.method))
  else
    match decodeParams req.params with
    | none => .error (.ProtocolError ("Failed to parse ".toList ++
        expectedMethod ++ " message.".toList))
    | some p => .ok (req.id, p)

def into_notification_params {P : Type} (expectedMethod : List Char)
    (decodeParams : Json → Option P) (notif : NotificationMessage) :
    Except Error P :=
  if notif.method ≠ expectedMethod then
    .error (.ProtocolError ("Expected ".toList ++ expectedMethod ++
      " but got ".toList ++ notif.method))
  else
    match decodeParams notif.params with
    | none => .error (.ProtocolError ("Failed to parse ".toList ++
        expectedMethod ++ " message.".toList))
    | some p => .ok p

/-! ## Server state machine (`server.rs`) -/

inductive State where
  | Initialized
  | ShuttingDown
deriving DecidableEq

structure ServerContext where
  state : State
  /-- Set when the `exit` notification is received (`i32` exit code). -/
  exit_code : Option Int

def ServerContext.new : ServerContext := ⟨.Initialized, none⟩

inductive ErrorCodes where
  | ParseError
  | InvalidRequest
  | MethodNotFound
  | InvalidParams
  | InternalError
  | serverErrorStart
  | serverErrorEnd
  | ServerNotInitialized
  | UnknownErrorCode
  | RequestCancelled
  | ContentModified
deriving DecidableEq

/-- `impl From<ErrorCodes> for i32`. -/
def errorCodeToInt : ErrorCodes → Int
  | .ParseError => -32700
  | .InvalidRequest => -32600
  | .MethodNotFound => -32601
  | .InvalidParams => -32602
  | .InternalError => -32603
  | .serverErrorStart => -32099
  | .serverErrorEnd => -32000
  | .ServerNotInitialized => -32002
  | .UnknownErrorCode => -32001
  | .RequestCancelled => -32800
  | .ContentModified => -32801

/-- `ResponseError::new`. -/
def ResponseError.new (code : ErrorCodes) (message : List Char) : ResponseError :=
  ⟨errorCodeToInt code, message, none⟩

/-! ### Request handlers -/

/-- `initialize_request`: the server was initialized by the handshake
already, so a later `initialize` is always `ServerNotInitialized`. -/
def initialize_request : Except ResponseError Json :=
  .error (ResponseError.new .ServerNotInitialized
    "Unexpected initialize message".toList)

/-- `shutdown_request`: move to `ShuttingDown` and reply `Value::Null`. -/
def shutdown_request (ctx : ServerContext) : ServerContext × Except ResponseError Json :=
  ({ ctx with state := .ShuttingDown }, .ok .null)

/-- `handle_request`: dispatch on the method name and write either a
success or an error response.  The writer is modelled by the returned
response value; `none` models the `unimplemented!()` panic on an
unrecognized method. -/
def handle_request (ctx : ServerContext) (msg : RequestMessage) :
    Option (ServerContext × JsonRpcResponseMessage) :=
  let id := msg.id
  if msg.method = "initialize".toList then
    match initialize_request with
    | .ok res => some (ctx, successResponseValue id res)
    | .error e => some (ctx, errorResponseValue id e)
  else if msg.method = "shutdown".toList then
    let p := shutdown_request ctx
    match p.2 with
    | .ok res => some (p.1, successResponseValue id res)
    | .error e => some (p.1, errorResponseValue id e)
  else none

/-! ### Notification handlers -/

/-- `exit_notification`: exit code 0 after a `shutdown`, 1 otherwise. -/
def exit_notification (ctx : ServerContext) : ServerContext × Except Error Unit :=
  if ctx.state = State.ShuttingDown then
    ({ ctx with exit_code := some 0 }, .ok ())
  else
    ({ ctx with exit_code := some 1 }, .ok ())

/-- `get_params` (`serde_json::from_value` without the method check),
with the concrete lsp_types `Params` decoder passed explicitly. -/
def get_params {P : Type} (decode : Json → Option P) (params : Json) :
    Except Error P :=
  match decode params with
  | some p => .ok p
  | none => .error (.ProtocolError "invalid params".toList)

/-- `handle_notification`: dispatch on the method name
(`Exit::METHOD = "exit"`, `DidOpenTextDocument::METHOD =
"textDocument/didOpen"`, `DidChangeTextDocument::METHOD =
"textDocument/didChange"`).  The lsp_types params decoders are passed
explicitly; the didOpen/didChange handlers only log, so on decode
success the context is returned unchanged.  `none` models the
`unimplemented!()` panic. -/
def handle_notification {PO PC : Type} (decodeOpen : Json → Option PO)
    (decodeChange : Json → Option PC) (ctx : ServerContext)
    (msg : NotificationMessage) : Option (ServerContext × Except Error Unit) :=
  if msg.method = "exit".toList then some (exit_notification ctx)
  else if msg.method = "textDocument/didOpen".toList then
    match get_params decodeOpen msg.params with
    | .ok _ => some (ctx, .ok ())
    | .error e => some (ctx, .error e)
  else if msg.method = "textDocument/didChange".toList then
    match get_params decodeChange msg.params with
    | .ok _ => some (ctx, .ok ())
    | .error e => some (ctx, .error e)
  else none

/-! ### Handshake and main loop (`initialize`, `start`) -/

/-- Outcome of running the server on a stream. -/
inductive RunOutcome where
  | exited (code : Int)
  | failed (e : Error)
  | crashed
  | starved
deriving DecidableEq

/-- `server.rs`'s `initialize` function (renamed: `initialize` is a Lean
keyword) — the `initialize`/`initialized` handshake: first message must be an
`initialize` request (replied to with the capability result), the second
an `initialized` notification.  The lsp_types decoders and the
serialized `InitializeResult` payload are parameters.  Returns the
initialize params, the remaining stream, and the frames written. -/
def initializeHandshake {PI PD : Type} (decodeInit : Json → Option PI)
    (decodeInited : Json → Option PD) (capabilityResult : Json)
    (input : List Char) :
    Except Error (PI × List Char × List JsonRpcResponseMessage) :=
  match read_message input with
  | .error e => .error e
  | .ok (msg, rest) =>
    match msg with
    | .Request req =>
      match into_request_id_params "initialize".toList decodeInit req with
      | .error e => .error e
      | .ok (id, params) =>
        let frame := successResponseValue id capabilityResult
        match read_message rest with
        | .error e => .error e
        | .ok (msg2, rest2) =>
          match msg2 with
          | .Notofication notif =>
            match into_notification_params "initialized".toList decodeInited notif with
            | .error e => .error e
            | .ok _ => .ok (params, rest2, [frame])
          | _ => .error (.ProtocolError "Expected initialized message".toList)
    | _ => .error (.ProtocolError "Expected initialize message".toList)

/-- The dispatch loop of `start`: read a message, route it, then stop as
soon as `exit_code` is set.  `crashed` models the `unimplemented!()`
panics; a notification handler error propagates out of the loop via `?`.
One unit of fuel per iteration; each successfully read frame consumes at
least one character, so the `length + 1` budget used by `start` cannot
run out (`starved`). -/
def mainLoopAux {PO PC : Type} (decodeOpen : Json → Option PO)
    (decodeChange : Json → Option PC) :
    Nat → ServerContext → List Char → List JsonRpcResponseMessage →
    RunOutcome × List JsonRpcResponseMessage
  | 0, _, _, acc => (.starved, acc)
  | fuel + 1, ctx, input, acc =>
    match read_message input with
    | .error e => (.failed e, acc)
    | .ok (msg, rest) =>
      match msg with
      | .Request req =>
        match handle_request ctx req with
        | none => (.crashed, acc)
        | some (ctx', frame) =>
          match ctx'.exit_code with
          | some code => (.exited code, acc ++ [frame])
          | none => mainLoopAux decodeOpen decodeChange fuel ctx' rest (acc ++ [frame])
      | .Notofication notif =>
        match handle_notification decodeOpen decodeChange ctx notif with
        | none => (.crashed, acc)
        | some (_, .error e) => (.failed e, acc)
        | some (ctx', .ok _) =>
          match ctx'.exit_code with
          | some code => (.exited code, acc)
          | none => mainLoopAux decodeOpen decodeChange fuel ctx' rest acc
      | .Response _ => (.crashed, acc)

/-- `start`: handshake, then the dispatch loop on a fresh
`ServerContext`; the exit code set by `exit` becomes the result. -/
def start {PI PD PO PC : Type} (decodeInit : Json → Option PI)
    (decodeInited : Json → Option PD) (decodeOpen : Json → Option PO)
    (decodeChange : Json → Option PC) (capabilityResult : Json)
    (input : List Char) : RunOutcome × List JsonRpcResponseMessage :=
  match initializeHandshake decodeInit decodeInited capabilityResult input with
  | .error e => (.failed e, [])
  | .ok (_, rest, frames) =>
    mainLoopAux decodeOpen decodeChange (rest.length + 1) ServerContext.new rest frames

example :
    (exit_notification ⟨.ShuttingDown, none⟩).1.exit_code = some 0 := rfl
example :
    (exit_notification ⟨.Initialized, none⟩).1.exit_code = some 1 := rfl
example :
    handle_request ⟨.Initialized, none⟩ ⟨2, "shutdown".toList, .null⟩ =
      some (⟨.ShuttingDown, none⟩, successResponseValue 2 .null) := rfl
example :
    mainLoopAux (fun _ => some ()) (fun _ => some ()) 5 ServerContext.new
      (write_message (.Notofication ⟨"exit".toList, .null⟩)) [] =
      (.exited 1, []) := rfl

/-! ## Claim C2 -/

/-- C2: for every `ServerContext` state, processing an `exit`
notification sets `exit_code` to `0` if the current state is
`ShuttingDown` and to `1` otherwise. -/
theorem C2_exit_notification_code (ctx : ServerContext) :
    (exit_notification ctx).1.exit_code =
      some (if ctx.state = State.ShuttingDown then 0 else 1) := by
  by_cases h : ctx.state = State.ShuttingDown <;> simp [exit_notification, h]

/-! ## Claim C5 -/

/-- C5: `into_request_id_params` (resp. `into_notification_params`) with
a message whose `method` differs from the expected method always fails
with a `ProtocolError` naming the expected and actual methods, for every
params decoder (in particular ones that would succeed). -/
theorem C5_method_mismatch {P Q : Type} (expectedR expectedN : List Char)
    (decR : Json → Option P) (decN : Json → Option Q)
    (req : RequestMessage) (notif : NotificationMessage)
    (hr : req.method ≠ expectedR) (hn : notif.method ≠ expectedN) :
    into_request_id_params expectedR decR req =
      .error (.ProtocolError ("Expected ".toList ++ expectedR ++
        " but got ".toList ++ req.method)) ∧
    into_notification_params expectedN decN notif =
      .error (.ProtocolError ("Expected ".toList ++ expectedN ++
        " but got ".toList ++ notif.method)) := by
  constructor
  · simp [into_request_id_params, hr]
  · simp [into_notification_params, hn]

/-- Witness for C5 at concrete inputs, with decoders that accept any
params (showing the failure is decided by the method alone). -/
theorem C5_method_mismatch_witness :
    ("shutdown".toList ≠ "initialize".toList) ∧
    into_request_id_params "initialize".toList (fun v => some v)
        ⟨1, "shutdown".toList, .null⟩ =
      .error (.ProtocolError ("Expected ".toList ++ "initialize".toList ++
        " but got ".toList ++ "shutdown".toList)) ∧
    into_notification_params "initialized".toList (fun v => some v)
        ⟨"exit".toList, .null⟩ =
      .error (.ProtocolError ("Expected ".toList ++ "initialized".toList ++
        " but got ".toList ++ "exit".toList)) :=
  ⟨by decide,
   C5_method_mismatch "initialize".toList "initialized".toList
     (fun v => some v) (fun v => some v)
     ⟨1, "shutdown".toList, .null⟩ ⟨"exit".toList, .null⟩
     (by decide) (by decide)⟩

/-! ## Claim C6 -/

/-- C6: for every `ServerContext` state, a `shutdown` request moves the
state to `ShuttingDown` and replies with a success response whose result
is `null`; it never produces an error response (in particular the
transition is idempotent from `ShuttingDown`). -/
theorem C6_shutdown_request (ctx : ServerContext) (msg : RequestMessage)
    (h : msg.method = "shutdown".toList) :
    handle_request ctx msg =
      some ({ ctx with state := State.ShuttingDown },
        successResponseValue msg.id Json.null) := by
  have hne : msg.method ≠ "initialize".toList := by rw [h]; decide
  simp [handle_request, h, hne, shutdown_request]

/-- Witness for C6 with a context that is already shutting down. -/
theorem C6_shutdown_request_witness :
    (RequestMessage.mk 2 "shutdown".toList .null).method = "shutdown".toList ∧
    handle_request ⟨.ShuttingDown, none⟩ ⟨2, "shutdown".toList, .null⟩ =
      some (⟨.ShuttingDown, none⟩, successResponseValue 2 Json.null) :=
  ⟨rfl, C6_shutdown_request ⟨.ShuttingDown, none⟩ ⟨2, "shutdown".toList, .null⟩ rfl⟩

/-! ## Claim C7 -/

/-- C7: an `initialize` request dispatched after the handshake always
produces an error response whose code is `ServerNotInitialized`
(`-32002`) and never a success response (the written frame has no
`result`). -/
theorem C7_initialize_after_handshake (ctx : ServerContext) (msg : RequestMessage)
    (h : msg.method = "initialize".toList) :
    handle_request ctx msg =
      some (ctx, errorResponseValue msg.id
        (ResponseError.new .ServerNotInitialized
          "Unexpected initialize message".toList)) ∧
    (ResponseError.new .ServerNotInitialized
      "Unexpected initialize message".toList).code = -32002 ∧
    (errorResponseValue msg.id
      (ResponseError.new .ServerNotInitialized
        "Unexpected initialize message".toList)).result = none := by
  refine ⟨?_, rfl, rfl⟩
  simp [handle_request, h, initialize_request]

/-- Witness for C7. -/
theorem C7_initialize_after_handshake_witness :
    (RequestMessage.mk 9 "initialize".toList .null).method = "initialize".toList ∧
    (handle_request ⟨.Initialized, none⟩ ⟨9, "initialize".toList, .null⟩ =
      some (⟨.Initialized, none⟩, errorResponseValue 9
        (ResponseError.new .ServerNotInitialized
          "Unexpected initialize message".toList)) ∧
    (ResponseError.new .ServerNotInitialized
      "Unexpected initialize message".toList).code = -32002 ∧
    (errorResponseValue 9
      (ResponseError.new .ServerNotInitialized
        "Unexpected initialize message".toList)).result = none) :=
  ⟨rfl, C7_initialize_after_handshake ⟨.Initialized, none⟩
    ⟨9, "initialize".toList, .null⟩ rfl⟩

/-! ## Claim C9 -/

/-- Exactly one of `result`/`error` is populated. -/
def exactlyOneSet (r : JsonRpcResponseMessage) : Prop :=
  (r.result.isSome = true ∧ r.error = none) ∨
  (r.result = none ∧ r.error.isSome = true)

/-- C9, counterexample to the claim as stated: inbound `ResponseMessage`
values are *not* forced to populate exactly one of `result`/`error` —
decoding the frame body `{"id":1}` constructs a `ResponseMessage` with
neither field populated. -/
theorem C9_response_exclusive_counterexample :
    Message.from_slice "\x7b\"id\":1\x7d".toList =
      some (.Response ⟨1, none, none⟩) ∧
    ¬((ResponseMessage.mk 1 none none).result.isSome = true ∨
      (ResponseMessage.mk 1 none none).error.isSome = true) :=
  ⟨rfl, by simp⟩

/-- C9 (amended): the *outbound* response values constructed by
`write_success_response` / `write_error_response` always populate
exactly one of `result`/`error`; inbound decoded `ResponseMessage`
values carry no such enforcement. -/
theorem C9_response_exclusive_amended (id : Nat) (v : Json) (e : ResponseError) :
    exactlyOneSet (successResponseValue id v) ∧
    exactlyOneSet (errorResponseValue id e) :=
  ⟨Or.inl ⟨rfl, rfl⟩, Or.inr ⟨rfl, rfl⟩⟩

/-! ## Claim C10 -/

/-- C10: handling any recognized request leaves `exit_code` unchanged;
handling any recognized non-`exit` notification leaves `exit_code`
unchanged; and the `exit` notification is handled exactly by
`exit_notification` — so `exit_code` can only change through the `exit`
notification handler. -/
theorem C10_exit_code_frame {PO PC : Type} (decodeOpen : Json → Option PO)
    (decodeChange : Json → Option PC) (ctx : ServerContext) :
    (∀ msg ctx' frame, handle_request ctx msg = some (ctx', frame) →
      ctx'.exit_code = ctx.exit_code) ∧
    (∀ msg ctx' r, handle_notification decodeOpen decodeChange ctx msg =
        some (ctx', r) → msg.method ≠ "exit".toList →
      ctx'.exit_code = ctx.exit_code) ∧
    (∀ msg ctx' r, handle_notification decodeOpen decodeChange ctx msg =
        some (ctx', r) → msg.method = "exit".toList →
      ctx' = (exit_notification ctx).1) := by
  refine ⟨?_, ?_, ?_⟩
  · intro msg ctx' frame h
    simp only [handle_request, initialize_request] at h
    split at h
    · cases h; rfl
    · split at h
      · cases h; rfl
      · cases h
  · intro msg ctx' r h hne
    simp only [handle_notification] at h
    rw [if_neg hne] at h
    split at h
    · split at h <;> cases h <;> rfl
    · split at h
      · split at h <;> cases h <;> rfl
      · cases h
  · intro msg ctx' r h he
    rw [handle_notification, if_pos he] at h
    injection h with h2
    exact (congrArg Prod.fst h2).symm

/-- Witness for C10 at concrete inputs: a `shutdown` request, a
`didOpen` notification and an `exit` notification. -/
theorem C10_exit_code_frame_witness :
    ((ServerContext.mk .ShuttingDown none).exit_code =
      (ServerContext.mk .Initialized none).exit_code) ∧
    ((ServerContext.mk .Initialized none).exit_code =
      (ServerContext.mk .Initialized none).exit_code) ∧
    ((ServerContext.mk .Initialized (some 1)) =
      (exit_notification ⟨.Initialized, none⟩).1) :=
  ⟨(C10_exit_code_frame (fun _ => some ()) (fun _ => some ())
      ⟨.Initialized, none⟩).1 ⟨2, "shutdown".toList, .null⟩
      ⟨.ShuttingDown, none⟩ (successResponseValue 2 .null) rfl,
   (C10_exit_code_frame (fun _ => some ()) (fun _ => some ())
      ⟨.Initialized, none⟩).2.1 ⟨"textDocument/didOpen".toList, .null⟩
      ⟨.Initialized, none⟩ (.ok ()) rfl (by decide),
   (C10_exit_code_frame (fun _ => some ()) (fun _ => some ())
      ⟨.Initialized, none⟩).2.2 ⟨"exit".toList, .null⟩
      ⟨.Initialized, some 1⟩ (.ok ()) rfl rfl⟩

/-! ## Claim C8 -/

/-- C8: in the dispatch loop, as soon as a handled message leaves
`exit_code` set, the loop returns `exited code` at once — the remaining
stream is never read (the conclusion does not depend on `rest` and needs
no fuel for it) — and `start` forwards the loop's outcome as the final
status; while `exit_code` stays `none` the loop continues by reading
from the remaining stream. -/
theorem C8_loop_termination (PI PD PO PC : Type)
    (decodeOpen : Json → Option PO) (decodeChange : Json → Option PC)
    (fuel : Nat) (ctx : ServerContext) (input : List Char)
    (acc : List JsonRpcResponseMessage) (msg : Message) (rest : List Char)
    (hread : read_message input = .ok (msg, rest)) :
    (∀ req ctx' frame code, msg = .Request req →
      handle_request ctx req = some (ctx', frame) →
      ctx'.exit_code = some code →
      mainLoopAux decodeOpen decodeChange (fuel + 1) ctx input acc =
        (.exited code, acc ++ [frame])) ∧
    (∀ req ctx' frame, msg = .Request req →
      handle_request ctx req = some (ctx', frame) →
      ctx'.exit_code = none →
      mainLoopAux decodeOpen decodeChange (fuel + 1) ctx input acc =
        mainLoopAux decodeOpen decodeChange fuel ctx' rest (acc ++ [frame])) ∧
    (∀ notif ctx' code, msg = .Notofication notif →
      handle_notification decodeOpen decodeChange ctx notif = some (ctx', .ok ()) →
      ctx'.exit_code = some code →
      mainLoopAux decodeOpen decodeChange (fuel + 1) ctx input acc =
        (.exited code, acc)) ∧
    (∀ notif ctx', msg = .Notofication notif →
      handle_notification decodeOpen decodeChange ctx notif = some (ctx', .ok ()) →
      ctx'.exit_code = none →
      mainLoopAux decodeOpen decodeChange (fuel + 1) ctx input acc =
        mainLoopAux decodeOpen decodeChange fuel ctx' rest acc) ∧
    (∀ (decodeInit : Json → Option PI) (decodeInited : Json → Option PD)
        (capabilityResult : Json) (input0 : List Char) (p : PI)
        (frames0 : List JsonRpcResponseMessage),
      initializeHandshake decodeInit decodeInited capabilityResult input0 =
        .ok (p, input, frames0) →
      start decodeInit decodeInited decodeOpen decodeChange capabilityResult input0 =
        mainLoopAux decodeOpen decodeChange (input.length + 1)
          ServerContext.new input frames0) := by
  refine ⟨?_, ?_, ?_, ?_, ?_⟩
  · intro req ctx' frame code hm hh he
    subst hm
    simp [mainLoopAux, hread, hh, he]
  · intro req ctx' frame hm hh he
    subst hm
    simp [mainLoopAux, hread, hh, he]
  · intro notif ctx' code hm hh he
    subst hm
    simp [mainLoopAux, hread, hh, he]
  · intro notif ctx' hm hh he
    subst hm
    simp [mainLoopAux, hread, hh, he]
  · intro decodeInit decodeInited capabilityResult input0 p frames0 hinit
    simp [start, hinit]

/-- Witness for C8: on a stream holding exactly one `exit` notification
frame the loop terminates at once with code `1`, with no fuel left for
reading anything further. -/
theorem C8_loop_termination_witness :
    mainLoopAux (fun _ => some ()) (fun _ => some ()) 1 ServerContext.new
      (write_message (.Notofication ⟨"exit".toList, .null⟩)) [] =
      (.exited 1, []) :=
  (C8_loop_termination Unit Unit Unit Unit (fun _ => some ()) (fun _ => some ())
      0 ServerContext.new (write_message (.Notofication ⟨"exit".toList, .null⟩))
      [] (.Notofication ⟨"exit".toList, .null⟩) [] rfl).2.2.1
    ⟨"exit".toList, .null⟩ ⟨.Initialized, some 1⟩ 1 rfl rfl rfl

/-! ## Header lemmas -/

theorem readLine_line (l s : List Char) (h : '\n' ∉ l) :
    readLine (l ++ '\r' :: '\n' :: s) = (l ++ ['\r', '\n'], s) := by
  induction l with
  | nil => simp [readLine]
  | cons c t ih =>
    have hc : c ≠ '\n' := fun hc => h (hc ▸ List.mem_cons_self c t)
    have ht : '\n' ∉ t := fun hm => h (List.mem_cons_of_mem c hm)
    simp [readLine, hc, ih ht]

theorem dropWhile_of_head_false {p : Char → Bool} (l : List Char)
    (hne : l ≠ []) (h : p (l.head hne) = false) :
    List.dropWhile p l = l := by
  cases l with
  | nil => simp at hne
  | cons c t => simp_all [List.dropWhile]

theorem trim_append_crlf (s : List Char) (hne : s ≠ [])
    (hh : isRustWs (s.head hne) = false)
    (hl : isRustWs (s.getLast hne) = false) :
    trim (s ++ ['\r', '\n']) = s := by
  unfold trim
  have hne1 : s ++ ['\r', '\n'] ≠ [] := by simp
  have h1 : List.dropWhile isRustWs (s ++ ['\r', '\n']) = s ++ ['\r', '\n'] := by
    refine dropWhile_of_head_false _ hne1 ?_
    rw [List.head_append_of_ne_nil hne]
    exact hh
  rw [h1]
  have h2 : (s ++ ['\r', '\n']).reverse = '\n' :: '\r' :: s.reverse := by
    simp
  rw [h2]
  have h3 : List.dropWhile isRustWs ('\n' :: '\r' :: s.reverse) = s.reverse := by
    have hrev : s.reverse ≠ [] := by simpa using hne
    rw [List.dropWhile_cons, if_pos (by decide), List.dropWhile_cons,
      if_pos (by decide)]
    refine dropWhile_of_head_false _ hrev ?_
    rw [List.head_reverse]
    exact hl
  rw [h3, List.reverse_reverse]

theorem splitCS_cons_ne (c : Char) (t : List Char) (hc : c ≠ ':') :
    splitCS (c :: t) = consField c (splitCS t) := by
  rw [splitCS.eq_def]
  exact if_neg hc

theorem splitCS_no_colon (s : List Char) (h : ':' ∉ s) : splitCS s = [s] := by
  induction s with
  | nil => rfl
  | cons c t ih =>
    have hc : c ≠ ':' := fun hc => h (hc ▸ List.mem_cons_self c t)
    have ht : ':' ∉ t := fun hm => h (List.mem_cons_of_mem c hm)
    rw [splitCS_cons_ne c t hc, ih ht]
    rfl

theorem splitCS_sep (a b : List Char) (h : ':' ∉ a) :
    splitCS (a ++ ':' :: ' ' :: b) = a :: splitCS b := by
  induction a with
  | nil => rfl
  | cons c t ih =>
    have hc : c ≠ ':' := fun hc => h (hc ▸ List.mem_cons_self c t)
    have ht : ':' ∉ t := fun hm => h (List.mem_cons_of_mem c hm)
    show splitCS (c :: (t ++ ':' :: ' ' :: b)) = (c :: t) :: splitCS b
    rw [splitCS_cons_ne c _ hc, ih ht]
    rfl

/-! ### Decimal digits round trip -/

theorem natToDigitsAux_zero (fuel : Nat) (acc : List Char) :
    natToDigitsAux fuel 0 acc = acc := by
  cases fuel <;> simp [natToDigitsAux]

theorem digitChar_isDigit (d : Nat) (h : d < 10) : isDigitC (digitChar d) = true := by
  interval_cases d <;> decide

theorem digitVal_digitChar (d : Nat) (h : d < 10) : digitVal (digitChar d) = d := by
  interval_cases d <;> decide

theorem digitChar_ne_zero (d : Nat) (h1 : 1 ≤ d) (h2 : d < 10) :
    digitChar d ≠ '0' := by
  interval_cases d <;> decide

theorem natToDigitsAux_spec (fuel : Nat) :
    ∀ n acc, n ≤ fuel → n ≠ 0 →
    ∃ ds, natToDigitsAux fuel n acc = ds ++ acc ∧ ds ≠ [] ∧
      (∀ c ∈ ds, isDigitC c = true) ∧ ds.head? ≠ some '0' ∧
      digitsToNat ds = n := by
  induction fuel with
  | zero => intro n acc hle hne; omega
  | succ g ih =>
    intro n acc hle hne
    rw [natToDigitsAux, if_neg hne]
    by_cases hq : n / 10 = 0
    · have hn10 : n < 10 := by omega
      have hmod : n % 10 = n := Nat.mod_eq_of_lt hn10
      rw [hq, natToDigitsAux_zero, hmod]
      refine ⟨[digitChar n], rfl, by simp, ?_, ?_, ?_⟩
      · intro c hc
        rw [List.mem_singleton] at hc
        exact hc ▸ digitChar_isDigit n hn10
      · intro hcontra
        rw [List.head?_cons, Option.some.injEq] at hcontra
        exact digitChar_ne_zero n (by omega) hn10 hcontra
      · simp [digitsToNat, digitVal_digitChar n hn10]
    · have hq10 : n / 10 ≤ g := by
        have := Nat.div_lt_self (Nat.pos_of_ne_zero hne) (by omega : 1 < 10)
        omega
      obtain ⟨ds', heq, hne', hdig', hhead', hval'⟩ :=
        ih (n / 10) (digitChar (n % 10) :: acc) hq10 hq
      refine ⟨ds' ++ [digitChar (n % 10)], ?_, by simp, ?_, ?_, ?_⟩
      · rw [heq, List.append_assoc]
        rfl
      · intro c hc
        rcases List.mem_append.1 hc with h | h
        · exact hdig' c h
        · rw [List.mem_singleton] at h
          exact h ▸ digitChar_isDigit _ (Nat.mod_lt n (by omega))
      · cases ds' with
        | nil => exact absurd rfl hne'
        | cons x xs => simpa using hhead'
      · have : digitsToNat (ds' ++ [digitChar (n % 10)]) =
            digitsToNat ds' * 10 + digitVal (digitChar (n % 10)) := by
          simp [digitsToNat, List.foldl_append]
        rw [this, hval', digitVal_digitChar _ (Nat.mod_lt n (by omega))]
        omega

theorem natToDigits_spec (n : Nat) :
    natToDigits n ≠ [] ∧ (∀ c ∈ natToDigits n, isDigitC c = true) ∧
      digitsToNat (natToDigits n) = n := by
  by_cases h : n = 0
  · subst h; refine ⟨by decide, ?_, by decide⟩
    intro c hc
    rw [natToDigits] at hc
    simp at hc
    subst hc; decide
  · obtain ⟨ds, heq, hne, hdig, _, hval⟩ := natToDigitsAux_spec n n [] le_rfl h
    rw [natToDigits, if_neg h, heq, List.append_nil]
    exact ⟨hne, hdig, hval⟩

/-- The rendering of a nonzero number never starts with `'0'`. -/
theorem natToDigits_no_leading_zero (n : Nat) (tail : List Char)
    (h : natToDigits n = '0' :: tail) : tail = [] := by
  by_cases hz : n = 0
  · subst hz
    simpa [natToDigits] using h
  · obtain ⟨ds, heq, hne, _, hhead, _⟩ := natToDigitsAux_spec n n [] le_rfl hz
    rw [natToDigits, if_neg hz, heq, List.append_nil] at h
    rw [h] at hhead
    simp at hhead

theorem foldl_digits_ge (t : List Char) : ∀ a : Nat,
    a ≤ t.foldl (fun a c => a * 10 + digitVal c) a := by
  induction t with
  | nil => intro a; simp
  | cons c u ih =>
    intro a
    calc a ≤ a * 10 + digitVal c := by omega
    _ ≤ _ := by simpa using ih (a * 10 + digitVal c)

theorem parseUsizeLoop_spec (ds : List Char) : ∀ acc : Nat,
    (∀ c ∈ ds, isDigitC c = true) →
    ds.foldl (fun a c => a * 10 + digitVal c) acc < usizeBound →
    parseUsizeLoop ds acc = .ok (ds.foldl (fun a c => a * 10 + digitVal c) acc) := by
  induction ds with
  | nil => intro acc _ _; rfl
  | cons c t ih =>
    intro acc hdig hbound
    have hc : isDigitC c = true := hdig c (List.mem_cons_self c t)
    have hstep : acc * 10 + digitVal c ≤
        t.foldl (fun a c => a * 10 + digitVal c) (acc * 10 + digitVal c) :=
      foldl_digits_ge t _
    rw [parseUsizeLoop, if_pos hc]
    simp only [List.foldl_cons] at hbound ⊢
    rw [if_pos (by omega)]
    exact ih _ (fun x hx => hdig x (List.mem_cons_of_mem c hx)) hbound

theorem isDigit_ne_chars (c : Char) (h : isDigitC c = true) :
    c ≠ '+' ∧ c ≠ ':' ∧ c ≠ '\n' ∧ isRustWs c = false := by
  have hn : 48 ≤ c.toNat ∧ c.toNat ≤ 57 := by
    simpa [isDigitC] using h
  refine ⟨?_, ?_, ?_, ?_⟩
  · intro he; rw [he] at h; exact absurd h (by decide)
  · intro he; rw [he] at h; exact absurd h (by decide)
  · intro he; rw [he] at h; exact absurd h (by decide)
  · cases hb : isRustWs c with
    | false => rfl
    | true =>
      exfalso
      simp only [isRustWs, Bool.or_eq_true, Bool.and_eq_true,
        decide_eq_true_eq] at hb
      omega

/-- `parse::<usize>` inverts decimal rendering below `usize::MAX + 1`. -/
theorem parseUsize_natToDigits (n : Nat) (h : n < usizeBound) :
    parseUsize (natToDigits n) = .ok n := by
  obtain ⟨hne, hdig, hval⟩ := natToDigits_spec n
  obtain ⟨d, ds, hcons⟩ := List.exists_cons_of_ne_nil hne
  have hd : isDigitC d = true := hdig d (hcons ▸ List.mem_cons_self d ds)
  have hplus : d ≠ '+' := (isDigit_ne_chars d hd).1
  have hloop := parseUsizeLoop_spec (natToDigits n) 0 hdig
    (by rw [show (natToDigits n).foldl (fun a c => a * 10 + digitVal c) 0 =
      digitsToNat (natToDigits n) from rfl, hval]; exact h)
  have hstep : parseUsize (d :: ds) = parseUsizeLoop (d :: ds) 0 := by
    rw [parseUsize.eq_def]
    exact if_neg hplus
  rw [hcons, hstep, ← hcons, hloop]
  rw [show (natToDigits n).foldl (fun a c => a * 10 + digitVal c) 0 =
    digitsToNat (natToDigits n) from rfl, hval]

/-! ### One-line steps of the header loop -/

theorem readHeaderLoop_eof (f : Nat) (cl : Option Nat) :
    readHeaderLoop (f + 1) cl [] =
      some (.error ⟨.unexpectedEof, "No header".toList⟩) := by
  simp [readHeaderLoop, readLine]

theorem readHeaderLoop_blank (f : Nat) (cl : Option Nat) (s : List Char) :
    readHeaderLoop (f + 1) cl ('\r' :: '\n' :: s) = some (.ok (cl, s)) := by
  have h : readLine ('\r' :: '\n' :: s) = (['\r', '\n'], s) := by
    simp [readLine]
  simp [readHeaderLoop, h]

theorem readHeaderLoop_line (f : Nat) (cl : Option Nat) (l s : List Char)
    (hne : l ≠ []) (hn : '\n' ∉ l) :
    readHeaderLoop (f + 1) cl (l ++ '\r' :: '\n' :: s) =
      (match splitCS (trim (l ++ ['\r', '\n'])) with
       | [nm, value] =>
         if nm.map asciiLower = "content-length".toList then
           match parseUsize value with
           | .error e => some (.error ⟨.invalidInput, parseIntErrorMsg e⟩)
           | .ok n => readHeaderLoop f (some n) s
         else readHeaderLoop f cl s
       | _ => some (.error ⟨.invalidInput, "Invalid header".toList⟩)) := by
  have hline := readLine_line l s hn
  have hlen : ¬((l ++ ['\r', '\n']).length = 0) := by simp
  have hcr : ¬(l ++ ['\r', '\n'] = ['\r', '\n']) := by
    intro h
    apply hne
    have hlen2 := congrArg List.length h
    simp at hlen2
    exact hlen2
  simp only [readHeaderLoop, hline]
  rw [if_neg hlen, if_neg hcr]

theorem readHeaderLoop_step_cl (f : Nat) (cl : Option Nat)
    (l s nm v : List Char) (n : Nat)
    (hne : l ≠ []) (hn : '\n' ∉ l)
    (hf : splitCS (trim (l ++ ['\r', '\n'])) = [nm, v])
    (hname : nm.map asciiLower = "content-length".toList)
    (hp : parseUsize v = .ok n) :
    readHeaderLoop (f + 1) cl (l ++ '\r' :: '\n' :: s) =
      readHeaderLoop f (some n) s := by
  rw [readHeaderLoop_line f cl l s hne hn, hf]
  show (if nm.map asciiLower = "content-length".toList then
      match parseUsize v with
      | .error e => some (.error ⟨.invalidInput, parseIntErrorMsg e⟩)
      | .ok n => readHeaderLoop f (some n) s
    else readHeaderLoop f cl s) = readHeaderLoop f (some n) s
  rw [if_pos hname, hp]

theorem readHeaderLoop_step_other (f : Nat) (cl : Option Nat)
    (l s nm v : List Char)
    (hne : l ≠ []) (hn : '\n' ∉ l)
    (hf : splitCS (trim (l ++ ['\r', '\n'])) = [nm, v])
    (hname : nm.map asciiLower ≠ "content-length".toList) :
    readHeaderLoop (f + 1) cl (l ++ '\r' :: '\n' :: s) =
      readHeaderLoop f cl s := by
  rw [readHeaderLoop_line f cl l s hne hn, hf]
  show (if nm.map asciiLower = "content-length".toList then
      match parseUsize v with
      | .error e => some (.error ⟨.invalidInput, parseIntErrorMsg e⟩)
      | .ok n => readHeaderLoop f (some n) s
    else readHeaderLoop f cl s) = readHeaderLoop f cl s
  rw [if_neg hname]

theorem readHeaderLoop_badvalue (f : Nat) (cl : Option Nat)
    (l s nm v : List Char) (e : ParseIntError)
    (hne : l ≠ []) (hn : '\n' ∉ l)
    (hf : splitCS (trim (l ++ ['\r', '\n'])) = [nm, v])
    (hname : nm.map asciiLower = "content-length".toList)
    (hp : parseUsize v = .error e) :
    readHeaderLoop (f + 1) cl (l ++ '\r' :: '\n' :: s) =
      some (.error ⟨.invalidInput, parseIntErrorMsg e⟩) := by
  rw [readHeaderLoop_line f cl l s hne hn, hf]
  show (if nm.map asciiLower = "content-length".toList then
      match parseUsize v with
      | .error e => some (.error ⟨.invalidInput, parseIntErrorMsg e⟩)
      | .ok n => readHeaderLoop f (some n) s
    else readHeaderLoop f cl s) =
      some (.error ⟨.invalidInput, parseIntErrorMsg e⟩)
  rw [if_pos hname, hp]

theorem readHeaderLoop_badsplit (f : Nat) (cl : Option Nat)
    (l s : List Char)
    (hne : l ≠ []) (hn : '\n' ∉ l)
    (hf : (splitCS (trim (l ++ ['\r', '\n']))).length ≠ 2) :
    readHeaderLoop (f + 1) cl (l ++ '\r' :: '\n' :: s) =
      some (.error ⟨.invalidInput, "Invalid header".toList⟩) := by
  rw [readHeaderLoop_line f cl l s hne hn]
  rcases h : splitCS (trim (l ++ ['\r', '\n'])) with _ | ⟨a, _ | ⟨b, _ | ⟨c, u⟩⟩⟩
  · rfl
  · rfl
  · rw [h] at hf
    simp at hf
  · rfl

/-! ### Chaining over well-formed header lines -/

/-- A header line as it appears on the wire (excluding its CRLF). -/
def encodeLine (l : List Char) : List Char := l ++ ['\r', '\n']

/-- A block of CRLF-terminated header lines. -/
def linesText (ls : List (List Char)) : List Char := (ls.map encodeLine).flatten

/-- The fields the loop computes for a line. -/
def lineFields (l : List Char) : List (List Char) :=
  splitCS (trim (l ++ ['\r', '\n']))

/-- A line the loop accepts and moves past: non-empty, no embedded
newline, exactly two fields, and a parseable value if the name is
`content-length`. -/
def goodLineB (l : List Char) : Bool :=
  decide (l ≠ []) && decide ('\n' ∉ l) &&
    (match lineFields l with
     | [nm, v] =>
       if nm.map asciiLower = "content-length".toList then
         match parseUsize v with
         | .ok _ => true
         | .error _ => false
       else true
     | _ => false)

/-- Effect of an accepted line on the remembered content length. -/
def lineUpdate (cl : Option Nat) (l : List Char) : Option Nat :=
  match lineFields l with
  | [nm, v] =>
    if nm.map asciiLower = "content-length".toList then
      match parseUsize v with
      | .ok n => some n
      | .error _ => cl
    else cl
  | _ => cl

theorem linesText_cons (l : List Char) (ls : List (List Char)) :
    linesText (l :: ls) = l ++ '\r' :: '\n' :: linesText ls := by
  simp [linesText, encodeLine]

theorem goods_length_le (goods : List (List Char)) :
    goods.length ≤ (linesText goods).length := by
  induction goods with
  | nil => simp [linesText]
  | cons l ls ih =>
    rw [linesText_cons]
    simp only [List.length_append, List.length_cons]
    omega

theorem readHeaderLoop_chain (goods : List (List Char)) : ∀ (f : Nat)
    (cl : Option Nat) (s : List Char),
    (∀ l ∈ goods, goodLineB l = true) →
    readHeaderLoop (goods.length + f) cl (linesText goods ++ s) =
      readHeaderLoop f (goods.foldl lineUpdate cl) s := by
  induction goods with
  | nil => intro f cl s _; simp [linesText]
  | cons l ls ih =>
    intro f cl s hg
    have hgl : goodLineB l = true := hg l (List.mem_cons_self l ls)
    have hgls : ∀ x ∈ ls, goodLineB x = true :=
      fun x hx => hg x (List.mem_cons_of_mem l hx)
    simp only [goodLineB, Bool.and_eq_true, decide_eq_true_eq] at hgl
    obtain ⟨⟨hne, hn⟩, hfields⟩ := hgl
    have harr : linesText (l :: ls) ++ s =
        l ++ '\r' :: '\n' :: (linesText ls ++ s) := by
      rw [linesText_cons]
      simp
    have hlen : (l :: ls).length + f = (ls.length + f) + 1 := by
      simp only [List.length_cons]
      omega
    rw [harr, hlen]
    have hfold : (l :: ls).foldl lineUpdate cl = ls.foldl lineUpdate (lineUpdate cl l) := rfl
    rw [hfold]
    rcases hf : lineFields l with _ | ⟨nm, _ | ⟨v, _ | ⟨c, u⟩⟩⟩
    · rw [hf] at hfields; simp at hfields
    · rw [hf] at hfields; simp at hfields
    · by_cases hname : nm.map asciiLower = "content-length".toList
      · rcases hp : parseUsize v with e | n
        · simp [hf, hname, hp] at hfields
        · rw [readHeaderLoop_step_cl (ls.length + f) cl l _ nm v n hne hn hf hname hp]
          rw [ih f (some n) s hgls]
          have hupd : lineUpdate cl l = some n := by
            simp [lineUpdate, hf, hname, hp]
          rw [hupd]
      · rw [readHeaderLoop_step_other (ls.length + f) cl l _ nm v hne hn hf hname]
        rw [ih f cl s hgls]
        have hupd : lineUpdate cl l = cl := by
          simp only [lineUpdate, hf]
          rw [if_neg hname]
        rw [hupd]
    · rw [hf] at hfields; simp at hfields

theorem lineUpdate_of_not_cl (cl : Option Nat) (l : List Char)
    (h : ∀ nm v, lineFields l = [nm, v] →
      nm.map asciiLower ≠ "content-length".toList) :
    lineUpdate cl l = cl := by
  rcases hf : lineFields l with _ | ⟨nm, _ | ⟨v, _ | ⟨c, u⟩⟩⟩
  · simp [lineUpdate, hf]
  · simp [lineUpdate, hf]
  · simp only [lineUpdate, hf]
    rw [if_neg (h nm v hf)]
  · simp [lineUpdate, hf]

theorem foldl_lineUpdate_of_not_cl (goods : List (List Char)) :
    ∀ cl : Option Nat,
    (∀ l ∈ goods, ∀ nm v, lineFields l = [nm, v] →
      nm.map asciiLower ≠ "content-length".toList) →
    goods.foldl lineUpdate cl = cl := by
  induction goods with
  | nil => intro cl _; rfl
  | cons l ls ih =>
    intro cl h
    have h1 := lineUpdate_of_not_cl cl l (h l (List.mem_cons_self l ls))
    show ls.foldl lineUpdate (lineUpdate cl l) = cl
    rw [h1]
    exact ih cl (fun x hx => h x (List.mem_cons_of_mem l hx))

/-! ## Claim C3 -/

theorem ws_toNat (c : Char) (h : isRustWs c = true) :
    c.toNat < 65 ∨ 90 < c.toNat := by
  simp only [isRustWs, Bool.or_eq_true, Bool.and_eq_true, decide_eq_true_eq] at h
  omega

theorem asciiLower_not_upper (c : Char) (h : ¬(65 ≤ c.toNat ∧ c.toNat ≤ 90)) :
    asciiLower c = c := by
  rw [asciiLower, if_neg]
  simp only [Bool.and_eq_true, decide_eq_true_eq]
  omega

theorem read_header_of_loop (input : List Char)
    (r : Except IOError (Option Nat × List Char))
    (h : readHeaderLoop (input.length + 1) none input = some r) :
    read_header input =
      (match r with
       | .ok (some n, rest) => .ok (⟨n⟩, rest)
       | .ok (none, _) => .error ⟨.invalidInput, "No content type".toList⟩
       | .error e => .error e) := by
  rcases r with e | ⟨_ | n, rest⟩ <;> (rw [read_header.eq_def]; simp only [h])

/-- A stream beginning with a single `<casing>: N` header line followed
by the blank line parses to `content_length = N`, for every `N` in the
`usize` range and every casing of the header name. -/
theorem read_header_content_length (casing : List Char) (N : Nat) (rest : List Char)
    (hcase : casing.map asciiLower = "content-length".toList)
    (hN : N < usizeBound) :
    read_header ((casing ++ ':' :: ' ' :: natToDigits N) ++
        '\r' :: '\n' :: '\r' :: '\n' :: rest) =
      .ok (⟨N⟩, rest) := by
  obtain ⟨hdne, hddig, _⟩ := natToDigits_spec N
  -- characters of the casing cannot be `':'` or `'\n'`
  have hcolon : ':' ∉ casing := by
    intro hmem
    have h1 : asciiLower ':' ∈ casing.map asciiLower :=
      List.mem_map_of_mem asciiLower hmem
    rw [hcase, show asciiLower ':' = ':' from rfl] at h1
    exact absurd h1 (by decide)
  have hnlc : '\n' ∉ casing := by
    intro hmem
    have h1 : asciiLower '\n' ∈ casing.map asciiLower :=
      List.mem_map_of_mem asciiLower hmem
    rw [hcase, show asciiLower '\n' = '\n' from rfl] at h1
    exact absurd h1 (by decide)
  have hnl : '\n' ∉ casing ++ ':' :: ' ' :: natToDigits N := by
    intro hmem
    rcases List.mem_append.1 hmem with h1 | h1
    · exact hnlc h1
    · rcases List.mem_cons.1 h1 with he | h1
      · exact absurd he (by decide)
      · rcases List.mem_cons.1 h1 with he | h1
        · exact absurd he (by decide)
        · exact absurd (hddig _ h1) (by decide)
  have hlne : casing ++ ':' :: ' ' :: natToDigits N ≠ [] := by simp
  -- the casing is nonempty and its head is not whitespace
  obtain ⟨c0, cs, rfl⟩ : ∃ c0 cs, casing = c0 :: cs := by
    rcases casing with _ | ⟨c0, cs⟩
    · exact absurd hcase (by decide)
    · exact ⟨c0, cs, rfl⟩
  have hlow0 : asciiLower c0 = 'c' := by
    rw [List.map_cons, show "content-length".toList =
      'c' :: "ontent-length".toList from rfl] at hcase
    injection hcase
  have hh : isRustWs c0 = false := by
    cases hb : isRustWs c0 with
    | false => rfl
    | true =>
      exfalso
      have hself : asciiLower c0 = c0 := by
        refine asciiLower_not_upper c0 ?_
        rcases ws_toNat c0 hb with h1 | h1 <;> omega
      rw [hself] at hlow0
      rw [hlow0] at hb
      exact absurd hb (by decide)
  -- the digits are nonempty and their last character is not whitespace
  have hlast : isRustWs ((c0 :: cs ++ ':' :: ' ' :: natToDigits N).getLast hlne) = false := by
    have harr : c0 :: cs ++ ':' :: ' ' :: natToDigits N =
        (c0 :: cs ++ [':', ' ']) ++ natToDigits N := by simp
    have hne2 : (c0 :: cs ++ [':', ' ']) ++ natToDigits N ≠ [] := by
      rw [← harr]; exact hlne
    have : ((c0 :: cs ++ [':', ' ']) ++ natToDigits N).getLast hne2 =
        (natToDigits N).getLast hdne := List.getLast_append' _ _ hdne
    rw [show (c0 :: cs ++ ':' :: ' ' :: natToDigits N).getLast hlne =
      ((c0 :: cs ++ [':', ' ']) ++ natToDigits N).getLast hne2 by congr 1]
    rw [this]
    exact (isDigit_ne_chars _ (hddig _ (List.getLast_mem hdne))).2.2.2
  have hhead : isRustWs ((c0 :: cs ++ ':' :: ' ' :: natToDigits N).head hlne) = false := by
    rw [show (c0 :: cs ++ ':' :: ' ' :: natToDigits N).head hlne = c0 from rfl]
    exact hh
  have htrim : trim ((c0 :: cs ++ ':' :: ' ' :: natToDigits N) ++ ['\r', '\n']) =
      c0 :: cs ++ ':' :: ' ' :: natToDigits N :=
    trim_append_crlf _ hlne hhead hlast
  have hdcolon : ':' ∉ natToDigits N := by
    intro hmem
    exact absurd (hddig _ hmem) (by decide)
  have hfields : splitCS (trim ((c0 :: cs ++ ':' :: ' ' :: natToDigits N) ++
      ['\r', '\n'])) = [c0 :: cs, natToDigits N] := by
    rw [htrim, splitCS_sep _ _ hcolon, splitCS_no_colon _ hdcolon]
  have hp := parseUsize_natToDigits N hN
  -- run the loop: one content-length line, then the blank line
  obtain ⟨g, hgF⟩ : ∃ g, ((c0 :: cs ++ ':' :: ' ' :: natToDigits N) ++
      '\r' :: '\n' :: '\r' :: '\n' :: rest).length + 1 = (g + 1) + 1 := by
    refine ⟨((c0 :: cs ++ ':' :: ' ' :: natToDigits N) ++
      '\r' :: '\n' :: '\r' :: '\n' :: rest).length - 1, ?_⟩
    simp
  have hloop : readHeaderLoop (((c0 :: cs ++ ':' :: ' ' :: natToDigits N) ++
      '\r' :: '\n' :: '\r' :: '\n' :: rest).length + 1) none
      ((c0 :: cs ++ ':' :: ' ' :: natToDigits N) ++
        '\r' :: '\n' :: '\r' :: '\n' :: rest) =
      some (.ok (some N, rest)) := by
    rw [hgF]
    rw [readHeaderLoop_step_cl (g + 1) none _ _ (c0 :: cs) (natToDigits N) N
      hlne hnl hfields hcase hp]
    exact readHeaderLoop_blank g (some N) rest
  rw [read_header_of_loop _ _ hloop]

/-- C3 (amended): for every `N < usize::MAX + 1` and every casing of the
header name, `read_header` on a stream beginning with the header
`<casing>: N\r\n\r\n` succeeds with `content_length = N` and leaves the
rest of the stream unread.  (The claim as stated, for *every*
non-negative `N`, fails at `N = 2^64` where `parse::<usize>`
overflows — see the counterexample.) -/
theorem C3_read_header_amended (casing : List Char) (N : Nat) (rest : List Char)
    (hcase : casing.map asciiLower = "content-length".toList)
    (hN : N < usizeBound) :
    read_header ((casing ++ ':' :: ' ' :: natToDigits N) ++
        '\r' :: '\n' :: '\r' :: '\n' :: rest) =
      .ok (⟨N⟩, rest) :=
  read_header_content_length casing N rest hcase hN

/-- C3, counterexample to the claim as stated: at `N = 2^64` the header
value overflows `usize` and `read_header` fails with `InvalidInput`
instead of succeeding. -/
theorem C3_read_header_counterexample :
    read_header "content-length: 18446744073709551616\r\n\r\n".toList =
      .error ⟨.invalidInput, parseIntErrorMsg .posOverflow⟩ := rfl

/-- Witness for C3 (amended) at the test vector of the repository's own
unit test (`content-length: 208`) and at an upper-case casing. -/
theorem C3_read_header_amended_witness :
    ("Content-Length".toList.map asciiLower = "content-length".toList ∧
      (208 : Nat) < usizeBound) ∧
    read_header (("Content-Length".toList ++ ':' :: ' ' :: natToDigits 208) ++
        '\r' :: '\n' :: '\r' :: '\n' :: "tail".toList) =
      .ok (⟨208⟩, "tail".toList) :=
  ⟨⟨by decide, by decide⟩,
   C3_read_header_amended "Content-Length".toList 208 "tail".toList
     (by decide) (by decide)⟩

/-! ## Claim C4 -/

/-- C4 (amended): after any block of well-formed header lines,
`read_header` fails with `InvalidInput` when a line does not split on
`": "` into exactly two fields, when a `Content-Length` value does not
parse as a `usize`, or when the blank-line terminator arrives with no
`Content-Length` seen; and it fails with `UnexpectedEof` when the stream
ends *at a line boundary* before the terminator.  (The claim's
unconditional `UnexpectedEof` clause fails when the stream ends inside a
malformed partial line — see the counterexample: such a line is processed
first and yields `InvalidInput`.) -/
theorem C4_read_header_errors_amended (goods : List (List Char))
    (hg : ∀ l ∈ goods, goodLineB l = true) :
    (∀ bad rest, bad ≠ [] → '\n' ∉ bad → (lineFields bad).length ≠ 2 →
      read_header (linesText goods ++ (bad ++ '\r' :: '\n' :: rest)) =
        .error ⟨.invalidInput, "Invalid header".toList⟩) ∧
    (∀ bad rest nm v e, bad ≠ [] → '\n' ∉ bad → lineFields bad = [nm, v] →
      nm.map asciiLower = "content-length".toList → parseUsize v = .error e →
      read_header (linesText goods ++ (bad ++ '\r' :: '\n' :: rest)) =
        .error ⟨.invalidInput, parseIntErrorMsg e⟩) ∧
    ((∀ l ∈ goods, ∀ nm v, lineFields l = [nm, v] →
        nm.map asciiLower ≠ "content-length".toList) →
      ∀ rest, read_header (linesText goods ++ '\r' :: '\n' :: rest) =
        .error ⟨.invalidInput, "No content type".toList⟩) ∧
    (read_header (linesText goods) =
      .error ⟨.unexpectedEof, "No header".toList⟩) := by
  have hlenT := goods_length_le goods
  refine ⟨?_, ?_, ?_, ?_⟩
  · intro bad rest hbne hbn hbf
    set input := linesText goods ++ (bad ++ '\r' :: '\n' :: rest) with hinput
    have hlen : goods.length + 2 ≤ input.length + 1 := by
      rw [hinput]
      simp only [List.length_append, List.length_cons]
      omega
    obtain ⟨g, hgF⟩ : ∃ g, input.length + 1 = goods.length + (g + 1) := by
      refine ⟨input.length - goods.length, ?_⟩
      omega
    have hloop : readHeaderLoop (input.length + 1) none input =
        some (.error ⟨.invalidInput, "Invalid header".toList⟩) := by
      rw [hgF, hinput, readHeaderLoop_chain goods (g + 1) none _ hg]
      exact readHeaderLoop_badsplit g _ bad rest hbne hbn hbf
    rw [read_header_of_loop _ _ hloop]
  · intro bad rest nm v e hbne hbn hbf hbname hbp
    set input := linesText goods ++ (bad ++ '\r' :: '\n' :: rest) with hinput
    have hlen : goods.length + 2 ≤ input.length + 1 := by
      rw [hinput]
      simp only [List.length_append, List.length_cons]
      omega
    obtain ⟨g, hgF⟩ : ∃ g, input.length + 1 = goods.length + (g + 1) := by
      refine ⟨input.length - goods.length, ?_⟩
      omega
    have hloop : readHeaderLoop (input.length + 1) none input =
        some (.error ⟨.invalidInput, parseIntErrorMsg e⟩) := by
      rw [hgF, hinput, readHeaderLoop_chain goods (g + 1) none _ hg]
      exact readHeaderLoop_badvalue g _ bad rest nm v e hbne hbn hbf hbname hbp
    rw [read_header_of_loop _ _ hloop]
  · intro hnone rest
    set input := linesText goods ++ '\r' :: '\n' :: rest with hinput
    have hlen : goods.length + 2 ≤ input.length + 1 := by
      rw [hinput]
      simp only [List.length_append, List.length_cons]
      omega
    obtain ⟨g, hgF⟩ : ∃ g, input.length + 1 = goods.length + (g + 1) := by
      refine ⟨input.length - goods.length, ?_⟩
      omega
    have hloop : readHeaderLoop (input.length + 1) none input =
        some (.ok (none, rest)) := by
      rw [hgF, hinput, readHeaderLoop_chain goods (g + 1) none _ hg,
        foldl_lineUpdate_of_not_cl goods none hnone]
      exact readHeaderLoop_blank g none rest
    rw [read_header_of_loop _ _ hloop]
  · set input := linesText goods with hinput
    have hlen : goods.length + 1 ≤ input.length + 1 := by omega
    obtain ⟨g, hgF⟩ : ∃ g, input.length + 1 = goods.length + (g + 1) := by
      refine ⟨input.length - goods.length, ?_⟩
      omega
    have hloop : readHeaderLoop (input.length + 1) none input =
        some (.error ⟨.unexpectedEof, "No header".toList⟩) := by
      rw [hgF, hinput, show linesText goods = linesText goods ++ [] by simp,
        readHeaderLoop_chain goods (g + 1) none _ hg]
      exact readHeaderLoop_eof g _
    rw [read_header_of_loop _ _ hloop]

/-- C4, counterexample to the claim as stated: the stream `"x"` ends
before any blank-line terminator, yet `read_header` reports
`InvalidInput` (the partial line is processed first and does not split
into two fields), not `UnexpectedEof`. -/
theorem C4_read_header_errors_counterexample :
    read_header "x".toList = .error ⟨.invalidInput, "Invalid header".toList⟩ ∧
    IOErrorKind.invalidInput ≠ IOErrorKind.unexpectedEof :=
  ⟨rfl, by decide⟩

/-- Witness for C4 (amended): one well-formed ignored header line,
then each failure shape at concrete streams. -/
theorem C4_read_header_errors_witness :
    (∀ l ∈ ["x-a: b".toList], goodLineB l = true) ∧
    read_header (linesText ["x-a: b".toList] ++
        ("oops".toList ++ '\r' :: '\n' :: [])) =
      .error ⟨.invalidInput, "Invalid header".toList⟩ ∧
    read_header (linesText ["x-a: b".toList] ++
        ("content-length: 4x".toList ++ '\r' :: '\n' :: [])) =
      .error ⟨.invalidInput, parseIntErrorMsg .invalidDigit⟩ ∧
    read_header (linesText ["x-a: b".toList] ++ '\r' :: '\n' :: []) =
      .error ⟨.invalidInput, "No content type".toList⟩ ∧
    read_header (linesText ["x-a: b".toList]) =
      .error ⟨.unexpectedEof, "No header".toList⟩ := by
  have hg : ∀ l ∈ ["x-a: b".toList], goodLineB l = true := by decide
  have h := C4_read_header_errors_amended ["x-a: b".toList] hg
  exact ⟨hg,
    h.1 "oops".toList [] (by decide) (by decide) (by decide),
    h.2.1 "content-length: 4x".toList [] "content-length".toList "4x".toList
      .invalidDigit (by decide) (by decide) (by decide) (by decide) rfl,
    h.2.2.1 (by
      intro l hl nm v hf
      simp only [List.mem_singleton] at hl
      subst hl
      rw [show lineFields "x-a: b".toList = ["x-a".toList, "b".toList]
        from rfl] at hf
      injection hf with h1 h2
      subst h1
      decide) [],
    h.2.2.2⟩

/-! ## JSON round-trip: sizes and fuel bounds -/

mutual

def jsize : Json → Nat
  | .null => 1
  | .bool _ => 1
  | .num _ => 1
  | .str _ => 1
  | .arr items => 1 + jsizeA items
  | .obj m => 1 + jsizeO m

def jsizeA : JsonArr → Nat
  | .nil => 0
  | .cons v t => 1 + jsize v + jsizeA t

def jsizeO : JsonObj → Nat
  | .nil => 0
  | .cons _ v t => 1 + jsize v + jsizeO t

end

mutual

theorem jsize_le_len : ∀ v : Json, jsize v ≤ (serializeJson v).length
  | .null => by simp [jsize, serializeJson]
  | .bool b => by cases b <;> simp [jsize, serializeJson]
  | .num i => by
    simp only [jsize, serializeJson, serializeInt]
    split
    · simp only [List.length_cons]
      omega
    · have h := (natToDigits_spec i.toNat).1
      have := List.length_pos.2 h
      omega
  | .str s => by simp [jsize, serializeJson, serializeString]
  | .arr items => by
    have h1 := jsizeA_le_tail items
    have h2 : jsizeA items ≤ 1 + (serializeArr items).length := by
      cases items with
      | nil => simp [jsizeA]
      | cons v t =>
        have hv := jsize_le_len v
        have ht := jsizeA_le_tail t
        simp only [jsizeA, serializeArr, List.length_append]
        omega
    simp only [jsize, serializeJson, List.length_cons, List.length_append]
    omega
  | .obj m => by
    have h2 : jsizeO m ≤ 1 + (serializeObj m).length := by
      cases m with
      | nil => simp [jsizeO]
      | cons k v t =>
        have hv := jsize_le_len v
        have ht := jsizeO_le_tail t
        simp only [jsizeO, serializeObj, List.length_append, List.length_cons]
        omega
    simp only [jsize, serializeJson, List.length_cons, List.length_append]
    omega

theorem jsizeA_le_tail : ∀ t : JsonArr, jsizeA t ≤ (serializeArrTail t).length
  | .nil => by simp [jsizeA, serializeArrTail]
  | .cons v t => by
    have hv := jsize_le_len v
    have ht := jsizeA_le_tail t
    simp only [jsizeA, serializeArrTail, List.length_cons, List.length_append]
    omega

theorem jsizeO_le_tail : ∀ t : JsonObj, jsizeO t ≤ (serializeObjTail t).length
  | .nil => by simp [jsizeO, serializeObjTail]
  | .cons k v t => by
    have hv := jsize_le_len v
    have ht := jsizeO_le_tail t
    simp only [jsizeO, serializeObjTail, List.length_cons, List.length_append]
    omega

end

/-! ## JSON round-trip: strings -/

theorem charToNat_inj (c d : Char) (h : c.toNat = d.toNat) : c = d := by
  have h1 := Char.ofNat_toNat c
  have h2 := Char.ofNat_toNat d
  rw [← h1, ← h2, h]

theorem hexVal_hexDigitChar (k : Nat) (h : k < 16) :
    hexVal? (hexDigitChar k) = some k := by
  interval_cases k <;> decide

theorem skipWs_cons (c : Char) (t : List Char) (h : isWsJson c = false) :
    skipWs (c :: t) = c :: t := by
  simp [skipWs, List.dropWhile, h]

theorem parseHex4_vals (h1 h2 h3 h4 : Char) (R : List Char) (a b c d : Nat)
    (e1 : hexVal? h1 = some a) (e2 : hexVal? h2 = some b)
    (e3 : hexVal? h3 = some c) (e4 : hexVal? h4 = some d) :
    parseHex4 (h1 :: h2 :: h3 :: h4 :: R) =
      some (a * 4096 + b * 256 + c * 16 + d, R) := by
  simp only [parseHex4, e1, e2, e3, e4]

theorem parseStringRest_quote (F : Nat) (R : List Char) :
    parseStringRest (F + 1) ('"' :: R) = some ([], R) := rfl

theorem parseStringRest_backslash (F : Nat) (e : Char) (R : List Char) :
    parseStringRest (F + 1) ('\\' :: e :: R) =
      (if e = 'u' then
         match parseHex4 R with
         | some (code, rest3) =>
           if code < 0xD800 then
             match parseStringRest F rest3 with
             | some (s, r) => some (Char.ofNat code :: s, r)
             | none => none
           else none
         | none => none
       else
         match unescapeChar e with
         | some d =>
           match parseStringRest F R with
           | some (s, r) => some (d :: s, r)
           | none => none
         | none => none) := rfl

theorem parseStringRest_esc (F : Nat) (e d : Char) (R : List Char) (he : ¬e = 'u')
    (hu : unescapeChar e = some d) :
    parseStringRest (F + 1) ('\\' :: e :: R) =
      (match parseStringRest F R with
       | some (s, r) => some (d :: s, r)
       | none => none) := by
  rw [parseStringRest_backslash, if_neg he, hu]

theorem parseStringRest_u (F : Nat) (h1 h2 h3 h4 : Char) (R : List Char)
    (a b c d : Nat)
    (e1 : hexVal? h1 = some a) (e2 : hexVal? h2 = some b)
    (e3 : hexVal? h3 = some c) (e4 : hexVal? h4 = some d)
    (hlt : a * 4096 + b * 256 + c * 16 + d < 0xD800) :
    parseStringRest (F + 1) ('\\' :: 'u' :: h1 :: h2 :: h3 :: h4 :: R) =
      (match parseStringRest F R with
       | some (s, r) => some (Char.ofNat (a * 4096 + b * 256 + c * 16 + d) :: s, r)
       | none => none) := by
  rw [parseStringRest_backslash, if_pos rfl,
    parseHex4_vals h1 h2 h3 h4 R a b c d e1 e2 e3 e4]
  show (if a * 4096 + b * 256 + c * 16 + d < 0xD800 then
      match parseStringRest F R with
      | some (s, r) => some (Char.ofNat (a * 4096 + b * 256 + c * 16 + d) :: s, r)
      | none => none
    else none) = _
  rw [if_pos hlt]

theorem parseStringRest_plain (F : Nat) (c : Char) (R : List Char) (h1 : ¬c = '"')
    (h2 : ¬c = '\\') (h3 : ¬c.toNat < 0x20) :
    parseStringRest (F + 1) (c :: R) =
      (match parseStringRest F R with
       | some (s, r) => some (c :: s, r)
       | none => none) := by
  show (if c = '"' then some ([], R)
    else if c = '\\' then
      match R with
      | [] => none
      | e :: rest2 =>
        if e = 'u' then
          match parseHex4 rest2 with
          | some (code, rest3) =>
            if code < 0xD800 then
              match parseStringRest F rest3 with
              | some (s, r) => some (Char.ofNat code :: s, r)
              | none => none
            else none
          | none => none
        else
          match unescapeChar e with
          | some d =>
            match parseStringRest F rest2 with
            | some (s, r) => some (d :: s, r)
            | none => none
          | none => none
    else if c.toNat < 0x20 then none
    else
      match parseStringRest F R with
      | some (s, r) => some (c :: s, r)
      | none => none) = _
  rw [if_neg h1, if_neg h2, if_neg h3]

theorem parseStringRest_escape (s : List Char) : ∀ (F : Nat) (rest : List Char),
    (escapeString s).length < F →
    parseStringRest F (escapeString s ++ '"' :: rest) = some (s, rest) := by
  induction s with
  | nil =>
    intro F rest hF
    obtain ⟨G, rfl⟩ : ∃ G, F = G + 1 := ⟨F - 1, by omega⟩
    exact parseStringRest_quote G rest
  | cons c t ih =>
    intro F rest hF
    rw [escapeString] at hF ⊢
    rw [List.append_assoc]
    have hlen1 : 1 ≤ (escapeChar c).length := by
      rw [escapeChar]
      repeat' split
      all_goals simp
    have hFt : (escapeString t).length < F - 1 := by
      rw [List.length_append] at hF
      omega
    obtain ⟨G, rfl⟩ : ∃ G, F = G + 1 := ⟨F - 1, by omega⟩
    have ihG : parseStringRest G (escapeString t ++ '"' :: rest) = some (t, rest) :=
      ih G rest (by omega)
    by_cases h1 : c = '"'
    · subst h1
      show parseStringRest (G + 1) ('\\' :: '"' :: (escapeString t ++ '"' :: rest)) = _
      rw [parseStringRest_esc G '"' '"' _ (by decide) rfl, ihG]
    by_cases h2 : c = '\\'
    · subst h2
      show parseStringRest (G + 1) ('\\' :: '\\' :: (escapeString t ++ '"' :: rest)) = _
      rw [parseStringRest_esc G '\\' '\\' _ (by decide) rfl, ihG]
    by_cases h8 : c.toNat = 8
    · have hc : c = '\x08' := charToNat_inj c '\x08' (by rw [h8]; rfl)
      subst hc
      show parseStringRest (G + 1) ('\\' :: 'b' :: (escapeString t ++ '"' :: rest)) = _
      rw [parseStringRest_esc G 'b' '\x08' _ (by decide) rfl, ihG]
    by_cases h9 : c.toNat = 9
    · have hc : c = '\t' := charToNat_inj c '\t' (by rw [h9]; rfl)
      subst hc
      show parseStringRest (G + 1) ('\\' :: 't' :: (escapeString t ++ '"' :: rest)) = _
      rw [parseStringRest_esc G 't' '\t' _ (by decide) rfl, ihG]
    by_cases h10 : c.toNat = 10
    · have hc : c = '\n' := charToNat_inj c '\n' (by rw [h10]; rfl)
      subst hc
      show parseStringRest (G + 1) ('\\' :: 'n' :: (escapeString t ++ '"' :: rest)) = _
      rw [parseStringRest_esc G 'n' '\n' _ (by decide) rfl, ihG]
    by_cases h12 : c.toNat = 12
    · have hc : c = '\x0C' := charToNat_inj c '\x0C' (by rw [h12]; rfl)
      subst hc
      show parseStringRest (G + 1) ('\\' :: 'f' :: (escapeString t ++ '"' :: rest)) = _
      rw [parseStringRest_esc G 'f' '\x0C' _ (by decide) rfl, ihG]
    by_cases h13 : c.toNat = 13
    · have hc : c = '\r' := charToNat_inj c '\r' (by rw [h13]; rfl)
      subst hc
      show parseStringRest (G + 1) ('\\' :: 'r' :: (escapeString t ++ '"' :: rest)) = _
      rw [parseStringRest_esc G 'r' '\r' _ (by decide) rfl, ihG]
    by_cases hctl : c.toNat < 32
    · have hesc : escapeChar c = ['\\', 'u', '0', '0',
          hexDigitChar (c.toNat / 16), hexDigitChar (c.toNat % 16)] := by
        rw [escapeChar, if_neg h1, if_neg h2, if_neg h8, if_neg h9, if_neg h10,
          if_neg h12, if_neg h13, if_pos hctl]
      rw [hesc]
      show parseStringRest (G + 1) ('\\' :: 'u' :: '0' :: '0' ::
        hexDigitChar (c.toNat / 16) :: hexDigitChar (c.toNat % 16) ::
        (escapeString t ++ '"' :: rest)) = _
      rw [parseStringRest_u G '0' '0' _ _ _ 0 0 (c.toNat / 16) (c.toNat % 16)
        rfl rfl (hexVal_hexDigitChar _ (by omega)) (hexVal_hexDigitChar _ (by omega))
        (by omega), ihG]
      have hcode : 0 * 4096 + 0 * 256 + c.toNat / 16 * 16 + c.toNat % 16 =
          c.toNat := by omega
      rw [hcode, Char.ofNat_toNat]
    · have hesc : escapeChar c = [c] := by
        rw [escapeChar, if_neg h1, if_neg h2, if_neg h8, if_neg h9, if_neg h10,
          if_neg h12, if_neg h13, if_neg hctl]
      rw [hesc]
      show parseStringRest (G + 1) (c :: (escapeString t ++ '"' :: rest)) = _
      rw [parseStringRest_plain G c _ h1 h2 (by omega), ihG]

/-! ## JSON round-trip: numbers and boundaries -/

/-- What may legally follow a serialized number so that the parser stops
exactly at its end: end of input or a character that neither extends the
digit block nor turns it into a float. -/
def numBoundary : List Char → Prop
  | [] => True
  | c :: _ => isDigitC c = false ∧ ¬c = '.' ∧ ¬c = 'e' ∧ ¬c = 'E'

theorem takeDigits_append (ds : List Char) : ∀ rest : List Char,
    (∀ c ∈ ds, isDigitC c = true) → numBoundary rest →
    takeDigits (ds ++ rest) = (ds, rest) := by
  induction ds with
  | nil =>
    intro rest _ hb
    cases rest with
    | nil => rfl
    | cons c r =>
      simp only [List.nil_append, takeDigits]
      rw [if_neg]
      simp [hb.1]
  | cons c t ih =>
    intro rest hd hb
    have hc : isDigitC c = true := hd c (List.mem_cons_self c t)
    simp only [List.cons_append, takeDigits, hc, if_true, List.append_eq,
      ih rest (fun x hx => hd x (List.mem_cons_of_mem c hx)) hb]

theorem parseIntPart_digits (n : Nat) (rest : List Char) (hb : numBoundary rest) :
    parseIntPart (natToDigits n ++ rest) = some (n, rest) := by
  obtain ⟨hne, hdig, hval⟩ := natToDigits_spec n
  have htake := takeDigits_append (natToDigits n) rest hdig hb
  obtain ⟨d, ds, hcons⟩ := List.exists_cons_of_ne_nil hne
  simp only [parseIntPart, htake]
  rw [hcons]
  have hzero : (decide (d = '0') && !ds.isEmpty) = false := by
    by_cases hd0 : d = '0'
    · have : ds = [] := by
        subst hd0
        exact natToDigits_no_leading_zero n ds hcons
      subst this
      simp
    · simp [hd0]
  simp only [hzero, Bool.false_eq_true, if_false]
  rw [← hcons]
  cases rest with
  | nil => rw [hval]
  | cons c r =>
    obtain ⟨_, hdot, he, hE⟩ := hb
    simp [hdot, he, hE, hval]

/-! ## JSON round-trip: sorted maps -/

theorem strLt_ne : ∀ (a b : List Char), strLt a b = true → a ≠ b := by
  intro a
  induction a with
  | nil =>
    intro b h
    cases b with
    | nil => simp [strLt] at h
    | cons b0 bs => simp
  | cons a0 as ih =>
    intro b h
    cases b with
    | nil => simp [strLt] at h
    | cons b0 bs =>
      rw [strLt] at h
      by_cases h1 : a0.toNat < b0.toNat
      · intro he
        injection he with he1 he2
        rw [he1] at h1
        omega
      · by_cases h2 : b0.toNat < a0.toNat
        · rw [if_neg h1, if_pos h2] at h
          simp at h
        · rw [if_neg h1, if_neg h2] at h
          intro he
          injection he with he1 he2
          exact ih bs h he2

theorem strLt_trans : ∀ (a b c : List Char), strLt a b = true →
    strLt b c = true → strLt a c = true := by
  intro a
  induction a with
  | nil =>
    intro b c hab hbc
    cases b with
    | nil => simp [strLt] at hab
    | cons b0 bs =>
      cases c with
      | nil => simp [strLt] at hbc
      | cons c0 cs => rfl
  | cons a0 as ih =>
    intro b c hab hbc
    cases b with
    | nil => simp [strLt] at hab
    | cons b0 bs =>
      cases c with
      | nil => simp [strLt] at hbc
      | cons c0 cs =>
        by_cases h1 : a0.toNat < b0.toNat
        · by_cases h2 : b0.toNat < c0.toNat
          · rw [strLt, if_pos (by omega)]
          · by_cases h3 : c0.toNat < b0.toNat
            · rw [strLt, if_neg h2, if_pos h3] at hbc
              simp at hbc
            · rw [strLt, if_pos (by omega)]
        · by_cases h1' : b0.toNat < a0.toNat
          · rw [strLt, if_neg h1, if_pos h1'] at hab
            simp at hab
          · rw [strLt, if_neg h1, if_neg h1'] at hab
            by_cases h2 : b0.toNat < c0.toNat
            · rw [strLt, if_pos (by omega)]
            · by_cases h3 : c0.toNat < b0.toNat
              · rw [strLt, if_neg h2, if_pos h3] at hbc
                simp at hbc
              · rw [strLt, if_neg h2, if_neg h3] at hbc
                rw [strLt, if_neg (by omega), if_neg (by omega)]
                exact ih bs cs hab hbc

theorem keyLt_not_contains (k : List Char) : ∀ m : JsonObj,
    JsonObj.wf m = true → keyLtHead k m = true → containsKey m k = false
  | .nil, _, _ => rfl
  | .cons k2 v2 t, hwf, hlt => by
    rw [keyLtHead] at hlt
    have hwf' : (Json.wf v2 = true ∧ keyLtHead k2 t = true) ∧ JsonObj.wf t = true := by
      simpa [JsonObj.wf, Bool.and_eq_true] using hwf
    have hne : k2 ≠ k := fun he => strLt_ne k k2 hlt he.symm
    rw [containsKey]
    have hlt2 : keyLtHead k t = true := by
      cases t with
      | nil => rfl
      | cons k3 v3 t3 =>
        rw [keyLtHead]
        exact strLt_trans k k2 k3 hlt hwf'.1.2
    simp [hne, keyLt_not_contains k t hwf'.2 hlt2]

/-- Inserting a key strictly below every key of a sorted map prepends. -/
theorem insertMember_front (k : List Char) (v : Json) (m : JsonObj)
    (hwf : JsonObj.wf m = true) (hlt : keyLtHead k m = true) :
    insertMember k v m = .cons k v m := by
  rw [insertMember, keyLt_not_contains k m hwf hlt]
  simp only [Bool.false_eq_true, if_false]
  cases m with
  | nil => rfl
  | cons k2 v2 t =>
    rw [keyLtHead] at hlt
    rw [insertSorted, if_pos hlt]

/-! ## JSON round-trip: head characters -/

theorem digit_head_facts (c : Char) (h : isDigitC c = true) :
    ¬c = 'n' ∧ ¬c = 't' ∧ ¬c = 'f' ∧ ¬c = '"' ∧ ¬c = '[' ∧ ¬c = '\x7b' ∧
      ¬c = '-' ∧ ¬c = ']' ∧ ¬c = '\x7d' ∧ isWsJson c = false := by
  refine ⟨?_, ?_, ?_, ?_, ?_, ?_, ?_, ?_, ?_, ?_⟩
  · intro he; rw [he] at h; exact absurd h (by decide)
  · intro he; rw [he] at h; exact absurd h (by decide)
  · intro he; rw [he] at h; exact absurd h (by decide)
  · intro he; rw [he] at h; exact absurd h (by decide)
  · intro he; rw [he] at h; exact absurd h (by decide)
  · intro he; rw [he] at h; exact absurd h (by decide)
  · intro he; rw [he] at h; exact absurd h (by decide)
  · intro he; rw [he] at h; exact absurd h (by decide)
  · intro he; rw [he] at h; exact absurd h (by decide)
  · cases hb : isWsJson c with
    | false => rfl
    | true =>
      exfalso
      simp only [isWsJson, Bool.or_eq_true, decide_eq_true_eq] at hb
      rcases hb with ((hb | hb) | hb) | hb <;>
        (rw [hb] at h; exact absurd h (by decide))

theorem serializeJson_shape (v : Json) : ∃ c cs, serializeJson v = c :: cs ∧
    isWsJson c = false ∧ ¬c = ']' ∧ ¬c = '\x7d' := by
  cases v with
  | num i =>
    rw [show serializeJson (.num i) = serializeInt i from rfl, serializeInt]
    split
    · refine ⟨'-', _, rfl, ?_, ?_, ?_⟩ <;> decide
    · obtain ⟨d, ds, hcons⟩ :=
        List.exists_cons_of_ne_nil (natToDigits_spec i.toNat).1
      have hd := (natToDigits_spec i.toNat).2.1 d
        (hcons ▸ List.mem_cons_self d ds)
      obtain ⟨_, _, _, _, _, _, _, hne1, hne2, hws⟩ := digit_head_facts d hd
      exact ⟨d, ds, hcons, hws, hne1, hne2⟩
  | bool b =>
    cases b with
    | true => refine ⟨'t', _, rfl, ?_, ?_, ?_⟩ <;> decide
    | false => refine ⟨'f', _, rfl, ?_, ?_, ?_⟩ <;> decide
  | null => refine ⟨'n', _, rfl, ?_, ?_, ?_⟩ <;> decide
  | str s => refine ⟨'"', _, rfl, ?_, ?_, ?_⟩ <;> decide
  | arr items => refine ⟨'[', _, rfl, ?_, ?_, ?_⟩ <;> decide
  | obj m => refine ⟨'\x7b', _, rfl, ?_, ?_, ?_⟩ <;> decide

theorem numBoundary_arrTail (t : JsonArr) (rest : List Char) :
    numBoundary (serializeArrTail t ++ ']' :: rest) := by
  cases t with
  | nil => exact ⟨by decide, by decide, by decide, by decide⟩
  | cons v t' => exact ⟨by decide, by decide, by decide, by decide⟩

theorem numBoundary_objTail (t : JsonObj) (rest : List Char) :
    numBoundary (serializeObjTail t ++ '\x7d' :: rest) := by
  cases t with
  | nil => exact ⟨by decide, by decide, by decide, by decide⟩
  | cons k v t' => exact ⟨by decide, by decide, by decide, by decide⟩


/-! ## JSON round-trip: the parser inverts the serializer -/

theorem parse_round (fuel : Nat) :
    (∀ (v : Json) (rest : List Char), jsize v < fuel → Json.wf v = true →
      numBoundary rest →
      parseVal fuel (serializeJson v ++ rest) = some (v, rest)) ∧
    (∀ (items : JsonArr) (rest : List Char), items ≠ .nil →
      jsizeA items < fuel → JsonArr.wf items = true →
      parseElems fuel (serializeArr items ++ ']' :: rest) = some (items, rest)) ∧
    (∀ (m : JsonObj) (rest : List Char), m ≠ .nil →
      jsizeO m < fuel → JsonObj.wf m = true →
      parseMembers fuel (serializeObj m ++ '\x7d' :: rest) = some (m, rest)) := by
  induction fuel with
  | zero =>
    refine ⟨?_, ?_, ?_⟩
    · intro v rest hsz _ _
      exact absurd hsz (Nat.not_lt_zero _)
    · intro items rest _ hsz _
      exact absurd hsz (Nat.not_lt_zero _)
    · intro m rest _ hsz _
      exact absurd hsz (Nat.not_lt_zero _)
  | succ f ih =>
    obtain ⟨ihA, ihB, ihC⟩ := ih
    refine ⟨?_, ?_, ?_⟩
    · intro v rest hsz hwf hb
      cases v with
      | null =>
        have hsk : skipWs ('n' :: 'u' :: 'l' :: 'l' :: rest) =
            'n' :: 'u' :: 'l' :: 'l' :: rest := skipWs_cons _ _ (by decide)
        show parseVal (f + 1) (('n' :: 'u' :: 'l' :: 'l' :: []) ++ rest) =
          some (.null, rest)
        simp [parseVal, hsk, dropLit]
      | bool b =>
        cases b with
        | true =>
          have hsk : skipWs ('t' :: 'r' :: 'u' :: 'e' :: rest) =
              't' :: 'r' :: 'u' :: 'e' :: rest := skipWs_cons _ _ (by decide)
          show parseVal (f + 1) (('t' :: 'r' :: 'u' :: 'e' :: []) ++ rest) =
            some (.bool true, rest)
          simp [parseVal, hsk, dropLit]
        | false =>
          have hsk : skipWs ('f' :: 'a' :: 'l' :: 's' :: 'e' :: rest) =
              'f' :: 'a' :: 'l' :: 's' :: 'e' :: rest := skipWs_cons _ _ (by decide)
          show parseVal (f + 1) (('f' :: 'a' :: 'l' :: 's' :: 'e' :: []) ++ rest) =
            some (.bool false, rest)
          simp [parseVal, hsk, dropLit]
      | num i =>
        have hwf' : -(9223372036854775808 : Int) ≤ i ∧
            i < (18446744073709551616 : Int) := by
          simpa [Json.wf, i64Bound, usizeBound] using hwf
        show parseVal (f + 1) (serializeInt i ++ rest) = some (.num i, rest)
        rw [serializeInt]
        by_cases hneg : i < 0
        · rw [if_pos hneg]
          have hsk : skipWs ('-' :: (natToDigits i.natAbs ++ rest)) =
              '-' :: (natToDigits i.natAbs ++ rest) := skipWs_cons _ _ (by decide)
          have hpi : parseIntPart (natToDigits i.natAbs ++ rest) =
              some (i.natAbs, rest) := parseIntPart_digits _ rest hb
          have hle : i.natAbs ≤ i64Bound := by
            rw [show i64Bound = 9223372036854775808 from rfl]
            omega
          simp [parseVal, hsk, hpi, hle]
          rw [abs_of_neg hneg, neg_neg]
        · rw [if_neg hneg]
          obtain ⟨d, ds, hcons⟩ :=
            List.exists_cons_of_ne_nil (natToDigits_spec i.toNat).1
          have hd := (natToDigits_spec i.toNat).2.1 d
            (hcons ▸ List.mem_cons_self d ds)
          obtain ⟨hn1, hn2, hn3, hn4, hn5, hn6, hn7, _, _, hws⟩ :=
            digit_head_facts d hd
          have hpi : parseIntPart (natToDigits i.toNat ++ rest) =
              some (i.toNat, rest) := parseIntPart_digits _ rest hb
          rw [hcons] at hpi ⊢
          rw [List.cons_append] at hpi
          have hsk : skipWs (d :: (ds ++ rest)) = d :: (ds ++ rest) :=
            skipWs_cons _ _ hws
          have hlt : i.toNat < usizeBound := by
            rw [show usizeBound = 18446744073709551616 from rfl]
            omega
          have hival : ((i.toNat : Int)) = i := by omega
          simp [parseVal, hsk, hn1, hn2, hn3, hn4, hn5, hn6, hn7, hd, hpi, hlt,
            hival]
      | str s =>
        show parseVal (f + 1) (('"' :: (escapeString s ++ ['"'])) ++ rest) =
          some (.str s, rest)
        have harr : ('"' :: (escapeString s ++ ['"'])) ++ rest =
            '"' :: (escapeString s ++ '"' :: rest) := by simp
        rw [harr]
        have hsk : skipWs ('"' :: (escapeString s ++ '"' :: rest)) =
            '"' :: (escapeString s ++ '"' :: rest) := skipWs_cons _ _ (by decide)
        have hps : parseStringRest ((escapeString s).length + (rest.length + 1) + 1)
            (escapeString s ++ '"' :: rest) = some (s, rest) :=
          parseStringRest_escape s _ rest (by omega)
        simp [parseVal, hsk, hps]
      | arr items =>
        cases items with
        | nil =>
          show parseVal (f + 1) (('[' :: ([] ++ [']'])) ++ rest) =
            some (.arr .nil, rest)
          have hsk1 : skipWs ('[' :: ']' :: rest) = '[' :: ']' :: rest :=
            skipWs_cons _ _ (by decide)
          have hsk2 : skipWs (']' :: rest) = ']' :: rest :=
            skipWs_cons _ _ (by decide)
          simp [parseVal, hsk1, hsk2]
        | cons v t =>
          obtain ⟨c0, cs0, hshape, hws0, hnb0, _⟩ := serializeJson_shape v
          have hsz' : jsizeA (JsonArr.cons v t) < f := by
            rw [show jsize (Json.arr (.cons v t)) =
              1 + jsizeA (JsonArr.cons v t) from rfl] at hsz
            omega
          have hwfA : JsonArr.wf (.cons v t) = true := by
            simpa [Json.wf] using hwf
          have hB := ihB (.cons v t) rest (by simp) hsz' hwfA
          have harr : serializeArr (JsonArr.cons v t) ++ ']' :: rest =
              c0 :: (cs0 ++ (serializeArrTail t ++ ']' :: rest)) := by
            rw [show serializeArr (JsonArr.cons v t) =
              serializeJson v ++ serializeArrTail t from rfl, hshape]
            simp
          show parseVal (f + 1)
            (('[' :: (serializeArr (.cons v t) ++ [']'])) ++ rest) =
            some (.arr (.cons v t), rest)
          have hbig : ('[' :: (serializeArr (.cons v t) ++ [']'])) ++ rest =
              '[' :: (serializeArr (.cons v t) ++ ']' :: rest) := by simp
          rw [hbig]
          have hsk1 : skipWs ('[' :: (serializeArr (.cons v t) ++ ']' :: rest)) =
              '[' :: (serializeArr (.cons v t) ++ ']' :: rest) :=
            skipWs_cons _ _ (by decide)
          have hsk2 : skipWs (serializeArr (.cons v t) ++ ']' :: rest) =
              c0 :: (cs0 ++ (serializeArrTail t ++ ']' :: rest)) := by
            rw [harr]
            exact skipWs_cons _ _ hws0
          simp [parseVal, hsk1, hsk2, hnb0]
          rw [← harr, hB]
      | obj m =>
        cases m with
        | nil =>
          show parseVal (f + 1) (('\x7b' :: ([] ++ ['\x7d'])) ++ rest) =
            some (.obj .nil, rest)
          have hsk1 : skipWs ('\x7b' :: '\x7d' :: rest) = '\x7b' :: '\x7d' :: rest :=
            skipWs_cons _ _ (by decide)
          have hsk2 : skipWs ('\x7d' :: rest) = '\x7d' :: rest :=
            skipWs_cons _ _ (by decide)
          simp [parseVal, hsk1, hsk2]
        | cons k vv t =>
          have hsz' : jsizeO (JsonObj.cons k vv t) < f := by
            rw [show jsize (Json.obj (.cons k vv t)) =
              1 + jsizeO (JsonObj.cons k vv t) from rfl] at hsz
            omega
          have hwfO : JsonObj.wf (.cons k vv t) = true := by
            simpa [Json.wf] using hwf
          have hC := ihC (.cons k vv t) rest (by simp) hsz' hwfO
          have hobj : serializeObj (JsonObj.cons k vv t) ++ '\x7d' :: rest =
              '"' :: (escapeString k ++ '"' :: ':' ::
                (serializeJson vv ++ (serializeObjTail t ++ '\x7d' :: rest))) := by
            rw [show serializeObj (JsonObj.cons k vv t) =
              serializeString k ++ ':' :: (serializeJson vv ++ serializeObjTail t)
              from rfl, serializeString]
            simp
          show parseVal (f + 1)
            (('\x7b' :: (serializeObj (.cons k vv t) ++ ['\x7d'])) ++ rest) =
            some (.obj (.cons k vv t), rest)
          have hbig : ('\x7b' :: (serializeObj (.cons k vv t) ++ ['\x7d'])) ++ rest =
              '\x7b' :: (serializeObj (.cons k vv t) ++ '\x7d' :: rest) := by simp
          rw [hbig]
          have hsk1 : skipWs ('\x7b' :: (serializeObj (.cons k vv t) ++ '\x7d' :: rest)) =
              '\x7b' :: (serializeObj (.cons k vv t) ++ '\x7d' :: rest) :=
            skipWs_cons _ _ (by decide)
          have hsk2 : skipWs (serializeObj (.cons k vv t) ++ '\x7d' :: rest) =
              '"' :: (escapeString k ++ '"' :: ':' ::
                (serializeJson vv ++ (serializeObjTail t ++ '\x7d' :: rest))) := by
            rw [hobj]
            exact skipWs_cons _ _ (by decide)
          simp [parseVal, hsk1, hsk2]
          rw [← hobj, hC]
    · intro items rest hne hsz hwfA
      cases items with
      | nil => exact absurd rfl hne
      | cons v t =>
        have hwf2 : Json.wf v = true ∧ JsonArr.wf t = true := by
          simpa [JsonArr.wf, Bool.and_eq_true] using hwfA
        have hszv : jsize v < f := by
          rw [show jsizeA (JsonArr.cons v t) = 1 + jsize v + jsizeA t from rfl] at hsz
          omega
        have hA := ihA v (serializeArrTail t ++ ']' :: rest) hszv hwf2.1
          (numBoundary_arrTail t rest)
        have hinput : serializeArr (JsonArr.cons v t) ++ ']' :: rest =
            serializeJson v ++ (serializeArrTail t ++ ']' :: rest) := by
          rw [show serializeArr (JsonArr.cons v t) =
            serializeJson v ++ serializeArrTail t from rfl, List.append_assoc]
        rw [hinput]
        simp only [parseElems, hA]
        cases t with
        | nil =>
          have hsk : skipWs (serializeArrTail JsonArr.nil ++ ']' :: rest) =
              ']' :: rest := skipWs_cons _ _ (by decide)
          simp [hsk]
        | cons v2 t2 =>
          have hsk : skipWs (serializeArrTail (JsonArr.cons v2 t2) ++ ']' :: rest) =
              ',' :: ((serializeJson v2 ++ serializeArrTail t2) ++ ']' :: rest) :=
            skipWs_cons _ _ (by decide)
          have hszt : jsizeA (JsonArr.cons v2 t2) < f := by
            rw [show jsizeA (JsonArr.cons v (JsonArr.cons v2 t2)) =
              1 + jsize v + jsizeA (JsonArr.cons v2 t2) from rfl] at hsz
            omega
          have hB2 := ihB (.cons v2 t2) rest (by simp) hszt hwf2.2
          have hback : serializeJson v2 ++ (serializeArrTail t2 ++ ']' :: rest) =
              serializeArr (JsonArr.cons v2 t2) ++ ']' :: rest := by
            rw [show serializeArr (JsonArr.cons v2 t2) =
              serializeJson v2 ++ serializeArrTail t2 from rfl, List.append_assoc]
          simp [hsk]
          rw [hback, hB2]
    · intro m rest hne hsz hwfO
      cases m with
      | nil => exact absurd rfl hne
      | cons k v t =>
        have hwf2 : (Json.wf v = true ∧ keyLtHead k t = true) ∧
            JsonObj.wf t = true := by
          simpa [JsonObj.wf, Bool.and_eq_true] using hwfO
        have hszv : jsize v < f := by
          rw [show jsizeO (JsonObj.cons k v t) = 1 + jsize v + jsizeO t from rfl] at hsz
          omega
        have hinput : serializeObj (JsonObj.cons k v t) ++ '\x7d' :: rest =
            '"' :: (escapeString k ++ '"' :: ':' ::
              (serializeJson v ++ (serializeObjTail t ++ '\x7d' :: rest))) := by
          rw [show serializeObj (JsonObj.cons k v t) =
            serializeString k ++ ':' :: (serializeJson v ++ serializeObjTail t)
            from rfl, serializeString]
          simp
        rw [hinput]
        have hsk1 : skipWs ('"' :: (escapeString k ++ '"' :: ':' ::
            (serializeJson v ++ (serializeObjTail t ++ '\x7d' :: rest)))) =
            '"' :: (escapeString k ++ '"' :: ':' ::
              (serializeJson v ++ (serializeObjTail t ++ '\x7d' :: rest))) :=
          skipWs_cons _ _ (by decide)
        have hps : parseStringRest
            ((escapeString k).length +
              ((serializeJson v).length +
                ((serializeObjTail t).length + (rest.length + 1)) + 1 + 1) + 1)
            (escapeString k ++ '"' :: ':' ::
              (serializeJson v ++ (serializeObjTail t ++ '\x7d' :: rest))) =
            some (k, ':' :: (serializeJson v ++ (serializeObjTail t ++ '\x7d' :: rest))) :=
          parseStringRest_escape k _ _ (by omega)
        have hsk2 : skipWs (':' :: (serializeJson v ++
            (serializeObjTail t ++ '\x7d' :: rest))) =
            ':' :: (serializeJson v ++ (serializeObjTail t ++ '\x7d' :: rest)) :=
          skipWs_cons _ _ (by decide)
        have hA := ihA v (serializeObjTail t ++ '\x7d' :: rest) hszv hwf2.1.1
          (numBoundary_objTail t rest)
        simp [parseMembers, hsk1, hps, hsk2, hA]
        cases t with
        | nil =>
          have hsk3 : skipWs (serializeObjTail JsonObj.nil ++ '\x7d' :: rest) =
              '\x7d' :: rest := skipWs_cons _ _ (by decide)
          simp [hsk3, insertMember, containsKey, insertSorted]
        | cons k2 v2 t2 =>
          have hsk3 : skipWs (serializeObjTail (JsonObj.cons k2 v2 t2) ++
              '\x7d' :: rest) =
              ',' :: ((serializeString k2 ++
                ':' :: (serializeJson v2 ++ serializeObjTail t2)) ++ '\x7d' :: rest) :=
            skipWs_cons _ _ (by decide)
          have hszt : jsizeO (JsonObj.cons k2 v2 t2) < f := by
            rw [show jsizeO (JsonObj.cons k v (JsonObj.cons k2 v2 t2)) =
              1 + jsize v + jsizeO (JsonObj.cons k2 v2 t2) from rfl] at hsz
            omega
          have hC2 := ihC (.cons k2 v2 t2) rest (by simp) hszt hwf2.2
          have hback : serializeString k2 ++ ':' ::
              (serializeJson v2 ++ (serializeObjTail t2 ++ '\x7d' :: rest)) =
              serializeObj (JsonObj.cons k2 v2 t2) ++ '\x7d' :: rest := by
            rw [show serializeObj (JsonObj.cons k2 v2 t2) =
              serializeString k2 ++ ':' :: (serializeJson v2 ++ serializeObjTail t2)
              from rfl]
            simp
          have hck : containsKey (JsonObj.cons k2 v2 t2) k = false :=
            keyLt_not_contains k _ hwf2.2 hwf2.1.2
          have hlt2 : strLt k k2 = true := hwf2.1.2
          simp [hsk3]
          rw [hback, hC2]
          simp [insertMember, insertSorted, hck, hlt2]

theorem jsize_pos : ∀ v : Json, 1 ≤ jsize v := by
  intro v
  cases v <;> simp [jsize]

/-- Opening one object member of the canonical shape
`"key":value…`: the member parser consumes the key and the value and
continues according to the character after the value. -/
theorem parseMembers_openB (f : Nat) (k : List Char) (v : Json)
    (body tail : List Char)
    (hv : parseVal f (body ++ tail) = some (v, tail)) :
    parseMembers (f + 1)
      ('"' :: (escapeString k ++ '"' :: ':' :: (body ++ tail))) =
    (match skipWs tail with
     | [] => none
     | e :: r5 =>
       if e = ',' then
         match parseMembers f r5 with
         | some (m, r6) => some (insertMember k v m, r6)
         | none => none
       else if e = '\x7d' then some (insertMember k v .nil, r5)
       else none) := by
  have hsk1 : skipWs ('"' :: (escapeString k ++ '"' :: ':' ::
      (body ++ tail))) =
      '"' :: (escapeString k ++ '"' :: ':' :: (body ++ tail)) :=
    skipWs_cons _ _ (by decide)
  have hps : parseStringRest
      ((escapeString k).length + (body.length + tail.length + 1 + 1) + 1)
      (escapeString k ++ '"' :: ':' :: (body ++ tail)) =
      some (k, ':' :: (body ++ tail)) :=
    parseStringRest_escape k _ _ (by omega)
  have hsk2 : skipWs (':' :: (body ++ tail)) =
      ':' :: (body ++ tail) := skipWs_cons _ _ (by decide)
  simp [parseMembers, hsk1, hps, hsk2, hv, insertMember]

theorem parseMembers_open (f : Nat) (k : List Char) (v : Json) (tail : List Char)
    (hv : parseVal f (serializeJson v ++ tail) = some (v, tail)) :
    parseMembers (f + 1)
      ('"' :: (escapeString k ++ '"' :: ':' :: (serializeJson v ++ tail))) =
    (match skipWs tail with
     | [] => none
     | e :: r5 =>
       if e = ',' then
         match parseMembers f r5 with
         | some (m, r6) => some (insertMember k v m, r6)
         | none => none
       else if e = '\x7d' then some (insertMember k v .nil, r5)
       else none) :=
  parseMembers_openB f k v (serializeJson v) tail hv

/-! ## The JSON values of the three message shapes

The sorted (`BTreeMap`-ordered) `serde_json::Value` corresponding to
each message structure. -/

def requestJson (r : RequestMessage) : Json :=
  .obj (.cons "id".toList (.num (r.id : Int))
    (.cons "method".toList (.str r.method)
      (.cons "params".toList r.params .nil)))

def notificationJson (n : NotificationMessage) : Json :=
  .obj (.cons "method".toList (.str n.method)
    (.cons "params".toList n.params .nil))

def responseErrorJson (e : ResponseError) : Json :=
  .obj (match e.data with
    | none => .cons "code".toList (.num e.code)
        (.cons "message".toList (.str e.message) .nil)
    | some d => .cons "code".toList (.num e.code)
        (.cons "data".toList d
          (.cons "message".toList (.str e.message) .nil)))

def responseJsonBase (r : ResponseMessage) : JsonObj :=
  .cons "id".toList (.num (r.id : Int))
    (match r.result with
     | none => .nil
     | some v => .cons "result".toList v .nil)

def responseJson (r : ResponseMessage) : Json :=
  .obj (match r.error with
    | none => responseJsonBase r
    | some e => .cons "error".toList (responseErrorJson e) (responseJsonBase r))

/-- Parsing the serde serialization of a `NotificationMessage` yields
its sorted object value. -/
theorem parseVal_notification (f : Nat) (n : NotificationMessage) (rest : List Char)
    (hwf : Json.wf n.params = true) (hf : jsize n.params < f) :
    parseVal (f + 3) (serializeNotification n ++ rest) =
      some (notificationJson n, rest) := by
  have hppos := jsize_pos n.params
  -- innermost member: "params"
  have hv2 := (parse_round f).1 n.params ('\x7d' :: rest) hf hwf
    ⟨by decide, by decide, by decide, by decide⟩
  have hm2 := parseMembers_open f "params".toList n.params ('\x7d' :: rest) hv2
  have hskb : skipWs ('\x7d' :: rest) = '\x7d' :: rest := skipWs_cons _ _ (by decide)
  simp [hskb, insertMember, containsKey, insertSorted,
    show escapeString ('p':: 'a':: 'r':: 'a':: 'm':: 's'::[]) =
      'p':: 'a':: 'r':: 'a':: 'm':: 's'::([]:List Char) from rfl] at hm2
  -- outer member: "method"
  have hv1 := (parse_round (f + 1)).1 (.str n.method)
    (',' :: '"':: 'p':: 'a':: 'r':: 'a':: 'm':: 's':: '"':: ':'::
      (serializeJson n.params ++ '\x7d' :: rest))
    (by rw [show jsize (Json.str n.method) = 1 from rfl]; omega) rfl
    ⟨by decide, by decide, by decide, by decide⟩
  have hm1 := parseMembers_open (f + 1) "method".toList (.str n.method)
    (',' :: '"':: 'p':: 'a':: 'r':: 'a':: 'm':: 's':: '"':: ':'::
      (serializeJson n.params ++ '\x7d' :: rest)) hv1
  have hskc : skipWs (',' :: '"':: 'p':: 'a':: 'r':: 'a':: 'm':: 's':: '"':: ':'::
      (serializeJson n.params ++ '\x7d' :: rest)) =
      ',' :: '"':: 'p':: 'a':: 'r':: 'a':: 'm':: 's':: '"':: ':'::
        (serializeJson n.params ++ '\x7d' :: rest) := skipWs_cons _ _ (by decide)
  simp [hskc, hm2, insertMember, containsKey, insertSorted,
    show escapeString ('m':: 'e':: 't':: 'h':: 'o':: 'd'::[]) =
      'm':: 'e':: 't':: 'h':: 'o':: 'd'::([]:List Char) from rfl,
    show strLt ('m':: 'e':: 't':: 'h':: 'o':: 'd'::[]) ('p':: 'a':: 'r':: 'a':: 'm':: 's'::[]) =
      true from by decide] at hm1
  -- assemble the document
  have hin : serializeNotification n ++ rest =
      '\x7b' :: '"':: 'm':: 'e':: 't':: 'h':: 'o':: 'd':: '"':: ':'::
        (serializeJson (Json.str n.method) ++
          (',' :: '"':: 'p':: 'a':: 'r':: 'a':: 'm':: 's':: '"':: ':'::
            (serializeJson n.params ++ '\x7d' :: rest))) := by
    rw [serializeNotification]
    simp [show serializeJson (Json.str n.method) = serializeString n.method from rfl]
  rw [hin]
  have hsk0 : skipWs ('\x7b' :: '"':: 'm':: 'e':: 't':: 'h':: 'o':: 'd':: '"':: ':'::
      (serializeJson (Json.str n.method) ++
        (',' :: '"':: 'p':: 'a':: 'r':: 'a':: 'm':: 's':: '"':: ':'::
          (serializeJson n.params ++ '\x7d' :: rest)))) =
      '\x7b' :: '"':: 'm':: 'e':: 't':: 'h':: 'o':: 'd':: '"':: ':'::
        (serializeJson (Json.str n.method) ++
          (',' :: '"':: 'p':: 'a':: 'r':: 'a':: 'm':: 's':: '"':: ':'::
            (serializeJson n.params ++ '\x7d' :: rest))) :=
    skipWs_cons _ _ (by decide)
  have hsk1 : skipWs ('"':: 'm':: 'e':: 't':: 'h':: 'o':: 'd':: '"':: ':'::
      (serializeJson (Json.str n.method) ++
        (',' :: '"':: 'p':: 'a':: 'r':: 'a':: 'm':: 's':: '"':: ':'::
          (serializeJson n.params ++ '\x7d' :: rest)))) =
      '"':: 'm':: 'e':: 't':: 'h':: 'o':: 'd':: '"':: ':'::
        (serializeJson (Json.str n.method) ++
          (',' :: '"':: 'p':: 'a':: 'r':: 'a':: 'm':: 's':: '"':: ':'::
            (serializeJson n.params ++ '\x7d' :: rest))) :=
    skipWs_cons _ _ (by decide)
  show parseVal ((f + 2) + 1) _ = _
  simp only [parseVal, hsk0, hsk1]
  simp [notificationJson]
  rw [show f + 2 = f + 1 + 1 from rfl]
  rw [hm1]

/-- Parsing the serde serialization of a `RequestMessage` yields its
sorted object value. -/
theorem parseVal_request (f : Nat) (r : RequestMessage) (rest : List Char)
    (hid : r.id < usizeBound) (hwf : Json.wf r.params = true)
    (hf : jsize r.params < f) :
    parseVal (f + 4) (serializeRequest r ++ rest) =
      some (requestJson r, rest) := by
  have hppos := jsize_pos r.params
  have hid' : r.id < 18446744073709551616 := by
    rw [show (18446744073709551616 : Nat) = usizeBound from rfl]
    exact hid
  have hwfid : Json.wf (Json.num (r.id : Int)) = true := by
    simp [Json.wf, i64Bound, usizeBound]
    omega
  have hser_id : serializeJson (Json.num (r.id : Int)) = natToDigits r.id := by
    rw [show serializeJson (Json.num (r.id : Int)) = serializeInt (r.id : Int)
      from rfl, serializeInt, if_neg (by omega)]
    congr 1
  -- innermost member: "params"
  have hv3 := (parse_round f).1 r.params ('\x7d' :: rest) hf hwf
    ⟨by decide, by decide, by decide, by decide⟩
  have hm3 := parseMembers_open f "params".toList r.params ('\x7d' :: rest) hv3
  have hskb : skipWs ('\x7d' :: rest) = '\x7d' :: rest := skipWs_cons _ _ (by decide)
  simp [hskb, insertMember, containsKey, insertSorted,
    show escapeString ('p':: 'a':: 'r':: 'a':: 'm':: 's'::[]) =
      'p':: 'a':: 'r':: 'a':: 'm':: 's'::([]:List Char) from rfl] at hm3
  -- middle member: "method"
  have hv2 := (parse_round (f + 1)).1 (.str r.method)
    (',' :: '"':: 'p':: 'a':: 'r':: 'a':: 'm':: 's':: '"':: ':'::
      (serializeJson r.params ++ '\x7d' :: rest))
    (by rw [show jsize (Json.str r.method) = 1 from rfl]; omega) rfl
    ⟨by decide, by decide, by decide, by decide⟩
  have hm2 := parseMembers_open (f + 1) "method".toList (.str r.method)
    (',' :: '"':: 'p':: 'a':: 'r':: 'a':: 'm':: 's':: '"':: ':'::
      (serializeJson r.params ++ '\x7d' :: rest)) hv2
  have hskc : skipWs (',' :: '"':: 'p':: 'a':: 'r':: 'a':: 'm':: 's':: '"':: ':'::
      (serializeJson r.params ++ '\x7d' :: rest)) =
      ',' :: '"':: 'p':: 'a':: 'r':: 'a':: 'm':: 's':: '"':: ':'::
        (serializeJson r.params ++ '\x7d' :: rest) := skipWs_cons _ _ (by decide)
  simp [hskc, hm3, insertMember, containsKey, insertSorted,
    show escapeString ('m':: 'e':: 't':: 'h':: 'o':: 'd'::[]) =
      'm':: 'e':: 't':: 'h':: 'o':: 'd'::([]:List Char) from rfl,
    show strLt ('m':: 'e':: 't':: 'h':: 'o':: 'd'::[]) ('p':: 'a':: 'r':: 'a':: 'm':: 's'::[]) =
      true from by decide] at hm2
  -- outer member: "id"
  have hv1 := (parse_round (f + 2)).1 (.num (r.id : Int))
    (',' :: '"':: 'm':: 'e':: 't':: 'h':: 'o':: 'd':: '"':: ':'::
      (serializeJson (Json.str r.method) ++
        (',' :: '"':: 'p':: 'a':: 'r':: 'a':: 'm':: 's':: '"':: ':'::
          (serializeJson r.params ++ '\x7d' :: rest))))
    (by rw [show jsize (Json.num (r.id : Int)) = 1 from rfl]; omega) hwfid
    ⟨by decide, by decide, by decide, by decide⟩
  have hm1 := parseMembers_open (f + 2) "id".toList (.num (r.id : Int))
    (',' :: '"':: 'm':: 'e':: 't':: 'h':: 'o':: 'd':: '"':: ':'::
      (serializeJson (Json.str r.method) ++
        (',' :: '"':: 'p':: 'a':: 'r':: 'a':: 'm':: 's':: '"':: ':'::
          (serializeJson r.params ++ '\x7d' :: rest)))) hv1
  have hskd : skipWs (',' :: '"':: 'm':: 'e':: 't':: 'h':: 'o':: 'd':: '"':: ':'::
      (serializeJson (Json.str r.method) ++
        (',' :: '"':: 'p':: 'a':: 'r':: 'a':: 'm':: 's':: '"':: ':'::
          (serializeJson r.params ++ '\x7d' :: rest)))) =
      ',' :: '"':: 'm':: 'e':: 't':: 'h':: 'o':: 'd':: '"':: ':'::
        (serializeJson (Json.str r.method) ++
          (',' :: '"':: 'p':: 'a':: 'r':: 'a':: 'm':: 's':: '"':: ':'::
            (serializeJson r.params ++ '\x7d' :: rest))) := skipWs_cons _ _ (by decide)
  simp [hskd, hm2, insertMember, containsKey, insertSorted,
    show escapeString ('i':: 'd'::[]) = 'i':: 'd'::([]:List Char) from rfl,
    show strLt ('i':: 'd'::[]) ('m':: 'e':: 't':: 'h':: 'o':: 'd'::[]) = true
      from by decide] at hm1
  -- assemble the document
  have hin : serializeRequest r ++ rest =
      '\x7b' :: '"':: 'i':: 'd':: '"':: ':'::
        (serializeJson (Json.num (r.id : Int)) ++
          (',' :: '"':: 'm':: 'e':: 't':: 'h':: 'o':: 'd':: '"':: ':'::
            (serializeJson (Json.str r.method) ++
              (',' :: '"':: 'p':: 'a':: 'r':: 'a':: 'm':: 's':: '"':: ':'::
                (serializeJson r.params ++ '\x7d' :: rest))))) := by
    rw [serializeRequest]
    simp [hser_id,
      show serializeJson (Json.str r.method) = serializeString r.method from rfl]
  rw [hin]
  have hsk0 : skipWs ('\x7b' :: '"':: 'i':: 'd':: '"':: ':'::
      (serializeJson (Json.num (r.id : Int)) ++
        (',' :: '"':: 'm':: 'e':: 't':: 'h':: 'o':: 'd':: '"':: ':'::
          (serializeJson (Json.str r.method) ++
            (',' :: '"':: 'p':: 'a':: 'r':: 'a':: 'm':: 's':: '"':: ':'::
              (serializeJson r.params ++ '\x7d' :: rest)))))) =
      '\x7b' :: '"':: 'i':: 'd':: '"':: ':'::
        (serializeJson (Json.num (r.id : Int)) ++
          (',' :: '"':: 'm':: 'e':: 't':: 'h':: 'o':: 'd':: '"':: ':'::
            (serializeJson (Json.str r.method) ++
              (',' :: '"':: 'p':: 'a':: 'r':: 'a':: 'm':: 's':: '"':: ':'::
                (serializeJson r.params ++ '\x7d' :: rest))))) :=
    skipWs_cons _ _ (by decide)
  have hsk1 : skipWs ('"':: 'i':: 'd':: '"':: ':'::
      (serializeJson (Json.num (r.id : Int)) ++
        (',' :: '"':: 'm':: 'e':: 't':: 'h':: 'o':: 'd':: '"':: ':'::
          (serializeJson (Json.str r.method) ++
            (',' :: '"':: 'p':: 'a':: 'r':: 'a':: 'm':: 's':: '"':: ':'::
              (serializeJson r.params ++ '\x7d' :: rest)))))) =
      '"':: 'i':: 'd':: '"':: ':'::
        (serializeJson (Json.num (r.id : Int)) ++
          (',' :: '"':: 'm':: 'e':: 't':: 'h':: 'o':: 'd':: '"':: ':'::
            (serializeJson (Json.str r.method) ++
              (',' :: '"':: 'p':: 'a':: 'r':: 'a':: 'm':: 's':: '"':: ':'::
                (serializeJson r.params ++ '\x7d' :: rest))))) :=
    skipWs_cons _ _ (by decide)
  show parseVal ((f + 3) + 1) _ = _
  simp only [parseVal, hsk0, hsk1]
  simp [requestJson]
  rw [show f + 3 = f + 2 + 1 from rfl]
  rw [hm1]

theorem wfOptValue_some (v : Json) (h : wfOptValue (some v) = true) :
    Json.wf v = true ∧ v ≠ Json.null := by
  cases v with
  | null => exact absurd h (by decide)
  | bool b => exact ⟨h, by simp⟩
  | num i => exact ⟨h, by simp⟩
  | str s => exact ⟨h, by simp⟩
  | arr items => exact ⟨h, by simp⟩
  | obj m => exact ⟨h, by simp⟩

/-- Parsing the serde serialization of a `ResponseError` (fields in
declaration order `code`, `message`, `data?`) yields its sorted object
value. -/
theorem parseVal_responseError (f : Nat) (e : ResponseError) (rest : List Char)
    (hwfb : e.wfB = true)
    (hf : 4 + (match e.data with | none => 0 | some d => jsize d) < f) :
    parseVal f (serializeResponseError e ++ rest) =
      some (responseErrorJson e, rest) := by
  obtain ⟨⟨hc1, hc2⟩, hwfd⟩ :
      ((-(2147483648 : Int) ≤ e.code ∧ e.code < 2147483648) ∧
        wfOptValue e.data = true) := by
    simpa [ResponseError.wfB, Bool.and_eq_true, decide_eq_true_eq] using hwfb
  have hwfc : Json.wf (Json.num e.code) = true := by
    simp [Json.wf, i64Bound, usizeBound]
    omega
  rcases hdata : e.data with _ | d
  · -- no data field: members `code`, `message`
    simp only [hdata] at hf
    obtain ⟨g, rfl⟩ : ∃ g, f = (g + 2) + 3 := ⟨f - 5, by omega⟩
    -- inner member: "message"
    have hv2 := (parse_round (g + 2)).1 (.str e.message) ('\x7d' :: rest)
      (by rw [show jsize (Json.str e.message) = 1 from rfl]; omega) rfl
      ⟨by decide, by decide, by decide, by decide⟩
    have hm2 := parseMembers_open (g + 2) "message".toList (.str e.message)
      ('\x7d' :: rest) hv2
    have hskb : skipWs ('\x7d' :: rest) = '\x7d' :: rest := skipWs_cons _ _ (by decide)
    simp [hskb, insertMember, containsKey, insertSorted,
      show escapeString ('m':: 'e':: 's':: 's':: 'a':: 'g':: 'e'::[]) =
        'm':: 'e':: 's':: 's':: 'a':: 'g':: 'e'::([]:List Char) from rfl] at hm2
    -- outer member: "code"
    have hv1 := (parse_round (g + 3)).1 (.num e.code)
      (',' :: '"':: 'm':: 'e':: 's':: 's':: 'a':: 'g':: 'e':: '"':: ':'::
        (serializeJson (Json.str e.message) ++ '\x7d' :: rest))
      (by rw [show jsize (Json.num e.code) = 1 from rfl]; omega) hwfc
      ⟨by decide, by decide, by decide, by decide⟩
    have hm1 := parseMembers_open (g + 3) "code".toList (.num e.code)
      (',' :: '"':: 'm':: 'e':: 's':: 's':: 'a':: 'g':: 'e':: '"':: ':'::
        (serializeJson (Json.str e.message) ++ '\x7d' :: rest)) hv1
    have hskc : skipWs (',' :: '"':: 'm':: 'e':: 's':: 's':: 'a':: 'g':: 'e':: '"':: ':'::
        (serializeJson (Json.str e.message) ++ '\x7d' :: rest)) =
        ',' :: '"':: 'm':: 'e':: 's':: 's':: 'a':: 'g':: 'e':: '"':: ':'::
          (serializeJson (Json.str e.message) ++ '\x7d' :: rest) :=
      skipWs_cons _ _ (by decide)
    simp [hskc, hm2, insertMember, containsKey, insertSorted,
      show escapeString ('c':: 'o':: 'd':: 'e'::[]) =
        'c':: 'o':: 'd':: 'e'::([]:List Char) from rfl,
      show strLt ('c':: 'o':: 'd':: 'e'::[]) ('m':: 'e':: 's':: 's':: 'a':: 'g':: 'e'::[]) =
        true from by decide] at hm1
    have hin : serializeResponseError e ++ rest =
        '\x7b' :: '"':: 'c':: 'o':: 'd':: 'e':: '"':: ':'::
          (serializeJson (Json.num e.code) ++
            (',' :: '"':: 'm':: 'e':: 's':: 's':: 'a':: 'g':: 'e':: '"':: ':'::
              (serializeJson (Json.str e.message) ++ '\x7d' :: rest))) := by
      rw [serializeResponseError, hdata]
      simp [show serializeJson (Json.num e.code) = serializeInt e.code from rfl,
        show serializeJson (Json.str e.message) = serializeString e.message from rfl]
    rw [hin]
    have hsk0 : skipWs ('\x7b' :: '"':: 'c':: 'o':: 'd':: 'e':: '"':: ':'::
        (serializeJson (Json.num e.code) ++
          (',' :: '"':: 'm':: 'e':: 's':: 's':: 'a':: 'g':: 'e':: '"':: ':'::
            (serializeJson (Json.str e.message) ++ '\x7d' :: rest)))) =
        '\x7b' :: '"':: 'c':: 'o':: 'd':: 'e':: '"':: ':'::
          (serializeJson (Json.num e.code) ++
            (',' :: '"':: 'm':: 'e':: 's':: 's':: 'a':: 'g':: 'e':: '"':: ':'::
              (serializeJson (Json.str e.message) ++ '\x7d' :: rest))) :=
      skipWs_cons _ _ (by decide)
    have hsk1 : skipWs ('"':: 'c':: 'o':: 'd':: 'e':: '"':: ':'::
        (serializeJson (Json.num e.code) ++
          (',' :: '"':: 'm':: 'e':: 's':: 's':: 'a':: 'g':: 'e':: '"':: ':'::
            (serializeJson (Json.str e.message) ++ '\x7d' :: rest)))) =
        '"':: 'c':: 'o':: 'd':: 'e':: '"':: ':'::
          (serializeJson (Json.num e.code) ++
            (',' :: '"':: 'm':: 'e':: 's':: 's':: 'a':: 'g':: 'e':: '"':: ':'::
              (serializeJson (Json.str e.message) ++ '\x7d' :: rest))) :=
      skipWs_cons _ _ (by decide)
    show parseVal ((g + 4) + 1) _ = _
    simp only [parseVal, hsk0, hsk1]
    simp [responseErrorJson, hdata]
    rw [show g + 4 = g + 3 + 1 from rfl]
    rw [hm1]
  · -- with data field: members `code`, `message`, `data`
    simp only [hdata] at hf
    rw [hdata] at hwfd
    obtain ⟨hwfdd, hdnn⟩ := wfOptValue_some d hwfd
    obtain ⟨g, rfl⟩ : ∃ g, f = (jsize d + g + 1) + 4 := ⟨f - jsize d - 5, by omega⟩
    have hdlt : jsize d < jsize d + g + 1 := by omega
    -- innermost member: "data"
    have hv3 := (parse_round (jsize d + g + 1)).1 d ('\x7d' :: rest) hdlt hwfdd
      ⟨by decide, by decide, by decide, by decide⟩
    have hm3 := parseMembers_open (jsize d + g + 1) "data".toList d
      ('\x7d' :: rest) hv3
    have hskb : skipWs ('\x7d' :: rest) = '\x7d' :: rest := skipWs_cons _ _ (by decide)
    simp [hskb, insertMember, containsKey, insertSorted,
      show escapeString ('d':: 'a':: 't':: 'a'::[]) =
        'd':: 'a':: 't':: 'a'::([]:List Char) from rfl] at hm3
    -- middle member: "message"
    have hv2 := (parse_round (jsize d + g + 2)).1 (.str e.message)
      (',' :: '"':: 'd':: 'a':: 't':: 'a':: '"':: ':'::
        (serializeJson d ++ '\x7d' :: rest))
      (by rw [show jsize (Json.str e.message) = 1 from rfl]; omega) rfl
      ⟨by decide, by decide, by decide, by decide⟩
    have hm2 := parseMembers_open (jsize d + g + 2) "message".toList
      (.str e.message)
      (',' :: '"':: 'd':: 'a':: 't':: 'a':: '"':: ':'::
        (serializeJson d ++ '\x7d' :: rest)) hv2
    have hskc : skipWs (',' :: '"':: 'd':: 'a':: 't':: 'a':: '"':: ':'::
        (serializeJson d ++ '\x7d' :: rest)) =
        ',' :: '"':: 'd':: 'a':: 't':: 'a':: '"':: ':'::
          (serializeJson d ++ '\x7d' :: rest) := skipWs_cons _ _ (by decide)
    simp [hskc, hm3, insertMember, containsKey, insertSorted,
      show escapeString ('m':: 'e':: 's':: 's':: 'a':: 'g':: 'e'::[]) =
        'm':: 'e':: 's':: 's':: 'a':: 'g':: 'e'::([]:List Char) from rfl,
      show strLt ('m':: 'e':: 's':: 's':: 'a':: 'g':: 'e'::[]) ('d':: 'a':: 't':: 'a'::[]) =
        false from by decide] at hm2
    -- outer member: "code"
    have hv1 := (parse_round (jsize d + g + 3)).1 (.num e.code)
      (',' :: '"':: 'm':: 'e':: 's':: 's':: 'a':: 'g':: 'e':: '"':: ':'::
        (serializeJson (Json.str e.message) ++
          (',' :: '"':: 'd':: 'a':: 't':: 'a':: '"':: ':'::
            (serializeJson d ++ '\x7d' :: rest))))
      (by rw [show jsize (Json.num e.code) = 1 from rfl]; omega) hwfc
      ⟨by decide, by decide, by decide, by decide⟩
    have hm1 := parseMembers_open (jsize d + g + 3) "code".toList (.num e.code)
      (',' :: '"':: 'm':: 'e':: 's':: 's':: 'a':: 'g':: 'e':: '"':: ':'::
        (serializeJson (Json.str e.message) ++
          (',' :: '"':: 'd':: 'a':: 't':: 'a':: '"':: ':'::
            (serializeJson d ++ '\x7d' :: rest)))) hv1
    have hskd : skipWs (',' :: '"':: 'm':: 'e':: 's':: 's':: 'a':: 'g':: 'e':: '"':: ':'::
        (serializeJson (Json.str e.message) ++
          (',' :: '"':: 'd':: 'a':: 't':: 'a':: '"':: ':'::
            (serializeJson d ++ '\x7d' :: rest)))) =
        ',' :: '"':: 'm':: 'e':: 's':: 's':: 'a':: 'g':: 'e':: '"':: ':'::
          (serializeJson (Json.str e.message) ++
            (',' :: '"':: 'd':: 'a':: 't':: 'a':: '"':: ':'::
              (serializeJson d ++ '\x7d' :: rest))) := skipWs_cons _ _ (by decide)
    simp [hskd, hm2, insertMember, containsKey, insertSorted,
      show escapeString ('c':: 'o':: 'd':: 'e'::[]) =
        'c':: 'o':: 'd':: 'e'::([]:List Char) from rfl,
      show strLt ('c':: 'o':: 'd':: 'e'::[]) ('d':: 'a':: 't':: 'a'::[]) = true
        from by decide] at hm1
    have hin : serializeResponseError e ++ rest =
        '\x7b' :: '"':: 'c':: 'o':: 'd':: 'e':: '"':: ':'::
          (serializeJson (Json.num e.code) ++
            (',' :: '"':: 'm':: 'e':: 's':: 's':: 'a':: 'g':: 'e':: '"':: ':'::
              (serializeJson (Json.str e.message) ++
                (',' :: '"':: 'd':: 'a':: 't':: 'a':: '"':: ':'::
                  (serializeJson d ++ '\x7d' :: rest))))) := by
      rw [serializeResponseError, hdata]
      simp [show serializeJson (Json.num e.code) = serializeInt e.code from rfl,
        show serializeJson (Json.str e.message) = serializeString e.message from rfl]
    rw [hin]
    have hsk0 : skipWs ('\x7b' :: '"':: 'c':: 'o':: 'd':: 'e':: '"':: ':'::
        (serializeJson (Json.num e.code) ++
          (',' :: '"':: 'm':: 'e':: 's':: 's':: 'a':: 'g':: 'e':: '"':: ':'::
            (serializeJson (Json.str e.message) ++
              (',' :: '"':: 'd':: 'a':: 't':: 'a':: '"':: ':'::
                (serializeJson d ++ '\x7d' :: rest)))))) =
        '\x7b' :: '"':: 'c':: 'o':: 'd':: 'e':: '"':: ':'::
          (serializeJson (Json.num e.code) ++
            (',' :: '"':: 'm':: 'e':: 's':: 's':: 'a':: 'g':: 'e':: '"':: ':'::
              (serializeJson (Json.str e.message) ++
                (',' :: '"':: 'd':: 'a':: 't':: 'a':: '"':: ':'::
                  (serializeJson d ++ '\x7d' :: rest))))) :=
      skipWs_cons _ _ (by decide)
    have hsk1 : skipWs ('"':: 'c':: 'o':: 'd':: 'e':: '"':: ':'::
        (serializeJson (Json.num e.code) ++
          (',' :: '"':: 'm':: 'e':: 's':: 's':: 'a':: 'g':: 'e':: '"':: ':'::
            (serializeJson (Json.str e.message) ++
              (',' :: '"':: 'd':: 'a':: 't':: 'a':: '"':: ':'::
                (serializeJson d ++ '\x7d' :: rest)))))) =
        '"':: 'c':: 'o':: 'd':: 'e':: '"':: ':'::
          (serializeJson (Json.num e.code) ++
            (',' :: '"':: 'm':: 'e':: 's':: 's':: 'a':: 'g':: 'e':: '"':: ':'::
              (serializeJson (Json.str e.message) ++
                (',' :: '"':: 'd':: 'a':: 't':: 'a':: '"':: ':'::
                  (serializeJson d ++ '\x7d' :: rest))))) :=
      skipWs_cons _ _ (by decide)
    show parseVal ((jsize d + g + 4) + 1) _ = _
    simp only [parseVal, hsk0, hsk1]
    simp [responseErrorJson, hdata]
    rw [show jsize d + g + 4 = jsize d + g + 3 + 1 from rfl]
    rw [hm1]

/-- Parsing the serde serialization of a `ResponseMessage` (fields in
declaration order `id`, `result?`, `error?`) yields its sorted object
value. -/
theorem parseVal_responseMsg (f : Nat) (r : ResponseMessage) (rest : List Char)
    (hwfb : Message.wfB (.Response r) = true)
    (hf : 8 + (match r.result with | none => 0 | some v => jsize v) +
      (match r.error with
       | none => 0
       | some e => (match e.data with | none => 0 | some d => jsize d)) < f) :
    parseVal f (serializeResponseMsg r ++ rest) =
      some (responseJson r, rest) := by
  obtain ⟨⟨hid, hres0⟩, herr0⟩ :
      ((r.id < usizeBound ∧ wfOptValue r.result = true) ∧
        (match r.error with | none => true | some e => e.wfB) = true) := by
    simpa [Message.wfB, Bool.and_eq_true, decide_eq_true_eq] using hwfb
  have hid' : r.id < 18446744073709551616 := by
    rw [show (18446744073709551616 : Nat) = usizeBound from rfl]
    exact hid
  have hwfid : Json.wf (Json.num (r.id : Int)) = true := by
    simp [Json.wf, i64Bound, usizeBound]
    omega
  have hser_id : serializeJson (Json.num (r.id : Int)) = natToDigits r.id := by
    rw [show serializeJson (Json.num (r.id : Int)) = serializeInt (r.id : Int)
      from rfl, serializeInt, if_neg (by omega)]
    congr 1
  rcases hres : r.result with _ | v <;> rcases herr : r.error with _ | err
  · -- no result, no error: the single member `id`
    simp only [hres, herr] at hf
    obtain ⟨g, rfl⟩ : ∃ g, f = (g + 1) + 1 := ⟨f - 2, by omega⟩
    have hv1 := (parse_round g).1 (.num (r.id : Int)) ('\x7d' :: rest)
      (by rw [show jsize (Json.num (r.id : Int)) = 1 from rfl]; omega) hwfid
      ⟨by decide, by decide, by decide, by decide⟩
    have hm1 := parseMembers_open g "id".toList (.num (r.id : Int))
      ('\x7d' :: rest) hv1
    have hskb : skipWs ('\x7d' :: rest) = '\x7d' :: rest := skipWs_cons _ _ (by decide)
    simp [hskb, insertMember, containsKey, insertSorted,
      show escapeString ('i':: 'd'::[]) = 'i':: 'd'::([]:List Char) from rfl] at hm1
    have hin : serializeResponseMsg r ++ rest =
        '\x7b' :: '"':: 'i':: 'd':: '"':: ':'::
          (serializeJson (Json.num (r.id : Int)) ++ '\x7d' :: rest) := by
      rw [serializeResponseMsg, hres, herr]
      simp [hser_id]
    rw [hin]
    have hsk0 : skipWs ('\x7b' :: '"':: 'i':: 'd':: '"':: ':'::
        (serializeJson (Json.num (r.id : Int)) ++ '\x7d' :: rest)) =
        '\x7b' :: '"':: 'i':: 'd':: '"':: ':'::
          (serializeJson (Json.num (r.id : Int)) ++ '\x7d' :: rest) :=
      skipWs_cons _ _ (by decide)
    have hsk1 : skipWs ('"':: 'i':: 'd':: '"':: ':'::
        (serializeJson (Json.num (r.id : Int)) ++ '\x7d' :: rest)) =
        '"':: 'i':: 'd':: '"':: ':'::
          (serializeJson (Json.num (r.id : Int)) ++ '\x7d' :: rest) :=
      skipWs_cons _ _ (by decide)
    show parseVal ((g + 1) + 1) _ = _
    simp only [parseVal, hsk0, hsk1]
    simp [responseJson, responseJsonBase, hres, herr]
    rw [hm1]
  · -- no result, with error: members `id`, `error`
    simp only [hres, herr] at hf
    simp only [herr] at herr0
    obtain ⟨g, rfl⟩ : ∃ g, f = (g + 2) + 1 := ⟨f - 3, by omega⟩
    have hverr := parseVal_responseError g err ('\x7d' :: rest) herr0 (by omega)
    have hm2 := parseMembers_openB g "error".toList (responseErrorJson err)
      (serializeResponseError err) ('\x7d' :: rest) hverr
    have hskb : skipWs ('\x7d' :: rest) = '\x7d' :: rest := skipWs_cons _ _ (by decide)
    simp [hskb, insertMember, containsKey, insertSorted,
      show escapeString ('e':: 'r':: 'r':: 'o':: 'r'::[]) =
        'e':: 'r':: 'r':: 'o':: 'r'::([]:List Char) from rfl] at hm2
    have hv1 := (parse_round (g + 1)).1 (.num (r.id : Int))
      (',' :: '"':: 'e':: 'r':: 'r':: 'o':: 'r':: '"':: ':'::
        (serializeResponseError err ++ '\x7d' :: rest))
      (by rw [show jsize (Json.num (r.id : Int)) = 1 from rfl]; omega) hwfid
      ⟨by decide, by decide, by decide, by decide⟩
    have hm1 := parseMembers_open (g + 1) "id".toList (.num (r.id : Int))
      (',' :: '"':: 'e':: 'r':: 'r':: 'o':: 'r':: '"':: ':'::
        (serializeResponseError err ++ '\x7d' :: rest)) hv1
    have hskc : skipWs (',' :: '"':: 'e':: 'r':: 'r':: 'o':: 'r':: '"':: ':'::
        (serializeResponseError err ++ '\x7d' :: rest)) =
        ',' :: '"':: 'e':: 'r':: 'r':: 'o':: 'r':: '"':: ':'::
          (serializeResponseError err ++ '\x7d' :: rest) :=
      skipWs_cons _ _ (by decide)
    simp [hskc, hm2, insertMember, containsKey, insertSorted,
      show escapeString ('i':: 'd'::[]) = 'i':: 'd'::([]:List Char) from rfl,
      show strLt ('i':: 'd'::[]) ('e':: 'r':: 'r':: 'o':: 'r'::[]) = false
        from by decide] at hm1
    have hin : serializeResponseMsg r ++ rest =
        '\x7b' :: '"':: 'i':: 'd':: '"':: ':'::
          (serializeJson (Json.num (r.id : Int)) ++
            (',' :: '"':: 'e':: 'r':: 'r':: 'o':: 'r':: '"':: ':'::
              (serializeResponseError err ++ '\x7d' :: rest))) := by
      rw [serializeResponseMsg, hres, herr]
      simp [hser_id]
    rw [hin]
    have hsk0 : skipWs ('\x7b' :: '"':: 'i':: 'd':: '"':: ':'::
        (serializeJson (Json.num (r.id : Int)) ++
          (',' :: '"':: 'e':: 'r':: 'r':: 'o':: 'r':: '"':: ':'::
            (serializeResponseError err ++ '\x7d' :: rest)))) =
        '\x7b' :: '"':: 'i':: 'd':: '"':: ':'::
          (serializeJson (Json.num (r.id : Int)) ++
            (',' :: '"':: 'e':: 'r':: 'r':: 'o':: 'r':: '"':: ':'::
              (serializeResponseError err ++ '\x7d' :: rest))) :=
      skipWs_cons _ _ (by decide)
    have hsk1 : skipWs ('"':: 'i':: 'd':: '"':: ':'::
        (serializeJson (Json.num (r.id : Int)) ++
          (',' :: '"':: 'e':: 'r':: 'r':: 'o':: 'r':: '"':: ':'::
            (serializeResponseError err ++ '\x7d' :: rest)))) =
        '"':: 'i':: 'd':: '"':: ':'::
          (serializeJson (Json.num (r.id : Int)) ++
            (',' :: '"':: 'e':: 'r':: 'r':: 'o':: 'r':: '"':: ':'::
              (serializeResponseError err ++ '\x7d' :: rest))) :=
      skipWs_cons _ _ (by decide)
    show parseVal ((g + 2) + 1) _ = _
    simp only [parseVal, hsk0, hsk1]
    simp [responseJson, responseJsonBase, hres, herr]
    rw [show g + 2 = g + 1 + 1 from rfl]
    rw [hm1]
  · -- with result, no error: members `id`, `result`
    simp only [hres, herr] at hf
    rw [hres] at hres0
    obtain ⟨hwfv, _⟩ := wfOptValue_some v hres0
    obtain ⟨g, rfl⟩ : ∃ g, f = (g + 2) + 1 := ⟨f - 3, by omega⟩
    have hv2 := (parse_round g).1 v ('\x7d' :: rest) (by omega) hwfv
      ⟨by decide, by decide, by decide, by decide⟩
    have hm2 := parseMembers_open g "result".toList v ('\x7d' :: rest) hv2
    have hskb : skipWs ('\x7d' :: rest) = '\x7d' :: rest := skipWs_cons _ _ (by decide)
    simp [hskb, insertMember, containsKey, insertSorted,
      show escapeString ('r':: 'e':: 's':: 'u':: 'l':: 't'::[]) =
        'r':: 'e':: 's':: 'u':: 'l':: 't'::([]:List Char) from rfl] at hm2
    have hv1 := (parse_round (g + 1)).1 (.num (r.id : Int))
      (',' :: '"':: 'r':: 'e':: 's':: 'u':: 'l':: 't':: '"':: ':'::
        (serializeJson v ++ '\x7d' :: rest))
      (by rw [show jsize (Json.num (r.id : Int)) = 1 from rfl]; omega) hwfid
      ⟨by decide, by decide, by decide, by decide⟩
    have hm1 := parseMembers_open (g + 1) "id".toList (.num (r.id : Int))
      (',' :: '"':: 'r':: 'e':: 's':: 'u':: 'l':: 't':: '"':: ':'::
        (serializeJson v ++ '\x7d' :: rest)) hv1
    have hskc : skipWs (',' :: '"':: 'r':: 'e':: 's':: 'u':: 'l':: 't':: '"':: ':'::
        (serializeJson v ++ '\x7d' :: rest)) =
        ',' :: '"':: 'r':: 'e':: 's':: 'u':: 'l':: 't':: '"':: ':'::
          (serializeJson v ++ '\x7d' :: rest) := skipWs_cons _ _ (by decide)
    simp [hskc, hm2, insertMember, containsKey, insertSorted,
      show escapeString ('i':: 'd'::[]) = 'i':: 'd'::([]:List Char) from rfl,
      show strLt ('i':: 'd'::[]) ('r':: 'e':: 's':: 'u':: 'l':: 't'::[]) = true
        from by decide] at hm1
    have hin : serializeResponseMsg r ++ rest =
        '\x7b' :: '"':: 'i':: 'd':: '"':: ':'::
          (serializeJson (Json.num (r.id : Int)) ++
            (',' :: '"':: 'r':: 'e':: 's':: 'u':: 'l':: 't':: '"':: ':'::
              (serializeJson v ++ '\x7d' :: rest))) := by
      rw [serializeResponseMsg, hres, herr]
      simp [hser_id]
    rw [hin]
    have hsk0 : skipWs ('\x7b' :: '"':: 'i':: 'd':: '"':: ':'::
        (serializeJson (Json.num (r.id : Int)) ++
          (',' :: '"':: 'r':: 'e':: 's':: 'u':: 'l':: 't':: '"':: ':'::
            (serializeJson v ++ '\x7d' :: rest)))) =
        '\x7b' :: '"':: 'i':: 'd':: '"':: ':'::
          (serializeJson (Json.num (r.id : Int)) ++
            (',' :: '"':: 'r':: 'e':: 's':: 'u':: 'l':: 't':: '"':: ':'::
              (serializeJson v ++ '\x7d' :: rest))) :=
      skipWs_cons _ _ (by decide)
    have hsk1 : skipWs ('"':: 'i':: 'd':: '"':: ':'::
        (serializeJson (Json.num (r.id : Int)) ++
          (',' :: '"':: 'r':: 'e':: 's':: 'u':: 'l':: 't':: '"':: ':'::
            (serializeJson v ++ '\x7d' :: rest)))) =
        '"':: 'i':: 'd':: '"':: ':'::
          (serializeJson (Json.num (r.id : Int)) ++
            (',' :: '"':: 'r':: 'e':: 's':: 'u':: 'l':: 't':: '"':: ':'::
              (serializeJson v ++ '\x7d' :: rest))) :=
      skipWs_cons _ _ (by decide)
    show parseVal ((g + 2) + 1) _ = _
    simp only [parseVal, hsk0, hsk1]
    simp [responseJson, responseJsonBase, hres, herr]
    rw [show g + 2 = g + 1 + 1 from rfl]
    rw [hm1]
  · -- with result and error: members `id`, `result`, `error`
    simp only [hres, herr] at hf
    simp only [herr] at herr0
    rw [hres] at hres0
    obtain ⟨hwfv, _⟩ := wfOptValue_some v hres0
    obtain ⟨g, rfl⟩ : ∃ g, f = (g + 3) + 1 := ⟨f - 4, by omega⟩
    have hverr := parseVal_responseError g err ('\x7d' :: rest) herr0 (by omega)
    have hm3 := parseMembers_openB g "error".toList (responseErrorJson err)
      (serializeResponseError err) ('\x7d' :: rest) hverr
    have hskb : skipWs ('\x7d' :: rest) = '\x7d' :: rest := skipWs_cons _ _ (by decide)
    simp [hskb, insertMember, containsKey, insertSorted,
      show escapeString ('e':: 'r':: 'r':: 'o':: 'r'::[]) =
        'e':: 'r':: 'r':: 'o':: 'r'::([]:List Char) from rfl] at hm3
    have hv2 := (parse_round (g + 1)).1 v
      (',' :: '"':: 'e':: 'r':: 'r':: 'o':: 'r':: '"':: ':'::
        (serializeResponseError err ++ '\x7d' :: rest))
      (by omega) hwfv
      ⟨by decide, by decide, by decide, by decide⟩
    have hm2 := parseMembers_open (g + 1) "result".toList v
      (',' :: '"':: 'e':: 'r':: 'r':: 'o':: 'r':: '"':: ':'::
        (serializeResponseError err ++ '\x7d' :: rest)) hv2
    have hskc : skipWs (',' :: '"':: 'e':: 'r':: 'r':: 'o':: 'r':: '"':: ':'::
        (serializeResponseError err ++ '\x7d' :: rest)) =
        ',' :: '"':: 'e':: 'r':: 'r':: 'o':: 'r':: '"':: ':'::
          (serializeResponseError err ++ '\x7d' :: rest) :=
      skipWs_cons _ _ (by decide)
    simp [hskc, hm3, insertMember, containsKey, insertSorted,
      show escapeString ('r':: 'e':: 's':: 'u':: 'l':: 't'::[]) =
        'r':: 'e':: 's':: 'u':: 'l':: 't'::([]:List Char) from rfl,
      show strLt ('r':: 'e':: 's':: 'u':: 'l':: 't'::[]) ('e':: 'r':: 'r':: 'o':: 'r'::[]) =
        false from by decide] at hm2
    have hv1 := (parse_round (g + 2)).1 (.num (r.id : Int))
      (',' :: '"':: 'r':: 'e':: 's':: 'u':: 'l':: 't':: '"':: ':'::
        (serializeJson v ++
          (',' :: '"':: 'e':: 'r':: 'r':: 'o':: 'r':: '"':: ':'::
            (serializeResponseError err ++ '\x7d' :: rest))))
      (by rw [show jsize (Json.num (r.id : Int)) = 1 from rfl]; omega) hwfid
      ⟨by decide, by decide, by decide, by decide⟩
    have hm1 := parseMembers_open (g + 2) "id".toList (.num (r.id : Int))
      (',' :: '"':: 'r':: 'e':: 's':: 'u':: 'l':: 't':: '"':: ':'::
        (serializeJson v ++
          (',' :: '"':: 'e':: 'r':: 'r':: 'o':: 'r':: '"':: ':'::
            (serializeResponseError err ++ '\x7d' :: rest)))) hv1
    have hskd : skipWs (',' :: '"':: 'r':: 'e':: 's':: 'u':: 'l':: 't':: '"':: ':'::
        (serializeJson v ++
          (',' :: '"':: 'e':: 'r':: 'r':: 'o':: 'r':: '"':: ':'::
            (serializeResponseError err ++ '\x7d' :: rest)))) =
        ',' :: '"':: 'r':: 'e':: 's':: 'u':: 'l':: 't':: '"':: ':'::
          (serializeJson v ++
            (',' :: '"':: 'e':: 'r':: 'r':: 'o':: 'r':: '"':: ':'::
              (serializeResponseError err ++ '\x7d' :: rest))) :=
      skipWs_cons _ _ (by decide)
    simp [hskd, hm2, insertMember, containsKey, insertSorted,
      show escapeString ('i':: 'd'::[]) = 'i':: 'd'::([]:List Char) from rfl,
      show strLt ('i':: 'd'::[]) ('e':: 'r':: 'r':: 'o':: 'r'::[]) = false
        from by decide,
      show strLt ('i':: 'd'::[]) ('r':: 'e':: 's':: 'u':: 'l':: 't'::[]) = true
        from by decide] at hm1
    have hin : serializeResponseMsg r ++ rest =
        '\x7b' :: '"':: 'i':: 'd':: '"':: ':'::
          (serializeJson (Json.num (r.id : Int)) ++
            (',' :: '"':: 'r':: 'e':: 's':: 'u':: 'l':: 't':: '"':: ':'::
              (serializeJson v ++
                (',' :: '"':: 'e':: 'r':: 'r':: 'o':: 'r':: '"':: ':'::
                  (serializeResponseError err ++ '\x7d' :: rest))))) := by
      rw [serializeResponseMsg, hres, herr]
      simp [hser_id]
    rw [hin]
    have hsk0 : skipWs ('\x7b' :: '"':: 'i':: 'd':: '"':: ':'::
        (serializeJson (Json.num (r.id : Int)) ++
          (',' :: '"':: 'r':: 'e':: 's':: 'u':: 'l':: 't':: '"':: ':'::
            (serializeJson v ++
              (',' :: '"':: 'e':: 'r':: 'r':: 'o':: 'r':: '"':: ':'::
                (serializeResponseError err ++ '\x7d' :: rest)))))) =
        '\x7b' :: '"':: 'i':: 'd':: '"':: ':'::
          (serializeJson (Json.num (r.id : Int)) ++
            (',' :: '"':: 'r':: 'e':: 's':: 'u':: 'l':: 't':: '"':: ':'::
              (serializeJson v ++
                (',' :: '"':: 'e':: 'r':: 'r':: 'o':: 'r':: '"':: ':'::
                  (serializeResponseError err ++ '\x7d' :: rest))))) :=
      skipWs_cons _ _ (by decide)
    have hsk1 : skipWs ('"':: 'i':: 'd':: '"':: ':'::
        (serializeJson (Json.num (r.id : Int)) ++
          (',' :: '"':: 'r':: 'e':: 's':: 'u':: 'l':: 't':: '"':: ':'::
            (serializeJson v ++
              (',' :: '"':: 'e':: 'r':: 'r':: 'o':: 'r':: '"':: ':'::
                (serializeResponseError err ++ '\x7d' :: rest)))))) =
        '"':: 'i':: 'd':: '"':: ':'::
          (serializeJson (Json.num (r.id : Int)) ++
            (',' :: '"':: 'r':: 'e':: 's':: 'u':: 'l':: 't':: '"':: ':'::
              (serializeJson v ++
                (',' :: '"':: 'e':: 'r':: 'r':: 'o':: 'r':: '"':: ':'::
                  (serializeResponseError err ++ '\x7d' :: rest))))) :=
      skipWs_cons _ _ (by decide)
    show parseVal ((g + 3) + 1) _ = _
    simp only [parseVal, hsk0, hsk1]
    simp [responseJson, responseJsonBase, hres, herr]
    rw [show g + 3 = g + 2 + 1 from rfl]
    rw [hm1]

def messageJson : Message → Json
  | .Request r => requestJson r
  | .Response r => responseJson r
  | .Notofication n => notificationJson n

theorem decodeOptValue_eq (m : JsonObj) (key : List Char) (v : Json)
    (hl : lookupKey m key = some v) (hv : v ≠ Json.null) :
    decodeOptValue m key = some v := by
  rw [decodeOptValue, hl]
  cases v with
  | null => exact absurd rfl hv
  | bool b => rfl
  | num i => rfl
  | str s => rfl
  | arr items => rfl
  | obj mm => rfl

theorem decodeOptValue_none (m : JsonObj) (key : List Char)
    (hl : lookupKey m key = none) :
    decodeOptValue m key = none := by
  rw [decodeOptValue, hl]

theorem asU64_natCast (n : Nat) (h : n < usizeBound) :
    asU64 (Json.num (n : Int)) = some n := by
  rw [show asU64 (Json.num (n : Int)) =
    (if 0 ≤ (n : Int) && (n : Int) < (usizeBound : Int)
     then some ((n : Int)).toNat else none) from rfl]
  rw [if_pos]
  · rfl
  · rw [Bool.and_eq_true, decide_eq_true_eq, decide_eq_true_eq]
    exact ⟨Int.natCast_nonneg n, by exact_mod_cast h⟩

theorem asI32_eq (i : Int) (h1 : -(2147483648 : Int) ≤ i)
    (h2 : i < 2147483648) : asI32 (Json.num i) = some i := by
  rw [show asI32 (Json.num i) =
    (if -(2147483648 : Int) ≤ i && i < 2147483648 then some i else none)
    from rfl]
  rw [if_pos]
  rw [Bool.and_eq_true, decide_eq_true_eq, decide_eq_true_eq]
  exact ⟨h1, h2⟩

theorem optSomeBind {α β : Type} (a : α) (f : α → Option β) :
    (some a >>= f) = f a := rfl

theorem optNoneBind {α β : Type} (f : α → Option β) :
    ((none : Option α) >>= f) = none := rfl

/-- One-step unfolding of `decodeRequest` on an object. -/
theorem decodeRequest_obj (m : JsonObj) :
    decodeRequest (Json.obj m) = (do
      let idv ← lookupKey m "id".toList
      let id ← asU64 idv
      let mv ← lookupKey m "method".toList
      let method ← asString mv
      let p ← lookupKey m "params".toList
      some ⟨id, method, p⟩) := by
  rfl

/-- One-step unfolding of `decodeResponse` on an object. -/
theorem decodeResponse_obj (m : JsonObj) :
    decodeResponse (Json.obj m) = (do
      let idv ← lookupKey m "id".toList
      let id ← asU64 idv
      let err ←
        match lookupKey m "error".toList with
        | none => some none
        | some .null => some none
        | some ev => (decodeResponseError ev).map some
      some ⟨id, decodeOptValue m "result".toList, err⟩) := by
  rfl

/-- One-step unfolding of `decodeNotification` on an object. -/
theorem decodeNotification_obj (m : JsonObj) :
    decodeNotification (Json.obj m) = (do
      let mv ← lookupKey m "method".toList
      let method ← asString mv
      let p ← lookupKey m "params".toList
      some ⟨method, p⟩) := by
  rfl

/-- One-step unfolding of `decodeResponseError` on an object. -/
theorem decodeResponseError_obj (m : JsonObj) :
    decodeResponseError (Json.obj m) = (do
      let cv ← lookupKey m "code".toList
      let code ← asI32 cv
      let mv ← lookupKey m "message".toList
      let msg ← asString mv
      some ⟨code, msg, decodeOptValue m "data".toList⟩) := by
  rfl

/-- The untagged decode of a request object recovers the request. -/
theorem jsonToMessage_request (r : RequestMessage) (hid : r.id < usizeBound) :
    jsonToMessage (requestJson r) = some (.Request r) := by
  obtain ⟨rid, rm, rp⟩ := r
  have hl1 : lookupKey (.cons "id".toList (.num (rid : Int))
      (.cons "method".toList (.str rm)
        (.cons "params".toList rp .nil))) "id".toList = some (.num (rid : Int)) := by
    rw [lookupKey, if_pos rfl]
  have hl2 : lookupKey (.cons "id".toList (.num (rid : Int))
      (.cons "method".toList (.str rm)
        (.cons "params".toList rp .nil))) "method".toList = some (.str rm) := by
    rw [lookupKey, if_neg (by decide), lookupKey, if_pos rfl]
  have hl3 : lookupKey (.cons "id".toList (.num (rid : Int))
      (.cons "method".toList (.str rm)
        (.cons "params".toList rp .nil))) "params".toList = some rp := by
    rw [lookupKey, if_neg (by decide), lookupKey, if_neg (by decide),
      lookupKey, if_pos rfl]
  have hreq : decodeRequest (requestJson ⟨rid, rm, rp⟩) = some ⟨rid, rm, rp⟩ := by
    rw [requestJson, decodeRequest_obj]
    rw [hl1, optSomeBind, asU64_natCast rid hid, optSomeBind, hl2,
      optSomeBind, show asString (Json.str rm) = some rm from rfl,
      optSomeBind, hl3, optSomeBind]
  rw [jsonToMessage, hreq]

/-- The untagged decode of a notification object recovers the
notification: the `Request` and `Response` variants are tried first and
fail for lack of an `id` member. -/
theorem jsonToMessage_notification (n : NotificationMessage) :
    jsonToMessage (notificationJson n) = some (.Notofication n) := by
  obtain ⟨nm, np⟩ := n
  have hlid : lookupKey (.cons "method".toList (.str nm)
      (.cons "params".toList np .nil)) "id".toList = none := by
    rw [lookupKey, if_neg (by decide), lookupKey, if_neg (by decide)]
    rfl
  have hlm : lookupKey (.cons "method".toList (.str nm)
      (.cons "params".toList np .nil)) "method".toList = some (.str nm) := by
    rw [lookupKey, if_pos rfl]
  have hlp : lookupKey (.cons "method".toList (.str nm)
      (.cons "params".toList np .nil)) "params".toList = some np := by
    rw [lookupKey, if_neg (by decide), lookupKey, if_pos rfl]
  have hreq : decodeRequest (notificationJson ⟨nm, np⟩) = none := by
    rw [notificationJson, decodeRequest_obj, hlid, optNoneBind]
  have hresp : decodeResponse (notificationJson ⟨nm, np⟩) = none := by
    rw [notificationJson, decodeResponse_obj, hlid, optNoneBind]
  have hnot : decodeNotification (notificationJson ⟨nm, np⟩) =
      some ⟨nm, np⟩ := by
    rw [notificationJson, decodeNotification_obj, hlm, optSomeBind,
      show asString (Json.str nm) = some nm from rfl, optSomeBind, hlp,
      optSomeBind]
  rw [jsonToMessage, hreq, hresp, hnot]

/-- The untagged decode of a response object recovers the response: the
`Request` variant is tried first and fails for lack of a `method`
member. -/
theorem jsonToMessage_response (r : ResponseMessage)
    (hwfb : Message.wfB (.Response r) = true) :
    jsonToMessage (responseJson r) = some (.Response r) := by
  obtain ⟨rid, rres, rerr⟩ := r
  rcases rres with _ | v <;> rcases rerr with _ | err
  · obtain ⟨hid, -⟩ :
        (rid < usizeBound ∧ wfOptValue (none : Option Json) = true) := by
      simpa [Message.wfB, Bool.and_eq_true, decide_eq_true_eq] using hwfb
    have hlid : lookupKey (.cons "id".toList (.num (rid : Int)) .nil)
        "id".toList = some (.num (rid : Int)) := by
      rw [lookupKey, if_pos rfl]
    have hlm : lookupKey (.cons "id".toList (.num (rid : Int)) .nil)
        "method".toList = none := by
      rw [lookupKey, if_neg (by decide)]
      rfl
    have hlerr : lookupKey (.cons "id".toList (.num (rid : Int)) .nil)
        "error".toList = none := by
      rw [lookupKey, if_neg (by decide)]
      rfl
    have hlres : lookupKey (.cons "id".toList (.num (rid : Int)) .nil)
        "result".toList = none := by
      rw [lookupKey, if_neg (by decide)]
      rfl
    have hreq : decodeRequest (Json.obj (.cons "id".toList (.num (rid : Int))
        .nil)) = none := by
      rw [decodeRequest_obj, hlid, optSomeBind, asU64_natCast rid hid,
        optSomeBind, hlm, optNoneBind]
    have hresp : decodeResponse (Json.obj (.cons "id".toList (.num (rid : Int))
        .nil)) = some ⟨rid, none, none⟩ := by
      rw [decodeResponse_obj, hlid, optSomeBind, asU64_natCast rid hid,
        optSomeBind, hlerr, decodeOptValue_none _ _ hlres]
      rfl
    rw [show responseJson ⟨rid, none, none⟩ =
      Json.obj (.cons "id".toList (.num (rid : Int)) .nil) from rfl]
    rw [jsonToMessage, hreq, hresp]
  · obtain ⟨ec, em, ed⟩ := err
    obtain ⟨⟨hid, -⟩, ⟨hc1, hc2⟩, hwfd⟩ :
        ((rid < usizeBound ∧ wfOptValue (none : Option Json) = true) ∧
          ((-(2147483648 : Int) ≤ ec ∧ ec < 2147483648) ∧
            wfOptValue ed = true)) := by
      simpa [Message.wfB, ResponseError.wfB, Bool.and_eq_true,
        decide_eq_true_eq] using hwfb
    rcases ed with _ | d
    · have hlcode : lookupKey (.cons "code".toList (.num ec)
          (.cons "message".toList (.str em) .nil)) "code".toList =
          some (.num ec) := by
        rw [lookupKey, if_pos rfl]
      have hlmsg : lookupKey (.cons "code".toList (.num ec)
          (.cons "message".toList (.str em) .nil)) "message".toList =
          some (.str em) := by
        rw [lookupKey, if_neg (by decide), lookupKey, if_pos rfl]
      have hldata : lookupKey (.cons "code".toList (.num ec)
          (.cons "message".toList (.str em) .nil)) "data".toList = none := by
        rw [lookupKey, if_neg (by decide), lookupKey, if_neg (by decide)]
        rfl
      have herrdec : decodeResponseError (Json.obj (.cons "code".toList (.num ec)
          (.cons "message".toList (.str em) .nil))) = some ⟨ec, em, none⟩ := by
        rw [decodeResponseError_obj, hlcode, optSomeBind, asI32_eq ec hc1 hc2,
          optSomeBind, hlmsg, optSomeBind,
          show asString (Json.str em) = some em from rfl, optSomeBind,
          decodeOptValue_none _ _ hldata]
      have hlid : lookupKey (.cons "error".toList
          (.obj (.cons "code".toList (.num ec)
            (.cons "message".toList (.str em) .nil)))
          (.cons "id".toList (.num (rid : Int)) .nil)) "id".toList =
          some (.num (rid : Int)) := by
        rw [lookupKey, if_neg (by decide), lookupKey, if_pos rfl]
      have hlm : lookupKey (.cons "error".toList
          (.obj (.cons "code".toList (.num ec)
            (.cons "message".toList (.str em) .nil)))
          (.cons "id".toList (.num (rid : Int)) .nil)) "method".toList =
          none := by
        rw [lookupKey, if_neg (by decide), lookupKey, if_neg (by decide)]
        rfl
      have hlerr : lookupKey (.cons "error".toList
          (.obj (.cons "code".toList (.num ec)
            (.cons "message".toList (.str em) .nil)))
          (.cons "id".toList (.num (rid : Int)) .nil)) "error".toList =
          some (.obj (.cons "code".toList (.num ec)
            (.cons "message".toList (.str em) .nil))) := by
        rw [lookupKey, if_pos rfl]
      have hlres : lookupKey (.cons "error".toList
          (.obj (.cons "code".toList (.num ec)
            (.cons "message".toList (.str em) .nil)))
          (.cons "id".toList (.num (rid : Int)) .nil)) "result".toList =
          none := by
        rw [lookupKey, if_neg (by decide), lookupKey, if_neg (by decide)]
        rfl
      have hreq : decodeRequest (Json.obj (.cons "error".toList
          (.obj (.cons "code".toList (.num ec)
            (.cons "message".toList (.str em) .nil)))
          (.cons "id".toList (.num (rid : Int)) .nil))) = none := by
        rw [decodeRequest_obj, hlid, optSomeBind, asU64_natCast rid hid,
          optSomeBind, hlm, optNoneBind]
      have hresp : decodeResponse (Json.obj (.cons "error".toList
          (.obj (.cons "code".toList (.num ec)
            (.cons "message".toList (.str em) .nil)))
          (.cons "id".toList (.num (rid : Int)) .nil))) =
          some ⟨rid, none, some ⟨ec, em, none⟩⟩ := by
        rw [decodeResponse_obj, hlid, optSomeBind, asU64_natCast rid hid,
          optSomeBind, hlerr]
        show ((decodeResponseError (Json.obj (.cons "code".toList (.num ec)
            (.cons "message".toList (.str em) .nil)))).map some >>=
          fun err => some (ResponseMessage.mk rid (decodeOptValue (.cons "error".toList
            (.obj (.cons "code".toList (.num ec)
              (.cons "message".toList (.str em) .nil)))
            (.cons "id".toList (.num (rid : Int)) .nil)) "result".toList)
            err)) = some (ResponseMessage.mk rid none
              (some (ResponseError.mk ec em none)))
        rw [herrdec, decodeOptValue_none _ _ hlres]
        rfl
      rw [show responseJson ⟨rid, none, some ⟨ec, em, none⟩⟩ =
        Json.obj (.cons "error".toList
          (.obj (.cons "code".toList (.num ec)
            (.cons "message".toList (.str em) .nil)))
          (.cons "id".toList (.num (rid : Int)) .nil)) from rfl]
      rw [jsonToMessage, hreq, hresp]
    · obtain ⟨-, hdnn⟩ := wfOptValue_some d hwfd
      have hlcode : lookupKey (.cons "code".toList (.num ec)
          (.cons "data".toList d
            (.cons "message".toList (.str em) .nil))) "code".toList =
          some (.num ec) := by
        rw [lookupKey, if_pos rfl]
      have hlmsg : lookupKey (.cons "code".toList (.num ec)
          (.cons "data".toList d
            (.cons "message".toList (.str em) .nil))) "message".toList =
          some (.str em) := by
        rw [lookupKey, if_neg (by decide), lookupKey, if_neg (by decide),
          lookupKey, if_pos rfl]
      have hldata : lookupKey (.cons "code".toList (.num ec)
          (.cons "data".toList d
            (.cons "message".toList (.str em) .nil))) "data".toList =
          some d := by
        rw [lookupKey, if_neg (by decide), lookupKey, if_pos rfl]
      have herrdec : decodeResponseError (Json.obj (.cons "code".toList (.num ec)
          (.cons "data".toList d
            (.cons "message".toList (.str em) .nil)))) =
          some ⟨ec, em, some d⟩ := by
        rw [decodeResponseError_obj, hlcode, optSomeBind, asI32_eq ec hc1 hc2,
          optSomeBind, hlmsg, optSomeBind,
          show asString (Json.str em) = some em from rfl, optSomeBind,
          decodeOptValue_eq _ _ d hldata hdnn]
      have hlid : lookupKey (.cons "error".toList
          (.obj (.cons "code".toList (.num ec)
            (.cons "data".toList d
              (.cons "message".toList (.str em) .nil))))
          (.cons "id".toList (.num (rid : Int)) .nil)) "id".toList =
          some (.num (rid : Int)) := by
        rw [lookupKey, if_neg (by decide), lookupKey, if_pos rfl]
      have hlm : lookupKey (.cons "error".toList
          (.obj (.cons "code".toList (.num ec)
            (.cons "data".toList d
              (.cons "message".toList (.str em) .nil))))
          (.cons "id".toList (.num (rid : Int)) .nil)) "method".toList =
          none := by
        rw [lookupKey, if_neg (by decide), lookupKey, if_neg (by decide)]
        rfl
      have hlerr : lookupKey (.cons "error".toList
          (.obj (.cons "code".toList (.num ec)
            (.cons "data".toList d
              (.cons "message".toList (.str em) .nil))))
          (.cons "id".toList (.num (rid : Int)) .nil)) "error".toList =
          some (.obj (.cons "code".toList (.num ec)
            (.cons "data".toList d
              (.cons "message".toList (.str em) .nil)))) := by
        rw [lookupKey, if_pos rfl]
      have hlres : lookupKey (.cons "error".toList
          (.obj (.cons "code".toList (.num ec)
            (.cons "data".toList d
              (.cons "message".toList (.str em) .nil))))
          (.cons "id".toList (.num (rid : Int)) .nil)) "result".toList =
          none := by
        rw [lookupKey, if_neg (by decide), lookupKey, if_neg (by decide)]
        rfl
      have hreq : decodeRequest (Json.obj (.cons "error".toList
          (.obj (.cons "code".toList (.num ec)
            (.cons "data".toList d
              (.cons "message".toList (.str em) .nil))))
          (.cons "id".toList (.num (rid : Int)) .nil))) = none := by
        rw [decodeRequest_obj, hlid, optSomeBind, asU64_natCast rid hid,
          optSomeBind, hlm, optNoneBind]
      have hresp : decodeResponse (Json.obj (.cons "error".toList
          (.obj (.cons "code".toList (.num ec)
            (.cons "data".toList d
              (.cons "message".toList (.str em) .nil))))
          (.cons "id".toList (.num (rid : Int)) .nil))) =
          some ⟨rid, none, some ⟨ec, em, some d⟩⟩ := by
        rw [decodeResponse_obj, hlid, optSomeBind, asU64_natCast rid hid,
          optSomeBind, hlerr]
        show ((decodeResponseError (Json.obj (.cons "code".toList (.num ec)
            (.cons "data".toList d
              (.cons "message".toList (.str em) .nil))))).map some >>=
          fun err => some (ResponseMessage.mk rid (decodeOptValue (.cons "error".toList
            (.obj (.cons "code".toList (.num ec)
              (.cons "data".toList d
                (.cons "message".toList (.str em) .nil))))
            (.cons "id".toList (.num (rid : Int)) .nil)) "result".toList)
            err)) = some (ResponseMessage.mk rid none
              (some (ResponseError.mk ec em (some d))))
        rw [herrdec, decodeOptValue_none _ _ hlres]
        rfl
      rw [show responseJson ⟨rid, none, some ⟨ec, em, some d⟩⟩ =
        Json.obj (.cons "error".toList
          (.obj (.cons "code".toList (.num ec)
            (.cons "data".toList d
              (.cons "message".toList (.str em) .nil))))
          (.cons "id".toList (.num (rid : Int)) .nil)) from rfl]
      rw [jsonToMessage, hreq, hresp]
  · obtain ⟨hid, hres0⟩ :
        (rid < usizeBound ∧ wfOptValue (some v) = true) := by
      simpa [Message.wfB, Bool.and_eq_true, decide_eq_true_eq] using hwfb
    obtain ⟨-, hvnn⟩ := wfOptValue_some v hres0
    have hlid : lookupKey (.cons "id".toList (.num (rid : Int))
        (.cons "result".toList v .nil)) "id".toList =
        some (.num (rid : Int)) := by
      rw [lookupKey, if_pos rfl]
    have hlm : lookupKey (.cons "id".toList (.num (rid : Int))
        (.cons "result".toList v .nil)) "method".toList = none := by
      rw [lookupKey, if_neg (by decide), lookupKey, if_neg (by decide)]
      rfl
    have hlerr : lookupKey (.cons "id".toList (.num (rid : Int))
        (.cons "result".toList v .nil)) "error".toList = none := by
      rw [lookupKey, if_neg (by decide), lookupKey, if_neg (by decide)]
      rfl
    have hlres : lookupKey (.cons "id".toList (.num (rid : Int))
        (.cons "result".toList v .nil)) "result".toList = some v := by
      rw [lookupKey, if_neg (by decide), lookupKey, if_pos rfl]
    have hreq : decodeRequest (Json.obj (.cons "id".toList (.num (rid : Int))
        (.cons "result".toList v .nil))) = none := by
      rw [decodeRequest_obj, hlid, optSomeBind, asU64_natCast rid hid,
        optSomeBind, hlm, optNoneBind]
    have hresp : decodeResponse (Json.obj (.cons "id".toList (.num (rid : Int))
        (.cons "result".toList v .nil))) = some ⟨rid, some v, none⟩ := by
      rw [decodeResponse_obj, hlid, optSomeBind, asU64_natCast rid hid,
        optSomeBind, hlerr, decodeOptValue_eq _ _ v hlres hvnn]
      rfl
    rw [show responseJson ⟨rid, some v, none⟩ =
      Json.obj (.cons "id".toList (.num (rid : Int))
        (.cons "result".toList v .nil)) from rfl]
    rw [jsonToMessage, hreq, hresp]
  · obtain ⟨ec, em, ed⟩ := err
    obtain ⟨⟨hid, hres0⟩, ⟨hc1, hc2⟩, hwfd⟩ :
        ((rid < usizeBound ∧ wfOptValue (some v) = true) ∧
          ((-(2147483648 : Int) ≤ ec ∧ ec < 2147483648) ∧
            wfOptValue ed = true)) := by
      simpa [Message.wfB, ResponseError.wfB, Bool.and_eq_true,
        decide_eq_true_eq] using hwfb
    obtain ⟨-, hvnn⟩ := wfOptValue_some v hres0
    rcases ed with _ | d
    · have hlcode : lookupKey (.cons "code".toList (.num ec)
          (.cons "message".toList (.str em) .nil)) "code".toList =
          some (.num ec) := by
        rw [lookupKey, if_pos rfl]
      have hlmsg : lookupKey (.cons "code".toList (.num ec)
          (.cons "message".toList (.str em) .nil)) "message".toList =
          some (.str em) := by
        rw [lookupKey, if_neg (by decide), lookupKey, if_pos rfl]
      have hldata : lookupKey (.cons "code".toList (.num ec)
          (.cons "message".toList (.str em) .nil)) "data".toList = none := by
        rw [lookupKey, if_neg (by decide), lookupKey, if_neg (by decide)]
        rfl
      have herrdec : decodeResponseError (Json.obj (.cons "code".toList (.num ec)
          (.cons "message".toList (.str em) .nil))) = some ⟨ec, em, none⟩ := by
        rw [decodeResponseError_obj, hlcode, optSomeBind, asI32_eq ec hc1 hc2,
          optSomeBind, hlmsg, optSomeBind,
          show asString (Json.str em) = some em from rfl, optSomeBind,
          decodeOptValue_none _ _ hldata]
      have hlid : lookupKey (.cons "error".toList
          (.obj (.cons "code".toList (.num ec)
            (.cons "message".toList (.str em) .nil)))
          (.cons "id".toList (.num (rid : Int))
            (.cons "result".toList v .nil))) "id".toList =
          some (.num (rid : Int)) := by
        rw [lookupKey, if_neg (by decide), lookupKey, if_pos rfl]
      have hlm : lookupKey (.cons "error".toList
          (.obj (.cons "code".toList (.num ec)
            (.cons "message".toList (.str em) .nil)))
          (.cons "id".toList (.num (rid : Int))
            (.cons "result".toList v .nil))) "method".toList = none := by
        rw [lookupKey, if_neg (by decide), lookupKey, if_neg (by decide),
          lookupKey, if_neg (by decide)]
        rfl
      have hlerr : lookupKey (.cons "error".toList
          (.obj (.cons "code".toList (.num ec)
            (.cons "message".toList (.str em) .nil)))
          (.cons "id".toList (.num (rid : Int))
            (.cons "result".toList v .nil))) "error".toList =
          some (.obj (.cons "code".toList (.num ec)
            (.cons "message".toList (.str em) .nil))) := by
        rw [lookupKey, if_pos rfl]
      have hlres : lookupKey (.cons "error".toList
          (.obj (.cons "code".toList (.num ec)
            (.cons "message".toList (.str em) .nil)))
          (.cons "id".toList (.num (rid : Int))
            (.cons "result".toList v .nil))) "result".toList = some v := by
        rw [lookupKey, if_neg (by decide), lookupKey, if_neg (by decide),
          lookupKey, if_pos rfl]
      have hreq : decodeRequest (Json.obj (.cons "error".toList
          (.obj (.cons "code".toList (.num ec)
            (.cons "message".toList (.str em) .nil)))
          (.cons "id".toList (.num (rid : Int))
            (.cons "result".toList v .nil)))) = none := by
        rw [decodeRequest_obj, hlid, optSomeBind, asU64_natCast rid hid,
          optSomeBind, hlm, optNoneBind]
      have hresp : decodeResponse (Json.obj (.cons "error".toList
          (.obj (.cons "code".toList (.num ec)
            (.cons "message".toList (.str em) .nil)))
          (.cons "id".toList (.num (rid : Int))
            (.cons "result".toList v .nil)))) =
          some ⟨rid, some v, some ⟨ec, em, none⟩⟩ := by
        rw [decodeResponse_obj, hlid, optSomeBind, asU64_natCast rid hid,
          optSomeBind, hlerr]
        show ((decodeResponseError (Json.obj (.cons "code".toList (.num ec)
            (.cons "message".toList (.str em) .nil)))).map some >>=
          fun err => some (ResponseMessage.mk rid (decodeOptValue (.cons "error".toList
            (.obj (.cons "code".toList (.num ec)
              (.cons "message".toList (.str em) .nil)))
            (.cons "id".toList (.num (rid : Int))
              (.cons "result".toList v .nil))) "result".toList)
            err)) = some (ResponseMessage.mk rid (some v)
              (some (ResponseError.mk ec em none)))
        rw [herrdec, decodeOptValue_eq _ _ v hlres hvnn]
        rfl
      rw [show responseJson ⟨rid, some v, some ⟨ec, em, none⟩⟩ =
        Json.obj (.cons "error".toList
          (.obj (.cons "code".toList (.num ec)
            (.cons "message".toList (.str em) .nil)))
          (.cons "id".toList (.num (rid : Int))
            (.cons "result".toList v .nil))) from rfl]
      rw [jsonToMessage, hreq, hresp]
    · obtain ⟨-, hdnn⟩ := wfOptValue_some d hwfd
      have hlcode : lookupKey (.cons "code".toList (.num ec)
          (.cons "data".toList d
            (.cons "message".toList (.str em) .nil))) "code".toList =
          some (.num ec) := by
        rw [lookupKey, if_pos rfl]
      have hlmsg : lookupKey (.cons "code".toList (.num ec)
          (.cons "data".toList d
            (.cons "message".toList (.str em) .nil))) "message".toList =
          some (.str em) := by
        rw [lookupKey, if_neg (by decide), lookupKey, if_neg (by decide),
          lookupKey, if_pos rfl]
      have hldata : lookupKey (.cons "code".toList (.num ec)
          (.cons "data".toList d
            (.cons "message".toList (.str em) .nil))) "data".toList =
          some d := by
        rw [lookupKey, if_neg (by decide), lookupKey, if_pos rfl]
      have herrdec : decodeResponseError (Json.obj (.cons "code".toList (.num ec)
          (.cons "data".toList d
            (.cons "message".toList (.str em) .nil)))) =
          some ⟨ec, em, some d⟩ := by
        rw [decodeResponseError_obj, hlcode, optSomeBind, asI32_eq ec hc1 hc2,
          optSomeBind, hlmsg, optSomeBind,
          show asString (Json.str em) = some em from rfl, optSomeBind,
          decodeOptValue_eq _ _ d hldata hdnn]
      have hlid : lookupKey (.cons "error".toList
          (.obj (.cons "code".toList (.num ec)
            (.cons "data".toList d
              (.cons "message".toList (.str em) .nil))))
          (.cons "id".toList (.num (rid : Int))
            (.cons "result".toList v .nil))) "id".toList =
          some (.num (rid : Int)) := by
        rw [lookupKey, if_neg (by decide), lookupKey, if_pos rfl]
      have hlm : lookupKey (.cons "error".toList
          (.obj (.cons "code".toList (.num ec)
            (.cons "data".toList d
              (.cons "message".toList (.str em) .nil))))
          (.cons "id".toList (.num (rid : Int))
            (.cons "result".toList v .nil))) "method".toList = none := by
        rw [lookupKey, if_neg (by decide), lookupKey, if_neg (by decide),
          lookupKey, if_neg (by decide)]
        rfl
      have hlerr : lookupKey (.cons "error".toList
          (.obj (.cons "code".toList (.num ec)
            (.cons "data".toList d
              (.cons "message".toList (.str em) .nil))))
          (.cons "id".toList (.num (rid : Int))
            (.cons "result".toList v .nil))) "error".toList =
          some (.obj (.cons "code".toList (.num ec)
            (.cons "data".toList d
              (.cons "message".toList (.str em) .nil)))) := by
        rw [lookupKey, if_pos rfl]
      have hlres : lookupKey (.cons "error".toList
          (.obj (.cons "code".toList (.num ec)
            (.cons "data".toList d
              (.cons "message".toList (.str em) .nil))))
          (.cons "id".toList (.num (rid : Int))
            (.cons "result".toList v .nil))) "result".toList = some v := by
        rw [lookupKey, if_neg (by decide), lookupKey, if_neg (by decide),
          lookupKey, if_pos rfl]
      have hreq : decodeRequest (Json.obj (.cons "error".toList
          (.obj (.cons "code".toList (.num ec)
            (.cons "data".toList d
              (.cons "message".toList (.str em) .nil))))
          (.cons "id".toList (.num (rid : Int))
            (.cons "result".toList v .nil)))) = none := by
        rw [decodeRequest_obj, hlid, optSomeBind, asU64_natCast rid hid,
          optSomeBind, hlm, optNoneBind]
      have hresp : decodeResponse (Json.obj (.cons "error".toList
          (.obj (.cons "code".toList (.num ec)
            (.cons "data".toList d
              (.cons "message".toList (.str em) .nil))))
          (.cons "id".toList (.num (rid : Int))
            (.cons "result".toList v .nil)))) =
          some ⟨rid, some v, some ⟨ec, em, some d⟩⟩ := by
        rw [decodeResponse_obj, hlid, optSomeBind, asU64_natCast rid hid,
          optSomeBind, hlerr]
        show ((decodeResponseError (Json.obj (.cons "code".toList (.num ec)
            (.cons "data".toList d
              (.cons "message".toList (.str em) .nil))))).map some >>=
          fun err => some (ResponseMessage.mk rid (decodeOptValue (.cons "error".toList
            (.obj (.cons "code".toList (.num ec)
              (.cons "data".toList d
                (.cons "message".toList (.str em) .nil))))
            (.cons "id".toList (.num (rid : Int))
              (.cons "result".toList v .nil))) "result".toList)
            err)) = some (ResponseMessage.mk rid (some v)
              (some (ResponseError.mk ec em (some d))))
        rw [herrdec, decodeOptValue_eq _ _ v hlres hvnn]
        rfl
      rw [show responseJson ⟨rid, some v, some ⟨ec, em, some d⟩⟩ =
        Json.obj (.cons "error".toList
          (.obj (.cons "code".toList (.num ec)
            (.cons "data".toList d
              (.cons "message".toList (.str em) .nil))))
          (.cons "id".toList (.num (rid : Int))
            (.cons "result".toList v .nil))) from rfl]
      rw [jsonToMessage, hreq, hresp]

/-- Fuel bound for parsing a serialized response from its own length. -/
theorem respFuel (r : ResponseMessage) :
    8 + (match r.result with | none => 0 | some v => jsize v) +
      (match r.error with
       | none => 0
       | some e => (match e.data with | none => 0 | some d => jsize d)) <
    (serializeResponseMsg r).length + 1 := by
  obtain ⟨hdne, -, -⟩ := natToDigits_spec r.id
  have hnd : 1 ≤ (natToDigits r.id).length := List.length_pos.2 hdne
  have herrlen : ∀ e : ResponseError,
      1 + (match e.data with | none => 0 | some d => jsize d) ≤
        (serializeResponseError e).length := by
    intro e
    rcases hdata : e.data with _ | d
    · rw [serializeResponseError, hdata]
      simp [List.length_append]
    · have hd := jsize_le_len d
      rw [serializeResponseError, hdata]
      simp [List.length_append]
      omega
  rcases hres : r.result with _ | v <;> rcases herr : r.error with _ | err
  · rw [serializeResponseMsg, hres, herr]
    simp [List.length_append]
    omega
  · have he := herrlen err
    rw [serializeResponseMsg, hres, herr]
    simp [List.length_append]
    omega
  · have hv := jsize_le_len v
    rw [serializeResponseMsg, hres, herr]
    simp [List.length_append]
    omega
  · have hv := jsize_le_len v
    have he := herrlen err
    rw [serializeResponseMsg, hres, herr]
    simp [List.length_append]
    omega

/-- C1 core: `Message::from_slice` inverts `serde_json::to_string` on
every well-formed message. -/
theorem from_slice_serializeMessage (M : Message) (hwf : Message.wfB M = true) :
    Message.from_slice (serializeMessage M) = some M := by
  cases M with
  | Request r =>
    obtain ⟨hid, hwfp⟩ : (r.id < usizeBound ∧ Json.wf r.params = true) := by
      simpa [Message.wfB, Bool.and_eq_true, decide_eq_true_eq] using hwf
    have hjl := jsize_le_len r.params
    have hlen : 27 + (serializeJson r.params).length ≤
        (serializeRequest r).length := by
      rw [serializeRequest]
      simp [List.length_append]
      omega
    obtain ⟨f, hf4, hjf⟩ : ∃ f, (serializeRequest r).length + 1 = f + 4 ∧
        jsize r.params < f :=
      ⟨(serializeRequest r).length - 3, by omega, by omega⟩
    have hpv := parseVal_request f r [] hid hwfp hjf
    rw [List.append_nil] at hpv
    have hdoc : parseDocument (serializeRequest r) = some (requestJson r) := by
      rw [parseDocument, hf4, hpv]
      rfl
    rw [show serializeMessage (.Request r) = serializeRequest r from rfl,
      Message.from_slice, hdoc]
    show jsonToMessage (requestJson r) = some (.Request r)
    exact jsonToMessage_request r hid
  | Response r =>
    have hfu := respFuel r
    have hpv := parseVal_responseMsg ((serializeResponseMsg r).length + 1) r []
      hwf hfu
    rw [List.append_nil] at hpv
    have hdoc : parseDocument (serializeResponseMsg r) =
        some (responseJson r) := by
      rw [parseDocument, hpv]
      rfl
    rw [show serializeMessage (.Response r) = serializeResponseMsg r from rfl,
      Message.from_slice, hdoc]
    show jsonToMessage (responseJson r) = some (.Response r)
    exact jsonToMessage_response r hwf
  | Notofication n =>
    have hwfp : Json.wf n.params = true := by
      simpa [Message.wfB] using hwf
    have hjl := jsize_le_len n.params
    have hlen : 21 + (serializeJson n.params).length ≤
        (serializeNotification n).length := by
      rw [serializeNotification]
      simp [List.length_append]
      omega
    obtain ⟨f, hf3, hjf⟩ : ∃ f, (serializeNotification n).length + 1 = f + 3 ∧
        jsize n.params < f :=
      ⟨(serializeNotification n).length - 2, by omega, by omega⟩
    have hpv := parseVal_notification f n [] hwfp hjf
    rw [List.append_nil] at hpv
    have hdoc : parseDocument (serializeNotification n) =
        some (notificationJson n) := by
      rw [parseDocument, hf3, hpv]
      rfl
    rw [show serializeMessage (.Notofication n) = serializeNotification n
      from rfl, Message.from_slice, hdoc]
    show jsonToMessage (notificationJson n) = some (.Notofication n)
    exact jsonToMessage_notification n

/-- The frame round trip: `read_message` on exactly the bytes that
`write_message` produced returns the message and consumes the whole
stream. -/
theorem read_message_write_message (M : Message) (hwf : Message.wfB M = true)
    (hbound : (serializeMessage M).length < usizeBound) :
    read_message (write_message M) = .ok (M, []) := by
  have hcase : ("Content-Length".toList).map asciiLower =
      "content-length".toList := by decide
  have hh := read_header_content_length "Content-Length".toList
    (serializeMessage M).length (serializeMessage M) hcase hbound
  have hw : write_message M =
      ("Content-Length".toList ++ ':' :: ' ' ::
        natToDigits (serializeMessage M).length) ++
      '\r' :: '\n' :: '\r' :: '\n' :: serializeMessage M := by
    rw [write_message, write_message_bytes]
    simp
  rw [hw, read_message, hh]
  show (if (serializeMessage M).length < (serializeMessage M).length then
      Except.error (Error.ProtocolError "failed to fill whole buffer".toList)
    else
      match Message.from_slice
          (List.take (serializeMessage M).length (serializeMessage M)) with
      | some m =>
        Except.ok (m, List.drop (serializeMessage M).length (serializeMessage M))
      | none =>
        Except.error (Error.ProtocolError "Failed to parse message".toList)) =
    Except.ok (M, [])
  rw [if_neg (lt_irrefl _)]
  rw [List.take_length, from_slice_serializeMessage M hwf, List.drop_length]

/-- C1, counterexample to the claim as stated: the round-trip law fails
for the `Response` message whose `result` is `Some(Value::Null)`.  Its
serialization is `{"id":1,"result":null}`, and on decode serde's
`Option<Value>` folds the explicit `null` back to `None`, so
`read_message` returns a structurally different message. -/
theorem C1_roundtrip_counterexample :
    read_message (write_message (.Response ⟨1, some .null, none⟩)) =
      .ok (.Response ⟨1, none, none⟩, []) ∧
    Message.Response ⟨1, some .null, none⟩ ≠ .Response ⟨1, none, none⟩ := by
  refine ⟨rfl, fun h => ?_⟩
  injection h with h2
  exact Option.noConfusion (congrArg ResponseMessage.result h2)

/-- C1 (amended): for every message `M` of the three shapes that is
representable on the Rust side — numeric fields in range and no optional
`Value` field holding an explicit `null` (`Message.wfB`), and body length
within `usize` — `read_message` on exactly the bytes `write_message`
produced for `M` returns a message structurally equal to `M` and
consumes the whole stream.  (The claim as stated fails for a `Response`
with `result = Some(Null)` — see the counterexample.) -/
theorem C1_roundtrip_amended (M : Message) (hwf : Message.wfB M = true)
    (hbound : (serializeMessage M).length < usizeBound) :
    read_message (write_message M) = .ok (M, []) :=
  read_message_write_message M hwf hbound

/-- Witness for C1 (amended), one concrete message per shape. -/
theorem C1_roundtrip_amended_witness :
    (Message.wfB (.Request ⟨1, "initialize".toList, .null⟩) = true ∧
      (serializeMessage (.Request ⟨1, "initialize".toList, .null⟩)).length <
        usizeBound) ∧
    read_message (write_message (.Request ⟨1, "initialize".toList, .null⟩)) =
      .ok (.Request ⟨1, "initialize".toList, .null⟩, []) ∧
    read_message (write_message (.Response ⟨2, some (.bool true),
      some ⟨-32002, "err".toList, none⟩⟩)) =
      .ok (.Response ⟨2, some (.bool true), some ⟨-32002, "err".toList, none⟩⟩, []) ∧
    read_message (write_message (.Notofication ⟨"exit".toList, .null⟩)) =
      .ok (.Notofication ⟨"exit".toList, .null⟩, []) :=
  ⟨⟨by decide, by decide⟩,
    C1_roundtrip_amended (.Request ⟨1, "initialize".toList, .null⟩)
      (by decide) (by decide),
    C1_roundtrip_amended (.Response ⟨2, some (.bool true),
      some ⟨-32002, "err".toList, none⟩⟩) (by decide) (by decide),
    C1_roundtrip_amended (.Notofication ⟨"exit".toList, .null⟩)
      (by decide) (by decide)⟩
